import Mathlib

/-!
# cnake: a shallow embedding of `src/cnake.c` and its specification

The C program is a terminal snake game.  The embedding keeps the program's
function names.  Conventions:

* `char` is a signed 8-bit integer; a value of that type is an `Int` in
  `[-128, 127]`, and every store of an `int` into a `char` goes through
  `toChar` (wrap-around modulo 256).
* `int` values (indices, loop counters, `rows`, `columns`) are unbounded
  integers; quantities that the program never makes negative (`rows`,
  `columns`, `length`, loop counters) are natural numbers and are cast to
  `Int` where the C expression is signed (`columns * rows - 1`,
  `columns / 2 - 1`).
* Heap arrays are lists; an access outside the allocation, a dereference of
  an uninitialised slot and a division by zero are undefined behaviour and
  give `Exec.undefined`.
* `exit` is `Exec.exit` with the status, the printed message and whether
  `SnakeGame_Destroy` ran first.
* `rand()` is a list of draws supplied from outside, the pending key is a
  `Pending` value supplied per tick.
* `malloc`/`calloc` are assumed to succeed; the `InputHandler` (termios) and
  `usleep` have no effect on the game state and are left out.
-/

namespace Cnake

/-! ## Outcomes -/

/-- The texts the program prints right before it calls `exit`. -/
inductive Message where
  /-- The text "Victory, very cool!". -/
  | victory
  /-- The text "Unfortunate, the snake was %d tiles long." with its argument. -/
  | unfortunate (len : Nat)
  /-- The text "Snake_Move(): Invalid Direction". -/
  | invalidDirection
  /-- The text "SnakeGame_GameLoop(): Unknown collision type". -/
  | unknownCollision
  /-- The text "InputHandler_GetChar(): Invalid Character". -/
  | invalidCharacter
deriving DecidableEq, Repr

/-- A call of `exit`: its status, what was printed, and whether
`SnakeGame_Destroy` was called before it. -/
structure Exit where
  status : Int
  message : Message
  teardown : Bool
deriving DecidableEq, Repr

/-- Result of running a fragment of the program. -/
inductive Exec (α : Type) where
  /-- The fragment returned normally. -/
  | ok (a : α)
  /-- The fragment ended the process through `exit`. -/
  | exit (e : Exit)
  /-- Undefined behaviour: out-of-range access, uninitialised slot, `% 0`. -/
  | undefined
  /-- The supplied random draws ran out inside the rejection loop. -/
  | starved
deriving DecidableEq, Repr

/-- Sequencing of program fragments. -/
def Exec.bind {α β : Type} (m : Exec α) (f : α → Exec β) : Exec β :=
  match m with
  | .ok a => f a
  | .exit e => .exit e
  | .undefined => .undefined
  | .starved => .starved

instance : Monad Exec where
  pure := Exec.ok
  bind := Exec.bind

/-- Macro `ERROR_EXIT(err_string)`: clear, print, `exit(1)`. -/
def ERROR_EXIT {α : Type} (m : Message) : Exec α :=
  .exit { status := 1, message := m, teardown := false }

/-- Macro `SnakeGame_MACRO_PrintAndTerminate(snakegame, ...)`: clear, print,
`SnakeGame_Destroy(snakegame)`, `exit(1)`. -/
def SnakeGame_MACRO_PrintAndTerminate {α : Type} (m : Message) : Exec α :=
  .exit { status := 1, message := m, teardown := true }

/-! ## Machine values and constants -/

/-- Conversion of an `int` to the signed 8-bit `char`. -/
def toChar (n : Int) : Int := (n + 128) % 256 - 128

/-- Predicate: the integer is a value of the signed 8-bit `char` type. -/
def IsChar (n : Int) : Prop := -128 ≤ n ∧ n ≤ 127

instance (n : Int) : Decidable (IsChar n) := by unfold IsChar; infer_instance

def GAMEGRID_ROWS : Nat := 15
def GAMEGRID_COLUMNS : Nat := 30

/- enum SnakeConstants: SNAKE_OBJTYPE = 1, SNAKE_SPRITE = 'S' (83), and the
   four directions continue the enumeration from 'S'. -/
def SNAKE_OBJTYPE : Int := 1
def SNAKE_SPRITE : Int := 83
def SNAKE_DIR_UP : Int := 84
def SNAKE_DIR_DOWN : Int := 85
def SNAKE_DIR_LEFT : Int := 86
def SNAKE_DIR_RIGHT : Int := 87

/- enum FoodConstants -/
def FOOD_OBJTYPE : Int := 2
def FOOD_SPRITE : Int := 70

/- enum MiscConstants -/
def NONE_OBJTYPE : Int := 0
def NONE_SPRITE : Int := 46

/-- Macro `POS_TO_INDEX(columns, column, row)`. -/
def POS_TO_INDEX (columns column row : Int) : Int := columns * row + column

/-- Read `buf[i]` of a heap array. -/
def readAt {α : Type} (buf : List α) (i : Int) : Exec α :=
  if 0 ≤ i then
    match buf[i.toNat]? with
    | some v => .ok v
    | none => .undefined
  else .undefined

/-- The list with element `i` replaced by `v`; `none` when the list has no
element `i`. -/
def storeAt {α : Type} : List α → Nat → α → Option (List α)
  | [], _, _ => none
  | _ :: xs, 0, v => some (v :: xs)
  | x :: xs, i + 1, v =>
    match storeAt xs i v with
    | some ys => some (x :: ys)
    | none => none

/-- Write `buf[i] = v` of a heap array. -/
def writeAt {α : Type} (buf : List α) (i : Int) (v : α) : Exec (List α) :=
  if 0 ≤ i then
    match storeAt buf i.toNat v with
    | some buf2 => .ok buf2
    | none => .undefined
  else .undefined

/-! ## GameObject -/

structure GameObject where
  x : Int
  y : Int
  type : Int
  sprite : Int
deriving DecidableEq, Repr

def GameObject_Create (x y type sprite : Int) : GameObject :=
  { x := toChar x, y := toChar y, type := toChar type, sprite := toChar sprite }

def GameObject_SetPos (gameobject : GameObject) (x y : Int) : GameObject :=
  { gameobject with x := toChar x, y := toChar y }

def GameObject_AddPos (gameobject : GameObject) (offset_x offset_y : Int) : GameObject :=
  GameObject_SetPos gameobject (gameobject.x + offset_x) (gameobject.y + offset_y)

def GameObject_InBounds (gameobject : GameObject) (max_x max_y : Int) : Bool :=
  decide (gameobject.x < max_x) && decide (gameobject.y < max_y)
    && decide (gameobject.x > -1) && decide (gameobject.y > -1)

/-! ## Snake -/

/-- The snake.  `parts` is the array of `rows * columns` object pointers
(`none` for a slot that was never assigned).  `head` and `tail` are pointers
to objects held by `parts`; a slot, once filled, is never re-pointed, so they
are kept as slot indices. -/
structure Snake where
  parts : List (Option GameObject)
  head : Nat
  tail : Nat
  length : Nat
  direction : Int
deriving DecidableEq, Repr

/-- Dereference `parts[i]`. -/
def getPart (parts : List (Option GameObject)) (i : Nat) : Exec GameObject :=
  match parts[i]? with
  | some (some o) => .ok o
  | _ => .undefined

/-- Assign the object behind slot `i` (or the slot itself, for a fresh object). -/
def setPart (parts : List (Option GameObject)) (i : Nat) (o : GameObject) :
    Exec (List (Option GameObject)) :=
  match storeAt parts i (some o) with
  | some parts2 => .ok parts2
  | none => .undefined

/-- `Snake_Create`: the fields other than `parts` are left uninitialised by the
source; they are given arbitrary values here and `Snake_Init` sets them. -/
def Snake_Create (rows columns : Nat) : Snake :=
  { parts := List.replicate (rows * columns) none,
    head := 0, tail := 0, length := 0, direction := 0 }

def Snake_Init (snake : Snake) (start_x start_y : Int) : Exec Snake := do
  let parts ← setPart snake.parts 0 (GameObject_Create start_x start_y SNAKE_OBJTYPE SNAKE_SPRITE)
  pure { parts := parts, head := 0, tail := 0, length := 1, direction := toChar SNAKE_DIR_DOWN }

def Snake_SetDirection (snake : Snake) (direction : Int) : Snake :=
  { snake with direction := toChar direction }

/-- The `for (i = length - 1; i > 0; --i)` loop of `Snake_Move`, entered with
loop variable `i`. -/
def Snake_Move_shift : Nat → List (Option GameObject) → Exec (List (Option GameObject))
  | 0, parts => .ok parts
  | i + 1, parts => do
    let prev ← getPart parts i
    let cur ← getPart parts (i + 1)
    let parts ← setPart parts (i + 1) { cur with x := prev.x, y := prev.y }
    Snake_Move_shift i parts

def Snake_Move (snake : Snake) (direction : Int) : Exec Snake := do
  let parts ← Snake_Move_shift (snake.length - 1) snake.parts
  if direction = SNAKE_DIR_UP then do
    let h ← getPart parts snake.head
    let parts ← setPart parts snake.head (GameObject_AddPos h 0 (-1))
    pure { snake with parts := parts }
  else if direction = SNAKE_DIR_DOWN then do
    let h ← getPart parts snake.head
    let parts ← setPart parts snake.head (GameObject_AddPos h 0 1)
    pure { snake with parts := parts }
  else if direction = SNAKE_DIR_LEFT then do
    let h ← getPart parts snake.head
    let parts ← setPart parts snake.head (GameObject_AddPos h (-1) 0)
    pure { snake with parts := parts }
  else if direction = SNAKE_DIR_RIGHT then do
    let h ← getPart parts snake.head
    let parts ← setPart parts snake.head (GameObject_AddPos h 1 0)
    pure { snake with parts := parts }
  else ERROR_EXIT .invalidDirection

def Snake_Grow (snake : Snake) : Exec Snake := do
  let t ← getPart snake.parts snake.tail
  let parts ← setPart snake.parts snake.length
    (GameObject_Create t.x t.y SNAKE_OBJTYPE SNAKE_SPRITE)
  pure { snake with parts := parts, tail := snake.length, length := snake.length + 1 }

/-! ## Screen -/

structure Screen where
  rows : Nat
  columns : Nat
  draw_buffer : List Int
  print_buffer : List Int
deriving DecidableEq, Repr

def Screen_Create (rows columns : Nat) : Screen :=
  { rows := rows, columns := columns,
    draw_buffer := List.replicate (rows * columns) 0,
    print_buffer := List.replicate (rows * columns + rows) 0 }

/-- The `for` loop of `Screen_Render` with `n` iterations left, entered with
the loop variables `i`, `j` and `print_buffer_index`. -/
def Screen_Render_loop (columns : Nat) (draw_buffer : List Int) :
    Nat → Nat → Nat → Nat → List Int → Exec (List Int)
  | 0, _, _, _, print_buffer => .ok print_buffer
  | n + 1, i, j, print_buffer_index, print_buffer => do
    let j := j + 1
    let d ← readAt draw_buffer i
    let print_buffer ← writeAt print_buffer print_buffer_index (if d = 0 then NONE_SPRITE else d)
    if j = columns then do
      let print_buffer ← writeAt print_buffer (print_buffer_index + 1 : Nat) 10
      Screen_Render_loop columns draw_buffer n (i + 1) 0 (print_buffer_index + 1 + 1) print_buffer
    else
      Screen_Render_loop columns draw_buffer n (i + 1) j (print_buffer_index + 1) print_buffer

/-- What a call writes to the terminal.  `bytes` are the bytes the program
determines, in order.  `overrun` says that the `printf("%s", ...)` of the call
found no zero byte inside the buffer it was given and read on past the end of
the allocation: the terminal then receives, after `bytes`, whatever memory
follows the buffer up to the next zero byte, which the program does not
determine. -/
structure Printed where
  bytes : List Int
  overrun : Bool
deriving DecidableEq, Repr

/-- The bytes `printf("%s", buf)` takes from inside the buffer `buf`: those
before its first zero byte. -/
def printf_s (buf : List Int) : List Int := buf.takeWhile (fun c => decide (c ≠ 0))

/-- Whether `printf("%s", buf)` reads past the end of the buffer `buf`: it
does when no byte of `buf` is zero. -/
def printf_s_overruns (buf : List Int) : Bool := buf.all (fun c => decide (c ≠ 0))

/-- `Screen_Render`: the screen afterwards and what is written to the
terminal, ESC `[` `H` and then the `printf("%s", screen->print_buffer)`.  A
read of that `printf` past the print buffer is recorded in the output; it
writes to no memory of the program, and the state is the one the loop left. -/
def Screen_Render (screen : Screen) : Exec (Screen × Printed) := do
  let print_buffer ←
    Screen_Render_loop screen.columns screen.draw_buffer (screen.columns * screen.rows) 0 0 0
      screen.print_buffer
  pure ({ screen with print_buffer := print_buffer },
    { bytes := [27, 91, 72] ++ printf_s print_buffer,
      overrun := printf_s_overruns print_buffer })

def Screen_PushToPos (screen : Screen) (column row ch : Int) : Exec Screen := do
  let draw_buffer ← writeAt screen.draw_buffer (POS_TO_INDEX screen.columns column row) ch
  pure { screen with draw_buffer := draw_buffer }

def Screen_ClearPos (screen : Screen) (column row : Int) : Exec Screen := do
  let draw_buffer ← writeAt screen.draw_buffer (POS_TO_INDEX screen.columns column row) 0
  pure { screen with draw_buffer := draw_buffer }

/-! ## SnakeGame -/

structure SnakeGame where
  snake : Snake
  food : GameObject
  screen : Screen
  grid : List Int
deriving DecidableEq, Repr

/-- What the input handler reports in one tick: no key is pending, a key byte
is pending, or a key is pending and `read` fails. -/
inductive Pending where
  | noKey
  | key (ch : Nat)
  | readFails
deriving DecidableEq, Repr

def SnakeGame_DrawGameObject (screen : Screen) (gameobject : GameObject) : Exec Screen :=
  Screen_PushToPos screen gameobject.x gameobject.y gameobject.sprite

def SnakeGame_Create (grid_rows grid_columns : Nat) : SnakeGame :=
  { grid := List.replicate (grid_rows * grid_columns) 0,
    snake := Snake_Create grid_rows grid_columns,
    screen := Screen_Create grid_rows grid_columns,
    food := GameObject_Create 0 0 FOOD_OBJTYPE FOOD_SPRITE }

def SnakeGame_GetCollision (snakegame : SnakeGame) : Exec Int := do
  let h ← getPart snakegame.snake.parts snakegame.snake.head
  readAt snakegame.grid (POS_TO_INDEX snakegame.screen.columns h.x h.y)

def SnakeGame_GetInBounds (snakegame : SnakeGame) : Exec Bool := do
  let h ← getPart snakegame.snake.parts snakegame.snake.head
  pure (GameObject_InBounds h snakegame.screen.columns snakegame.screen.rows)

/-- `SnakeGame_ProcessInput`; the key bytes are 'w' = 119, 'a' = 97,
's' = 115, 'd' = 100. -/
def SnakeGame_ProcessInput (snakegame : SnakeGame) (pending : Pending) : Exec SnakeGame :=
  match pending with
  | .noKey => .ok snakegame
  | .readFails => ERROR_EXIT .invalidCharacter
  | .key ch =>
    if ch = 119 then
      if snakegame.snake.direction ≠ SNAKE_DIR_DOWN then
        .ok { snakegame with snake := Snake_SetDirection snakegame.snake SNAKE_DIR_UP }
      else .ok snakegame
    else if ch = 97 then
      if snakegame.snake.direction ≠ SNAKE_DIR_RIGHT then
        .ok { snakegame with snake := Snake_SetDirection snakegame.snake SNAKE_DIR_LEFT }
      else .ok snakegame
    else if ch = 115 then
      if snakegame.snake.direction ≠ SNAKE_DIR_UP then
        .ok { snakegame with snake := Snake_SetDirection snakegame.snake SNAKE_DIR_DOWN }
      else .ok snakegame
    else if ch = 100 then
      if snakegame.snake.direction ≠ SNAKE_DIR_LEFT then
        .ok { snakegame with snake := Snake_SetDirection snakegame.snake SNAKE_DIR_RIGHT }
      else .ok snakegame
    else .ok snakegame

/-- `SnakeGame_SpawnFood`, given the values the successive `rand()` calls
return; the result carries the draws not consumed.  `RANDINT(0, columns - 1)`
expands to `rand() % (columns - 1 - 0 + 1) + 0`. -/
def SnakeGame_SpawnFood (snakegame : SnakeGame) : List Nat → Exec (SnakeGame × List Nat)
  | rx :: ry :: draws =>
    if snakegame.screen.columns = 0 ∨ snakegame.screen.rows = 0 then .undefined
    else
      let food : GameObject :=
        { snakegame.food with
          x := toChar ((rx % snakegame.screen.columns : Nat) : Int),
          y := toChar ((ry % snakegame.screen.rows : Nat) : Int) }
      let index := POS_TO_INDEX snakegame.screen.columns food.x food.y
      match readAt snakegame.grid index with
      | .ok tag =>
        if tag = NONE_OBJTYPE then
          match writeAt snakegame.grid index FOOD_OBJTYPE with
          | .ok grid => .ok ({ snakegame with food := food, grid := grid }, draws)
          | .exit e => .exit e
          | .undefined => .undefined
          | .starved => .starved
        else SnakeGame_SpawnFood { snakegame with food := food } draws
      | .exit e => .exit e
      | .undefined => .undefined
      | .starved => .starved
  | _ => .starved

def SnakeGame_ConsumeFood (snakegame : SnakeGame) : Exec SnakeGame := do
  let grid ← writeAt snakegame.grid
    (POS_TO_INDEX snakegame.screen.columns snakegame.food.x snakegame.food.y) NONE_OBJTYPE
  let snake ← Snake_Grow snakegame.snake
  pure { snakegame with grid := grid, snake := snake }

def SnakeGame_SnakeIsMaxLength (snakegame : SnakeGame) : Bool :=
  decide ((snakegame.snake.length : Int)
    = ((snakegame.screen.columns : Int) * (snakegame.screen.rows : Int)) - 1)

/-! ## The game loop, one iteration at a time -/

/-- Lines 513-538 of `SnakeGame_GameLoop`: the win check, the bounds check and
the `switch` on the tag under the head. -/
def SnakeGame_GameLoop_classify (snakegame : SnakeGame) (draws : List Nat) :
    Exec (SnakeGame × List Nat) :=
  if SnakeGame_SnakeIsMaxLength snakegame then
    SnakeGame_MACRO_PrintAndTerminate .victory
  else do
    let inBounds ← SnakeGame_GetInBounds snakegame
    if !inBounds then
      SnakeGame_MACRO_PrintAndTerminate (.unfortunate snakegame.snake.length)
    else do
      let tag ← SnakeGame_GetCollision snakegame
      if tag = SNAKE_OBJTYPE then
        SnakeGame_MACRO_PrintAndTerminate (.unfortunate snakegame.snake.length)
      else if tag = FOOD_OBJTYPE then do
        let snakegame ← SnakeGame_ConsumeFood snakegame
        SnakeGame_SpawnFood snakegame draws
      else if tag = NONE_OBJTYPE then
        pure (snakegame, draws)
      else ERROR_EXIT .unknownCollision

/-- The `for` loop of lines 543-549 with `n` iterations left, entered with
loop variable `i`. -/
def SnakeGame_GameLoop_parts : Nat → Nat → SnakeGame → Exec SnakeGame
  | 0, _, snakegame => .ok snakegame
  | n + 1, i, snakegame => do
    let p ← getPart snakegame.snake.parts i
    let grid ← writeAt snakegame.grid
      (POS_TO_INDEX snakegame.screen.columns p.x p.y) SNAKE_OBJTYPE
    let screen ← SnakeGame_DrawGameObject snakegame.screen p
    SnakeGame_GameLoop_parts n (i + 1) { snakegame with grid := grid, screen := screen }

/-- Lines 543-551: the snake is written to the grid and the draw buffer, then
the food is drawn.  The state is the one `Screen_Render` is called on. -/
def SnakeGame_GameLoop_redraw (snakegame : SnakeGame) : Exec SnakeGame := do
  let snakegame ← SnakeGame_GameLoop_parts snakegame.snake.length 0 snakegame
  let screen ← SnakeGame_DrawGameObject snakegame.screen snakegame.food
  pure { snakegame with screen := screen }

/-- Lines 555-561: the tail leaves the grid and the draw buffer, the snake
moves. -/
def SnakeGame_GameLoop_retire (snakegame : SnakeGame) : Exec SnakeGame := do
  let t ← getPart snakegame.snake.parts snakegame.snake.tail
  let grid ← writeAt snakegame.grid
    (POS_TO_INDEX snakegame.screen.columns t.x t.y) NONE_OBJTYPE
  let screen ← Screen_ClearPos snakegame.screen t.x t.y
  let snake ← Snake_Move snakegame.snake snakegame.snake.direction
  pure { snakegame with grid := grid, screen := screen, snake := snake }

/-- One iteration of the `while (1)` loop of `SnakeGame_GameLoop`. -/
def SnakeGame_GameLoop_tick (snakegame : SnakeGame) (pending : Pending) (draws : List Nat) :
    Exec (SnakeGame × List Nat) := do
  let (snakegame, draws) ← SnakeGame_GameLoop_classify snakegame draws
  let snakegame ← SnakeGame_ProcessInput snakegame pending
  let snakegame ← SnakeGame_GameLoop_redraw snakegame
  let (screen, _) ← Screen_Render snakegame.screen
  let snakegame ← SnakeGame_GameLoop_retire { snakegame with screen := screen }
  pure (snakegame, draws)

/-- `SnakeGame_GameLoop` run for as many iterations as there are entries in
`pendings`. -/
def SnakeGame_GameLoop (snakegame : SnakeGame) :
    List Pending → List Nat → Exec (SnakeGame × List Nat)
  | [], draws => .ok (snakegame, draws)
  | pending :: pendings, draws =>
    match SnakeGame_GameLoop_tick snakegame pending draws with
    | .ok (snakegame, draws) => SnakeGame_GameLoop snakegame pendings draws
    | .exit e => .exit e
    | .undefined => .undefined
    | .starved => .starved

/-- `SnakeGame_BeginPlay` up to the call of `SnakeGame_GameLoop`: the state the
loop is entered with. -/
def SnakeGame_BeginPlay (snakegame : SnakeGame) (draws : List Nat) :
    Exec (SnakeGame × List Nat) := do
  let snake ← Snake_Init snakegame.snake
    ((snakegame.screen.columns : Int) / 2 - 1) ((snakegame.screen.rows : Int) / 2)
  let snake ← Snake_Grow snake
  let snake ← Snake_Grow snake
  SnakeGame_SpawnFood { snakegame with snake := snake } draws

/-- States at the top of the game loop that some run of the program on a
`rows` by `columns` grid gets to, over all keys and all random draws. -/
inductive Reachable (rows columns : Nat) : SnakeGame → Prop where
  | beginPlay (draws rest : List Nat) (g : SnakeGame) :
      SnakeGame_BeginPlay (SnakeGame_Create rows columns) draws = .ok (g, rest) →
      Reachable rows columns g
  | tick (g g2 : SnakeGame) (pending : Pending) (draws rest : List Nat) :
      Reachable rows columns g →
      SnakeGame_GameLoop_tick g pending draws = .ok (g2, rest) →
      Reachable rows columns g2

/-- The program as `main` runs it on a `rows` by `columns` grid, stopped after
as many iterations of the game loop as there are entries in `pendings`:
`SnakeGame_Create`, `SnakeGame_BeginPlay`, `SnakeGame_GameLoop`. -/
def SnakeGame_run (rows columns : Nat) (pendings : List Pending) (draws : List Nat) :
    Exec (SnakeGame × List Nat) :=
  SnakeGame_BeginPlay (SnakeGame_Create rows columns) draws >>= fun r =>
    SnakeGame_GameLoop r.1 pendings r.2

/-! ## Vocabulary of the specification -/

/-- Every way the fragment can end the process satisfies `P`. -/
def Exec.ExitsOnly {α : Type} (P : Exit → Prop) (m : Exec α) : Prop :=
  ∀ e, m = Exec.exit e → P e


/-- Position of segment `i` of the snake, when slot `i` holds an object. -/
def Snake.posAt (snake : Snake) (i : Nat) : Option (Int × Int) :=
  match snake.parts[i]? with
  | some (some o) => some (o.x, o.y)
  | _ => none

/-- The unit vector the specification gives each heading: Up (0,-1),
Down (0,1), Left (-1,0), Right (1,0). -/
def unitVector (d : Int) : Int × Int :=
  if d = SNAKE_DIR_UP then (0, -1)
  else if d = SNAKE_DIR_DOWN then (0, 1)
  else if d = SNAKE_DIR_LEFT then (-1, 0)
  else if d = SNAKE_DIR_RIGHT then (1, 0)
  else (0, 0)

/-- Predicate: the value is one of the four headings. -/
def IsDirection (d : Int) : Prop :=
  d = SNAKE_DIR_UP ∨ d = SNAKE_DIR_DOWN ∨ d = SNAKE_DIR_LEFT ∨ d = SNAKE_DIR_RIGHT

instance (d : Int) : Decidable (IsDirection d) := by unfold IsDirection; infer_instance

/-- The heading the specification maps a key byte to: w Up, a Left, s Down,
d Right; no heading for any other byte. -/
def keyDirection (ch : Nat) : Option Int :=
  if ch = 119 then some SNAKE_DIR_UP
  else if ch = 97 then some SNAKE_DIR_LEFT
  else if ch = 115 then some SNAKE_DIR_DOWN
  else if ch = 100 then some SNAKE_DIR_RIGHT
  else none

/-- The exact reverse of a heading: Up and Down, Left and Right. -/
def IsReverse (d h : Int) : Prop :=
  (d = SNAKE_DIR_UP ∧ h = SNAKE_DIR_DOWN) ∨ (d = SNAKE_DIR_DOWN ∧ h = SNAKE_DIR_UP)
    ∨ (d = SNAKE_DIR_LEFT ∧ h = SNAKE_DIR_RIGHT) ∨ (d = SNAKE_DIR_RIGHT ∧ h = SNAKE_DIR_LEFT)

instance (d h : Int) : Decidable (IsReverse d h) := by unfold IsReverse; infer_instance

/-- The heading after input processing, in the specification's words. -/
def headingAfter (h : Int) (pending : Pending) : Int :=
  match pending with
  | .key ch =>
    match keyDirection ch with
    | some d => if IsReverse d h then h else d
    | none => h
  | _ => h

/-- A snake as the program keeps it: `head` is slot 0, `tail` is slot
`length - 1`, and the slots below `length` hold objects whose coordinates are
`char` values. -/
structure Snake.WellFormed (snake : Snake) : Prop where
  head_eq : snake.head = 0
  tail_eq : snake.tail = snake.length - 1
  live : ∀ i, i < snake.length →
    ∃ o, snake.parts[i]? = some (some o) ∧ IsChar o.x ∧ IsChar o.y

/-- A snake of three segments in an array of four slots, heading Down. -/
def exampleSnake : Snake :=
  { parts := [some { x := 5, y := 5, type := 1, sprite := 83 },
              some { x := 5, y := 4, type := 1, sprite := 83 },
              some { x := 5, y := 3, type := 1, sprite := 83 }, none],
    head := 0, tail := 2, length := 3, direction := 85 }

/-- A game on a 2 by 3 grid whose cell (1,1) is tagged Food. -/
def exampleGame : SnakeGame :=
  { SnakeGame_Create 2 3 with grid := [0, 0, 0, 0, 2, 0] }

/-- The example game after food was spawned on cell (2,0). -/
def exampleGameFed : SnakeGame :=
  { exampleGame with
    food := { x := 2, y := 0, type := 2, sprite := 70 },
    grid := [0, 0, 2, 0, 2, 0] }

/-- A game on a grid of 2 rows and 200 columns, as `SnakeGame_Create` makes it. -/
def wideGame : SnakeGame := SnakeGame_Create 2 200

/-- The wide game after food was spawned with the draws 150 and 1. -/
def wideGameFed : SnakeGame :=
  { wideGame with
    food := { x := -106, y := 1, type := 2, sprite := 70 },
    grid := wideGame.grid.set 94 2 }

/-- The 2 by 3 example game with the three-segment example snake, whose head
at (5,5) is outside the grid. -/
def exampleLoop : SnakeGame :=
  { exampleGame with snake := exampleSnake }

/-- The game with the contents of the print buffer replaced. -/
def SnakeGame.withPrintBuffer (g : SnakeGame) (pb : List Int) : SnakeGame :=
  { g with screen := { g.screen with print_buffer := pb } }

/-- A snake segment at (14,7), the start cell on the 15 by 30 grid. -/
def startSegment : GameObject := { x := 14, y := 7, type := 1, sprite := 83 }

/-- The 15 by 30 game on entry to the game loop when the first two draws are
14 and 7: the food is on cell (14,7), index 224, where the snake starts. -/
def bugStart : SnakeGame :=
  { snake :=
      { parts := [some startSegment, some startSegment, some startSegment]
          ++ List.replicate 447 none,
        head := 0, tail := 2, length := 3, direction := 85 },
    food := { x := 14, y := 7, type := 2, sprite := 70 },
    screen := Screen_Create 15 30,
    grid := (List.replicate 450 0).set 224 2 }

/-- The state `bugStart` after the classification step of the first tick when
the next two draws are 14 and 7 again. -/
def bugFed : SnakeGame :=
  { bugStart with
    snake :=
      { parts := [some startSegment, some startSegment, some startSegment, some startSegment]
          ++ List.replicate 446 none,
        head := 0, tail := 3, length := 4, direction := 85 } }

/-- The state `bugFed` after the redraw pass of the first tick. -/
def bugDrawn : SnakeGame :=
  { bugFed with
    grid := (List.replicate 450 0).set 224 1,
    screen := { Screen_Create 15 30 with draw_buffer := (List.replicate 450 0).set 224 70 } }

/-- The state `bugDrawn` after tail retirement and the move of the first tick. -/
def bugMoved : SnakeGame :=
  { snake :=
      { parts := [some { x := 14, y := 8, type := 1, sprite := 83 }, some startSegment,
            some startSegment, some startSegment] ++ List.replicate 446 none,
        head := 0, tail := 3, length := 4, direction := 85 },
    food := { x := 14, y := 7, type := 2, sprite := 70 },
    screen := Screen_Create 15 30,
    grid := List.replicate 450 0 }

/-- A screen of 2 rows and 3 columns with a snake glyph on cell (1,0) and the
food glyph on cell (0,1). -/
def exampleScreen : Screen :=
  { Screen_Create 2 3 with draw_buffer := [0, 83, 0, 70, 0, 0] }

/-- The snake `Snake_Init(x, y)` and two calls of `Snake_Grow` build in an
array whose first three slots are followed by the slots `tl`. -/
def initialSnake (x y : Int) (tl : List (Option GameObject)) : Snake :=
  { parts := some { x := x, y := y, type := 1, sprite := 83 }
      :: some { x := x, y := y, type := 1, sprite := 83 }
      :: some { x := x, y := y, type := 1, sprite := 83 } :: tl,
    head := 0, tail := 2, length := 3, direction := 85 }

/-- Index of the grid cell of an object, as the program computes it from the
object's position. -/
def cellIndex (columns : Nat) (o : GameObject) : Int := POS_TO_INDEX columns o.x o.y

/-- Predicate: the object lies inside `[0,columns) x [0,rows)`. -/
def Inside (rows columns : Nat) (o : GameObject) : Prop :=
  (0 ≤ o.x ∧ o.x < (columns : Int)) ∧ (0 ≤ o.y ∧ o.y < (rows : Int))

/-- The invariant of the game loop on a `rows` by `columns` grid.  With
`lo = 1` it holds at the top of every iteration; with `lo = 0` it holds from
the classification to the tail retirement (the head then counts as a segment
whose cell may be tagged and drawn). -/
structure LoopInv (rows columns lo : Nat) (g : SnakeGame) : Prop where
  rows_eq : g.screen.rows = rows
  columns_eq : g.screen.columns = columns
  draw_len : g.screen.draw_buffer.length = rows * columns
  print_len : g.screen.print_buffer.length = rows * columns + rows
  grid_len : g.grid.length = rows * columns
  parts_len : g.snake.parts.length = rows * columns
  wf : g.snake.WellFormed
  len_ge : 3 ≤ g.snake.length
  len_le : g.snake.length + 1 ≤ rows * columns
  dir : IsDirection g.snake.direction
  sprite : ∀ k o, k < g.snake.length → g.snake.parts[k]? = some (some o) →
    o.sprite = SNAKE_SPRITE
  food_sprite : g.food.sprite = FOOD_SPRITE
  tags : ∀ i v, readAt g.grid i = Exec.ok v →
    v = NONE_OBJTYPE ∨ v = SNAKE_OBJTYPE ∨ v = FOOD_OBJTYPE
  inside : (∀ hd, g.snake.parts[0]? = some (some hd) → Inside rows columns hd) →
    ∀ k o, k < g.snake.length → g.snake.parts[k]? = some (some o) → Inside rows columns o
  snake_tags : ∀ i, readAt g.grid i = Exec.ok SNAKE_OBJTYPE →
    ∃ k o, lo ≤ k ∧ k < g.snake.length ∧ g.snake.parts[k]? = some (some o)
      ∧ cellIndex columns o = i
  food_tag : ∀ i, readAt g.grid i = Exec.ok FOOD_OBJTYPE → i = cellIndex columns g.food
  food_cell : 0 ≤ cellIndex columns g.food ∧ cellIndex columns g.food < ((rows * columns : Nat) : Int)
  food_inside : columns ≤ 128 → rows ≤ 128 → Inside rows columns g.food
  draw_sync : ∀ i v, readAt g.screen.draw_buffer i = Exec.ok v → v ≠ 0 →
    (∃ k o, lo ≤ k ∧ k < g.snake.length ∧ g.snake.parts[k]? = some (some o)
      ∧ cellIndex columns o = i) ∨ i = cellIndex columns g.food

/-- Predicate: the head of the snake lies inside the grid. -/
def HeadInside (rows columns : Nat) (g : SnakeGame) : Prop :=
  ∃ hd, g.snake.parts[0]? = some (some hd) ∧ Inside rows columns hd

/-- Painting one glyph into a buffer; a cell outside the buffer is left out. -/
def paintAt (buf : List Int) (i : Int) (v : Int) : List Int :=
  if 0 ≤ i then buf.set i.toNat v else buf

/-- Painting the snake glyph at the cells of the slots `i`, ..., `i + n - 1`. -/
def paintParts (columns : Nat) (parts : List (Option GameObject)) :
    Nat → Nat → List Int → List Int
  | 0, _, buf => buf
  | n + 1, i, buf =>
    match parts[i]? with
    | some (some o) =>
      paintParts columns parts n (i + 1) (paintAt buf (cellIndex columns o) SNAKE_SPRITE)
    | _ => paintParts columns parts n (i + 1) buf

/-- The repaint from scratch of the specification: an all-zero buffer of
`rows * columns` cells, the snake glyph painted at the cell of every live
segment, then the food glyph painted at the food's cell. -/
def repaint (g : SnakeGame) : List Int :=
  paintAt
    (paintParts g.screen.columns g.snake.parts g.snake.length 0
      (List.replicate (g.screen.rows * g.screen.columns) 0))
    (cellIndex g.screen.columns g.food) FOOD_SPRITE

/-- The all-zero buffer of the 450 cells of the 15 by 30 grid with the listed
cells overwritten. -/
def cellsOf (l : List (Nat × Int)) : List Int :=
  l.foldl (fun buf p => buf.set p.1 p.2) (List.replicate 450 0)

/-- A state of the 15 by 30 game: the snake's segments from head to tail, its
heading, the food's position, the non-zero cells of the occupancy grid and of
the draw buffer. -/
def coilGame (segments : List (Int × Int)) (direction : Int) (food : Int × Int)
    (grid draw : List (Nat × Int)) : SnakeGame :=
  { snake :=
      { parts := segments.map (fun p => some { x := p.1, y := p.2, type := 1, sprite := 83 })
          ++ List.replicate (450 - segments.length) none,
        head := 0, tail := segments.length - 1, length := segments.length,
        direction := direction },
    food := { x := food.1, y := food.2, type := 2, sprite := 70 },
    screen := { Screen_Create 15 30 with draw_buffer := cellsOf draw },
    grid := cellsOf grid }

/-- The 15 by 30 game on entry to the game loop when the first two draws are 14
and 8: the snake on (14,7), the food on (14,8). -/
def coilTop1 : SnakeGame :=
  coilGame [(14, 7), (14, 7), (14, 7)] 85 (14, 8)
    [(254, 2)]
    []

/-- The state after the redraw pass of tick 1. -/
def coilDrawn1 : SnakeGame :=
  coilGame [(14, 7), (14, 7), (14, 7)] 85 (14, 8)
    [(224, 1), (254, 2)]
    [(224, 83), (254, 70)]

/-- The state at the top of tick 2. -/
def coilTop2 : SnakeGame :=
  coilGame [(14, 8), (14, 7), (14, 7)] 85 (14, 8)
    [(254, 2)]
    [(254, 70)]

/-- The state after the classification of tick 2: the food at the head is eaten,
the snake has grown, the food is respawned. -/
def coilFed2 : SnakeGame :=
  coilGame [(14, 8), (14, 7), (14, 7), (14, 7)] 85 (13, 8)
    [(253, 2)]
    [(254, 70)]

/-- The state after the redraw pass of tick 2. -/
def coilDrawn2 : SnakeGame :=
  coilGame [(14, 8), (14, 7), (14, 7), (14, 7)] 85 (13, 8)
    [(224, 1), (253, 2), (254, 1)]
    [(224, 83), (253, 70), (254, 83)]

/-- The state at the top of tick 3. -/
def coilTop3 : SnakeGame :=
  coilGame [(14, 9), (14, 8), (14, 7), (14, 7)] 85 (13, 8)
    [(253, 2), (254, 1)]
    [(253, 70), (254, 83)]

/-- The state after the input step of tick 3. -/
def coilTurned3 : SnakeGame :=
  coilGame [(14, 9), (14, 8), (14, 7), (14, 7)] 86 (13, 8)
    [(253, 2), (254, 1)]
    [(253, 70), (254, 83)]

/-- The state after the redraw pass of tick 3. -/
def coilDrawn3 : SnakeGame :=
  coilGame [(14, 9), (14, 8), (14, 7), (14, 7)] 86 (13, 8)
    [(224, 1), (253, 2), (254, 1), (284, 1)]
    [(224, 83), (253, 70), (254, 83), (284, 83)]

/-- The state at the top of tick 4. -/
def coilTop4 : SnakeGame :=
  coilGame [(13, 9), (14, 9), (14, 8), (14, 7)] 86 (13, 8)
    [(253, 2), (254, 1), (284, 1)]
    [(253, 70), (254, 83), (284, 83)]

/-- The state after the input step of tick 4. -/
def coilTurned4 : SnakeGame :=
  coilGame [(13, 9), (14, 9), (14, 8), (14, 7)] 84 (13, 8)
    [(253, 2), (254, 1), (284, 1)]
    [(253, 70), (254, 83), (284, 83)]

/-- The state after the redraw pass of tick 4. -/
def coilDrawn4 : SnakeGame :=
  coilGame [(13, 9), (14, 9), (14, 8), (14, 7)] 84 (13, 8)
    [(224, 1), (253, 2), (254, 1), (283, 1), (284, 1)]
    [(224, 83), (253, 70), (254, 83), (283, 83), (284, 83)]

/-- The state at the top of tick 5. -/
def coilTop5 : SnakeGame :=
  coilGame [(13, 8), (13, 9), (14, 9), (14, 8)] 84 (13, 8)
    [(253, 2), (254, 1), (283, 1), (284, 1)]
    [(253, 70), (254, 83), (283, 83), (284, 83)]

/-- The state after the classification of tick 5: the food at the head is eaten,
the snake has grown, the food is respawned. -/
def coilFed5 : SnakeGame :=
  coilGame [(13, 8), (13, 9), (14, 9), (14, 8), (14, 8)] 84 (0, 0)
    [(0, 2), (254, 1), (283, 1), (284, 1)]
    [(253, 70), (254, 83), (283, 83), (284, 83)]

/-- The state after the input step of tick 5. -/
def coilTurned5 : SnakeGame :=
  coilGame [(13, 8), (13, 9), (14, 9), (14, 8), (14, 8)] 87 (0, 0)
    [(0, 2), (254, 1), (283, 1), (284, 1)]
    [(253, 70), (254, 83), (283, 83), (284, 83)]

/-- The state after the redraw pass of tick 5. -/
def coilDrawn5 : SnakeGame :=
  coilGame [(13, 8), (13, 9), (14, 9), (14, 8), (14, 8)] 87 (0, 0)
    [(0, 2), (253, 1), (254, 1), (283, 1), (284, 1)]
    [(0, 70), (253, 83), (254, 83), (283, 83), (284, 83)]

/-- The state at the top of tick 6. -/
def coilTop6 : SnakeGame :=
  coilGame [(14, 8), (13, 8), (13, 9), (14, 9), (14, 8)] 87 (0, 0)
    [(0, 2), (253, 1), (283, 1), (284, 1)]
    [(0, 70), (253, 83), (283, 83), (284, 83)]

/-- The state after the redraw pass of tick 6. -/
def coilDrawn6 : SnakeGame :=
  coilGame [(14, 8), (13, 8), (13, 9), (14, 9), (14, 8)] 87 (0, 0)
    [(0, 2), (253, 1), (254, 1), (283, 1), (284, 1)]
    [(0, 70), (253, 83), (254, 83), (283, 83), (284, 83)]

/-- The state at the top of tick 7. -/
def coilTop7 : SnakeGame :=
  coilGame [(15, 8), (14, 8), (13, 8), (13, 9), (14, 9)] 87 (0, 0)
    [(0, 2), (253, 1), (283, 1), (284, 1)]
    [(0, 70), (253, 83), (283, 83), (284, 83)]

/-! ## Basic facts about `Exec` and heap accesses -/

@[simp] theorem Exec.ok_bind {α β : Type} (a : α) (f : α → Exec β) :
    (Exec.ok a >>= f) = f a := rfl

@[simp] theorem Exec.exit_bind {α β : Type} (e : Exit) (f : α → Exec β) :
    ((Exec.exit e : Exec α) >>= f) = Exec.exit e := rfl

@[simp] theorem Exec.undefined_bind {α β : Type} (f : α → Exec β) :
    ((Exec.undefined : Exec α) >>= f) = Exec.undefined := rfl

@[simp] theorem Exec.starved_bind {α β : Type} (f : α → Exec β) :
    ((Exec.starved : Exec α) >>= f) = Exec.starved := rfl

@[simp] theorem Exec.pure_eq {α : Type} (a : α) : (pure a : Exec α) = Exec.ok a := rfl

theorem Exec.bind_eq_ok {α β : Type} {m : Exec α} {f : α → Exec β} {b : β}
    (h : (m >>= f) = Exec.ok b) : ∃ a, m = Exec.ok a ∧ f a = Exec.ok b := by
  cases m with
  | ok a => exact ⟨a, rfl, h⟩
  | exit e => cases h
  | undefined => cases h
  | starved => cases h

theorem getPart_eq_ok {parts : List (Option GameObject)} {i : Nat} {o : GameObject} :
    getPart parts i = Exec.ok o ↔ parts[i]? = some (some o) := by
  unfold getPart
  split
  · rename_i o2 h
    simp [h]
  · rename_i h
    constructor
    · intro h2; cases h2
    · intro h2; exact absurd h2 (h o)

theorem storeAt_eq {α : Type} (buf : List α) :
    ∀ (i : Nat) (v : α),
      storeAt buf i v = if i < buf.length then some (buf.set i v) else none := by
  induction buf with
  | nil => intro i v; simp [storeAt]
  | cons x xs ih =>
    intro i v
    cases i with
    | zero => simp [storeAt]
    | succ i =>
      simp only [storeAt, ih i v, List.length_cons, List.set_cons_succ, Nat.add_lt_add_iff_right]
      by_cases h : i < xs.length
      · simp [h]
      · simp [h]

theorem setPart_of_lt {parts : List (Option GameObject)} {i : Nat} (o : GameObject)
    (h : i < parts.length) : setPart parts i o = Exec.ok (parts.set i (some o)) := by
  simp [setPart, storeAt_eq, h]

theorem lt_length_of_getElem? {α : Type} {l : List α} {i : Nat} {a : α}
    (h : l[i]? = some a) : i < l.length := by
  by_contra hc
  rw [List.getElem?_eq_none (Nat.le_of_not_lt hc)] at h
  cases h


theorem toChar_of_isChar {n : Int} (h : IsChar n) : toChar n = n := by
  unfold IsChar at h
  unfold toChar
  omega

theorem isChar_toChar (n : Int) : IsChar (toChar n) := by
  unfold IsChar toChar
  omega

/-! ## Snake_Move -/

theorem Snake_Move_shift_spec (n : Nat) :
    ∀ parts : List (Option GameObject),
      (∀ i, i ≤ n → ∃ o, parts[i]? = some (some o)) →
      ∃ parts2, Snake_Move_shift n parts = Exec.ok parts2
        ∧ parts2.length = parts.length
        ∧ (∀ i a b, 1 ≤ i → i ≤ n → parts[i]? = some (some a) →
            parts[i - 1]? = some (some b) →
            parts2[i]? = some (some { a with x := b.x, y := b.y }))
        ∧ (∀ i, i = 0 ∨ n < i → parts2[i]? = parts[i]?) := by
  induction n with
  | zero =>
    intro parts _
    refine ⟨parts, rfl, rfl, ?_, fun _ _ => rfl⟩
    intro i a b h1 h0
    omega
  | succ n ih =>
    intro parts hinit
    obtain ⟨prev, hprev⟩ := hinit n (Nat.le_succ n)
    obtain ⟨cur, hcur⟩ := hinit (n + 1) (Nat.le_refl _)
    have hlt : n + 1 < parts.length := lt_length_of_getElem? hcur
    have hinit2 : ∀ i, i ≤ n →
        ∃ o, (parts.set (n + 1) (some { cur with x := prev.x, y := prev.y }))[i]?
          = some (some o) := by
      intro i hi
      obtain ⟨o, ho⟩ := hinit i (Nat.le_succ_of_le hi)
      refine ⟨o, ?_⟩
      rw [List.getElem?_set_ne (by omega)]
      exact ho
    obtain ⟨parts2, hrun, hlen, hshift, hkeep⟩ := ih _ hinit2
    refine ⟨parts2, ?_, ?_, ?_, ?_⟩
    · simp only [Snake_Move_shift, getPart_eq_ok.mpr hprev, getPart_eq_ok.mpr hcur,
        setPart_of_lt _ hlt, Exec.ok_bind]
      exact hrun
    · rw [hlen, List.length_set]
    · intro i a b h1 hi ha hb
      by_cases hin : i ≤ n
      · apply hshift i a b h1 hin
        · rw [List.getElem?_set_ne (by omega)]; exact ha
        · rw [List.getElem?_set_ne (by omega)]; exact hb
      · have hi2 : i = n + 1 := by omega
        subst hi2
        rw [hkeep (n + 1) (Or.inr (Nat.lt_succ_self n)), List.getElem?_set_self hlt]
        rw [hcur] at ha
        simp only [Nat.add_sub_cancel] at hb
        rw [hprev] at hb
        cases ha
        cases hb
        rfl
    · intro i hi
      rw [hkeep i (by omega), List.getElem?_set_ne (by omega)]


theorem Snake_Move_eq (snake : Snake) (d : Int) (hd : IsDirection d) :
    Snake_Move snake d =
      (Snake_Move_shift (snake.length - 1) snake.parts >>= fun parts =>
        getPart parts snake.head >>= fun h =>
        setPart parts snake.head (GameObject_AddPos h (unitVector d).1 (unitVector d).2)
          >>= fun parts => Exec.ok { snake with parts := parts }) := by
  rcases hd with rfl | rfl | rfl | rfl <;>
    simp [Snake_Move, unitVector, SNAKE_DIR_UP, SNAKE_DIR_DOWN, SNAKE_DIR_LEFT, SNAKE_DIR_RIGHT]

theorem Snake.posAt_eq_some {snake : Snake} {i : Nat} {o : GameObject}
    (h : snake.parts[i]? = some (some o)) : snake.posAt i = some (o.x, o.y) := by
  simp [Snake.posAt, h]

/-- C1. `Snake_Move` is a shift-register update: on a snake of length at least
two and a heading among Up, Down, Left, Right (the head one step away from the
limits of the 8-bit coordinates), the call returns, every segment `i` with
`1 ≤ i < length` is then at the position segment `i - 1` had before, the head
is at its old position plus the unit vector of the heading, and the length and
the stored heading are unchanged. -/
theorem Snake_Move_shift_register (snake : Snake) (d : Int)
    (hwf : snake.WellFormed) (hL : 2 ≤ snake.length) (hd : IsDirection d)
    (hrange : ∀ p, snake.posAt 0 = some p →
      IsChar (p.1 + (unitVector d).1) ∧ IsChar (p.2 + (unitVector d).2)) :
    ∃ s2, Snake_Move snake d = Exec.ok s2
      ∧ (∀ i, 1 ≤ i → i < snake.length →
          (s2.posAt i).isSome ∧ s2.posAt i = snake.posAt (i - 1))
      ∧ (∃ p, snake.posAt 0 = some p
          ∧ s2.posAt 0 = some (p.1 + (unitVector d).1, p.2 + (unitVector d).2))
      ∧ s2.length = snake.length ∧ s2.direction = snake.direction := by
  have hinit : ∀ i, i ≤ snake.length - 1 → ∃ o, snake.parts[i]? = some (some o) := by
    intro i hi
    obtain ⟨o, ho, _⟩ := hwf.live i (by omega)
    exact ⟨o, ho⟩
  obtain ⟨parts2, hrun, hlen, hshift, hkeep⟩ := Snake_Move_shift_spec _ snake.parts hinit
  obtain ⟨h, hh, _, _⟩ := hwf.live 0 (by omega)
  have hh2 : parts2[0]? = some (some h) := by rw [hkeep 0 (Or.inl rfl)]; exact hh
  have hlt : 0 < parts2.length := lt_length_of_getElem? hh2
  have hpos : snake.posAt 0 = some (h.x, h.y) := Snake.posAt_eq_some hh
  obtain ⟨hcx, hcy⟩ := hrange _ hpos
  refine ⟨{ snake with
      parts := parts2.set 0 (some (GameObject_AddPos h (unitVector d).1 (unitVector d).2)) },
    ?_, ?_, ?_, rfl, rfl⟩
  · rw [Snake_Move_eq snake d hd, hrun, hwf.head_eq]
    simp only [Exec.ok_bind, getPart_eq_ok.mpr hh2, setPart_of_lt _ hlt]
  · intro i h1 hi
    obtain ⟨a, ha, _⟩ := hwf.live i hi
    obtain ⟨b, hb, _⟩ := hwf.live (i - 1) (by omega)
    have h3 := hshift i a b h1 (by omega) ha hb
    have h4 : (parts2.set 0
        (some (GameObject_AddPos h (unitVector d).1 (unitVector d).2)))[i]?
          = some (some { a with x := b.x, y := b.y }) := by
      rw [List.getElem?_set_ne (by omega)]; exact h3
    rw [Snake.posAt_eq_some hb, Snake.posAt_eq_some h4]
    exact ⟨rfl, rfl⟩
  · refine ⟨(h.x, h.y), hpos, ?_⟩
    have h4 : (parts2.set 0
        (some (GameObject_AddPos h (unitVector d).1 (unitVector d).2)))[0]?
          = some (some (GameObject_AddPos h (unitVector d).1 (unitVector d).2)) :=
      List.getElem?_set_self hlt
    rw [Snake.posAt_eq_some h4]
    simp only [GameObject_AddPos, GameObject_SetPos]
    rw [toChar_of_isChar hcx, toChar_of_isChar hcy]


theorem exampleSnake_wellFormed : exampleSnake.WellFormed := by
  refine ⟨rfl, rfl, ?_⟩
  intro i hi
  have hi3 : i < 3 := hi
  interval_cases i
  · exact ⟨_, rfl, by decide, by decide⟩
  · exact ⟨_, rfl, by decide, by decide⟩
  · exact ⟨_, rfl, by decide, by decide⟩

/-- Witness of C1: the three-segment example snake moved Left. -/
theorem Snake_Move_shift_register_witness :
    exampleSnake.WellFormed ∧ 2 ≤ exampleSnake.length ∧ IsDirection SNAKE_DIR_LEFT ∧
    ∃ s2, Snake_Move exampleSnake SNAKE_DIR_LEFT = Exec.ok s2
      ∧ (∀ i, 1 ≤ i → i < exampleSnake.length →
          (s2.posAt i).isSome ∧ s2.posAt i = exampleSnake.posAt (i - 1))
      ∧ (∃ p, exampleSnake.posAt 0 = some p
          ∧ s2.posAt 0 = some (p.1 + (unitVector SNAKE_DIR_LEFT).1,
              p.2 + (unitVector SNAKE_DIR_LEFT).2))
      ∧ s2.length = exampleSnake.length ∧ s2.direction = exampleSnake.direction :=
  ⟨exampleSnake_wellFormed, by decide, by decide,
    Snake_Move_shift_register exampleSnake SNAKE_DIR_LEFT exampleSnake_wellFormed
      (by decide) (by decide)
      (by
        intro p hp
        have hp2 : p = (5, 5) := by
          have h0 : exampleSnake.posAt 0 = some (5, 5) := rfl
          rw [h0] at hp
          exact (Option.some.inj hp).symm
        subst hp2
        exact ⟨by decide, by decide⟩)⟩

/-! ## SnakeGame_ProcessInput -/

theorem SnakeGame.eq_withDirection (g : SnakeGame) (v : Int) (h : g.snake.direction = v) :
    g = { g with snake := { g.snake with direction := v } } := by
  subst h
  rfl

/-- C2. Reversal rejection in `SnakeGame_ProcessInput`: with no pending key the
game state is returned as it is; with a pending key byte the call returns the
state in which only the snake's heading may differ, and that heading is the
one mapped from the key (w Up, a Left, s Down, d Right) unless it is the exact
reverse of the current heading or the key is none of the four, in which cases
the heading stays; each non-reversing pair of heading and key sets the mapped
heading. -/
theorem SnakeGame_ProcessInput_heading (g : SnakeGame) :
    SnakeGame_ProcessInput g Pending.noKey = Exec.ok g
    ∧ (∀ ch : Nat, SnakeGame_ProcessInput g (Pending.key ch)
        = Exec.ok { g with
            snake := { g.snake with
              direction := headingAfter g.snake.direction (Pending.key ch) } })
    ∧ (∀ (ch : Nat) (d : Int), keyDirection ch = some d → ¬ IsReverse d g.snake.direction →
        headingAfter g.snake.direction (Pending.key ch) = d)
    ∧ (∀ (ch : Nat) (d : Int), keyDirection ch = some d → IsReverse d g.snake.direction →
        headingAfter g.snake.direction (Pending.key ch) = g.snake.direction)
    ∧ (∀ ch : Nat, keyDirection ch = none →
        headingAfter g.snake.direction (Pending.key ch) = g.snake.direction)
    ∧ headingAfter g.snake.direction Pending.noKey = g.snake.direction := by
  refine ⟨rfl, ?_, ?_, ?_, ?_, rfl⟩
  · intro ch
    have e84 : toChar 84 = 84 := by decide
    have e85 : toChar 85 = 85 := by decide
    have e86 : toChar 86 = 86 := by decide
    have e87 : toChar 87 = 87 := by decide
    by_cases h1 : ch = 119
    · subst h1
      by_cases hd : g.snake.direction = 85
      · simp [SnakeGame_ProcessInput, headingAfter, keyDirection, IsReverse,
          Snake_SetDirection, SNAKE_DIR_UP, SNAKE_DIR_DOWN, SNAKE_DIR_LEFT, SNAKE_DIR_RIGHT,
          hd, e84]
        exact SnakeGame.eq_withDirection g _ hd
      · simp [SnakeGame_ProcessInput, headingAfter, keyDirection, IsReverse,
          Snake_SetDirection, SNAKE_DIR_UP, SNAKE_DIR_DOWN, SNAKE_DIR_LEFT, SNAKE_DIR_RIGHT,
          hd, e84]
    · by_cases h2 : ch = 97
      · subst h2
        by_cases hd : g.snake.direction = 87
        · simp [SnakeGame_ProcessInput, headingAfter, keyDirection, IsReverse,
            Snake_SetDirection, SNAKE_DIR_UP, SNAKE_DIR_DOWN, SNAKE_DIR_LEFT, SNAKE_DIR_RIGHT,
            hd, e86]
          exact SnakeGame.eq_withDirection g _ hd
        · simp [SnakeGame_ProcessInput, headingAfter, keyDirection, IsReverse,
            Snake_SetDirection, SNAKE_DIR_UP, SNAKE_DIR_DOWN, SNAKE_DIR_LEFT, SNAKE_DIR_RIGHT,
            hd, e86]
      · by_cases h3 : ch = 115
        · subst h3
          by_cases hd : g.snake.direction = 84
          · simp [SnakeGame_ProcessInput, headingAfter, keyDirection, IsReverse,
              Snake_SetDirection, SNAKE_DIR_UP, SNAKE_DIR_DOWN, SNAKE_DIR_LEFT, SNAKE_DIR_RIGHT,
              hd, e85]
            exact SnakeGame.eq_withDirection g _ hd
          · simp [SnakeGame_ProcessInput, headingAfter, keyDirection, IsReverse,
              Snake_SetDirection, SNAKE_DIR_UP, SNAKE_DIR_DOWN, SNAKE_DIR_LEFT, SNAKE_DIR_RIGHT,
              hd, e85]
        · by_cases h4 : ch = 100
          · subst h4
            by_cases hd : g.snake.direction = 86
            · simp [SnakeGame_ProcessInput, headingAfter, keyDirection, IsReverse,
                Snake_SetDirection, SNAKE_DIR_UP, SNAKE_DIR_DOWN, SNAKE_DIR_LEFT, SNAKE_DIR_RIGHT,
                hd, e87]
              exact SnakeGame.eq_withDirection g _ hd
            · simp [SnakeGame_ProcessInput, headingAfter, keyDirection, IsReverse,
                Snake_SetDirection, SNAKE_DIR_UP, SNAKE_DIR_DOWN, SNAKE_DIR_LEFT, SNAKE_DIR_RIGHT,
                hd, e87]
          · simp [SnakeGame_ProcessInput, headingAfter, keyDirection, h1, h2, h3, h4]
  · intro ch d hk hr
    simp [headingAfter, hk, hr]
  · intro ch d hk hr
    simp [headingAfter, hk, hr]
  · intro ch hk
    simp [headingAfter, hk]

/-! ## GameObject_InBounds -/

/-- C3. `GameObject_InBounds` returns true exactly when `0 ≤ x < max_x` and
`0 ≤ y < max_y`; an object at `(max_x - 1, max_y - 1)` is in bounds when both
bounds are at least one, an object with `x = max_x` or `x = -1` is not. -/
theorem GameObject_InBounds_iff (o : GameObject) (max_x max_y : Int) :
    (GameObject_InBounds o max_x max_y = true
        ↔ (0 ≤ o.x ∧ o.x < max_x) ∧ (0 ≤ o.y ∧ o.y < max_y))
    ∧ (1 ≤ max_x → 1 ≤ max_y →
        GameObject_InBounds { o with x := max_x - 1, y := max_y - 1 } max_x max_y = true)
    ∧ GameObject_InBounds { o with x := max_x } max_x max_y = false
    ∧ GameObject_InBounds { o with x := -1 } max_x max_y = false := by
  refine ⟨?_, ?_, ?_, ?_⟩
  · simp only [GameObject_InBounds, Bool.and_eq_true, decide_eq_true_eq]
    constructor
    · rintro ⟨⟨⟨h1, h2⟩, h3⟩, h4⟩
      exact ⟨⟨by omega, h1⟩, ⟨by omega, h2⟩⟩
    · rintro ⟨⟨h1, h2⟩, ⟨h3, h4⟩⟩
      exact ⟨⟨⟨h2, h4⟩, by omega⟩, by omega⟩
  · intro h1 h2
    simp only [GameObject_InBounds, Bool.and_eq_true, decide_eq_true_eq]
    exact ⟨⟨⟨by omega, by omega⟩, by omega⟩, by omega⟩
  · simp [GameObject_InBounds]
  · simp [GameObject_InBounds]

/-! ## Snake_Grow -/

/-- C4. `Snake_Grow` appends exactly one segment: on a snake of length at least
one and below the capacity of `parts` the call returns, the length is one
more, the new last slot holds an object of type Snake with the snake sprite at
the position of the old tail, `tail` denotes that slot, the slots below the
old length and the heading are unchanged, and `head` still denotes slot 0. -/
theorem Snake_Grow_appends (snake : Snake) (hwf : snake.WellFormed)
    (hL : 1 ≤ snake.length) (hcap : snake.length < snake.parts.length) :
    ∃ s2 t, Snake_Grow snake = Exec.ok s2
      ∧ snake.parts[snake.length - 1]? = some (some t)
      ∧ s2.length = snake.length + 1
      ∧ s2.parts[snake.length]?
          = some (some { x := t.x, y := t.y, type := SNAKE_OBJTYPE, sprite := SNAKE_SPRITE })
      ∧ s2.tail = snake.length
      ∧ (∀ i, i < snake.length → s2.parts[i]? = snake.parts[i]?)
      ∧ s2.direction = snake.direction
      ∧ s2.head = 0
      ∧ s2.parts.length = snake.parts.length := by
  obtain ⟨t, ht, hx, hy⟩ := hwf.live (snake.length - 1) (by omega)
  have hobj : GameObject_Create t.x t.y SNAKE_OBJTYPE SNAKE_SPRITE
      = { x := t.x, y := t.y, type := SNAKE_OBJTYPE, sprite := SNAKE_SPRITE } := by
    have e1 : toChar SNAKE_OBJTYPE = SNAKE_OBJTYPE := by decide
    have e2 : toChar SNAKE_SPRITE = SNAKE_SPRITE := by decide
    simp only [GameObject_Create, toChar_of_isChar hx, toChar_of_isChar hy, e1, e2]
  refine ⟨{ snake with
      parts := snake.parts.set snake.length
        (some (GameObject_Create t.x t.y SNAKE_OBJTYPE SNAKE_SPRITE)),
      tail := snake.length, length := snake.length + 1 }, t, ?_, ht, rfl, ?_, rfl, ?_, rfl,
    hwf.head_eq, ?_⟩
  · have ht2 : getPart snake.parts snake.tail = Exec.ok t := by
      rw [hwf.tail_eq]; exact getPart_eq_ok.mpr ht
    simp only [Snake_Grow, ht2, setPart_of_lt _ hcap, Exec.ok_bind, Exec.pure_eq]
  · simp only [List.getElem?_set_self hcap, hobj]
  · intro i hi
    simp only [List.getElem?_set_ne (Nat.ne_of_gt hi)]
  · simp only [List.length_set]

/-- Witness of C4: the three-segment example snake, in an array of four slots,
grows. -/
theorem Snake_Grow_appends_witness :
    exampleSnake.WellFormed ∧ 1 ≤ exampleSnake.length
    ∧ exampleSnake.length < exampleSnake.parts.length
    ∧ ∃ s2 t, Snake_Grow exampleSnake = Exec.ok s2
      ∧ exampleSnake.parts[exampleSnake.length - 1]? = some (some t)
      ∧ s2.length = exampleSnake.length + 1
      ∧ s2.parts[exampleSnake.length]?
          = some (some { x := t.x, y := t.y, type := SNAKE_OBJTYPE, sprite := SNAKE_SPRITE })
      ∧ s2.tail = exampleSnake.length
      ∧ (∀ i, i < exampleSnake.length → s2.parts[i]? = exampleSnake.parts[i]?)
      ∧ s2.direction = exampleSnake.direction
      ∧ s2.head = 0
      ∧ s2.parts.length = exampleSnake.parts.length :=
  ⟨exampleSnake_wellFormed, by decide, by decide,
    Snake_Grow_appends exampleSnake exampleSnake_wellFormed (by decide) (by decide)⟩


/-! ## Heap reads and writes -/

theorem readAt_eq_ok {α : Type} {buf : List α} {i : Int} {v : α} :
    readAt buf i = Exec.ok v ↔ 0 ≤ i ∧ buf[i.toNat]? = some v := by
  unfold readAt
  by_cases h : 0 ≤ i
  · simp only [h, if_true, true_and]
    cases hb : buf[i.toNat]? with
    | none => simp
    | some w => simp
  · simp [h]

theorem writeAt_eq_ok {α : Type} {buf buf2 : List α} {i : Int} {v : α} :
    writeAt buf i v = Exec.ok buf2 ↔
      (0 ≤ i ∧ i.toNat < buf.length) ∧ buf2 = buf.set i.toNat v := by
  unfold writeAt
  rw [storeAt_eq]
  by_cases h0 : 0 ≤ i
  · by_cases h1 : i.toNat < buf.length
    · simp only [h0, h1, if_true, and_self, true_and, Exec.ok.injEq]
      exact eq_comm
    · simp [h0, h1]
  · simp [h0]

theorem readAt_set_self {α : Type} {buf : List α} {i : Int} (v : α)
    (h0 : 0 ≤ i) (h1 : i.toNat < buf.length) :
    readAt (buf.set i.toNat v) i = Exec.ok v := by
  rw [readAt_eq_ok]
  exact ⟨h0, List.getElem?_set_self h1⟩

theorem readAt_set_ne {α : Type} {buf : List α} {i j : Int} (v : α)
    (h0 : 0 ≤ i) (hne : j ≠ i) :
    readAt (buf.set i.toNat v) j = readAt buf j := by
  unfold readAt
  by_cases hj : 0 ≤ j
  · have hne2 : i.toNat ≠ j.toNat := by omega
    simp only [hj, if_true, List.getElem?_set_ne hne2]
  · simp [hj]


/-! ## SnakeGame_SpawnFood -/

theorem toChar_mod_of_le (r n : Nat) (hn0 : n ≠ 0) (hn : n ≤ 128) :
    0 ≤ toChar ((r % n : Nat) : Int) ∧ toChar ((r % n : Nat) : Int) < (n : Int) := by
  have h1 : r % n < n := Nat.mod_lt r (Nat.pos_of_ne_zero hn0)
  have h2 : toChar ((r % n : Nat) : Int) = ((r % n : Nat) : Int) := by
    apply toChar_of_isChar
    unfold IsChar
    omega
  rw [h2]
  omega

theorem SnakeGame_SpawnFood_spec (n : Nat) :
    ∀ (draws : List Nat), draws.length ≤ n →
    ∀ (g g2 : SnakeGame) (rest : List Nat),
      g.screen.columns ≤ 128 → g.screen.rows ≤ 128 →
      SnakeGame_SpawnFood g draws = Exec.ok (g2, rest) →
      (0 ≤ g2.food.x ∧ g2.food.x < (g.screen.columns : Int))
      ∧ (0 ≤ g2.food.y ∧ g2.food.y < (g.screen.rows : Int))
      ∧ readAt g.grid (POS_TO_INDEX g.screen.columns g2.food.x g2.food.y)
          = Exec.ok NONE_OBJTYPE
      ∧ readAt g2.grid (POS_TO_INDEX g.screen.columns g2.food.x g2.food.y)
          = Exec.ok FOOD_OBJTYPE
      ∧ (∀ j : Int, j ≠ POS_TO_INDEX g.screen.columns g2.food.x g2.food.y →
          readAt g2.grid j = readAt g.grid j)
      ∧ g2.grid.length = g.grid.length
      ∧ g2.snake = g.snake ∧ g2.screen = g.screen
      ∧ g2.food.type = g.food.type ∧ g2.food.sprite = g.food.sprite := by
  induction n with
  | zero =>
    intro draws hlen g g2 rest _ _ h
    have hnil : draws = [] := List.length_eq_zero.mp (Nat.le_zero.mp hlen)
    subst hnil
    simp [SnakeGame_SpawnFood] at h
  | succ n ih =>
    intro draws hlen g g2 rest hc hr h
    match draws, hlen, h with
    | [], _, h => simp [SnakeGame_SpawnFood] at h
    | [_], _, h => simp [SnakeGame_SpawnFood] at h
    | rx :: ry :: draws, hlen, h =>
      unfold SnakeGame_SpawnFood at h
      by_cases hz : g.screen.columns = 0 ∨ g.screen.rows = 0
      · simp [hz] at h
      · rw [if_neg hz] at h
        have hc0 : g.screen.columns ≠ 0 := fun e => hz (Or.inl e)
        have hr0 : g.screen.rows ≠ 0 := fun e => hz (Or.inr e)
        obtain ⟨hx0, hx1⟩ := toChar_mod_of_le rx _ hc0 hc
        obtain ⟨hy0, hy1⟩ := toChar_mod_of_le ry _ hr0 hr
        simp only at h
        split at h
        · rename_i tag htag
          by_cases ht : tag = NONE_OBJTYPE
          · rw [if_pos ht] at h
            split at h
            · rename_i grid hgrid
              obtain ⟨⟨hi0, hi1⟩, hset⟩ := writeAt_eq_ok.mp hgrid
              simp only [Exec.ok.injEq, Prod.mk.injEq] at h
              obtain ⟨hg, _⟩ := h
              subst hg
              subst hset
              subst ht
              refine ⟨⟨hx0, hx1⟩, ⟨hy0, hy1⟩, htag, ?_, ?_, ?_, rfl, rfl, rfl, rfl⟩
              · exact readAt_set_self _ hi0 hi1
              · intro j hj
                exact readAt_set_ne _ hi0 hj
              · simp only [List.length_set]
            · cases h
            · cases h
            · cases h
          · rw [if_neg ht] at h
            have hlen2 : draws.length ≤ n := by
              simp only [List.length_cons] at hlen
              omega
            have h2 := ih draws hlen2 _ g2 rest (by exact hc) (by exact hr) h
            exact h2
        · cases h
        · cases h
        · cases h

/-- C5, amended. `SnakeGame_SpawnFood` only lands on free cells when the grid
dimensions fit the 8-bit coordinates (`columns ≤ 128`, `rows ≤ 128`): for every
grid and every sequence of draws, if the call returns then the food is at
`0 ≤ x < columns`, `0 ≤ y < rows`, the grid cell `columns * y + x` was tagged
None before the call and is tagged Food after it, every other grid cell is as
before, and the snake (and the screen, and the food's type and sprite) are
unchanged. -/
theorem SnakeGame_SpawnFood_free_cell (g g2 : SnakeGame) (draws rest : List Nat)
    (hc : g.screen.columns ≤ 128) (hr : g.screen.rows ≤ 128)
    (h : SnakeGame_SpawnFood g draws = Exec.ok (g2, rest)) :
    (0 ≤ g2.food.x ∧ g2.food.x < (g.screen.columns : Int))
    ∧ (0 ≤ g2.food.y ∧ g2.food.y < (g.screen.rows : Int))
    ∧ readAt g.grid (POS_TO_INDEX g.screen.columns g2.food.x g2.food.y)
        = Exec.ok NONE_OBJTYPE
    ∧ readAt g2.grid (POS_TO_INDEX g.screen.columns g2.food.x g2.food.y)
        = Exec.ok FOOD_OBJTYPE
    ∧ (∀ j : Int, j ≠ POS_TO_INDEX g.screen.columns g2.food.x g2.food.y →
        readAt g2.grid j = readAt g.grid j)
    ∧ g2.grid.length = g.grid.length
    ∧ g2.snake = g.snake ∧ g2.screen = g.screen
    ∧ g2.food.type = g.food.type ∧ g2.food.sprite = g.food.sprite :=
  SnakeGame_SpawnFood_spec draws.length draws (Nat.le_refl _) g g2 rest hc hr h


/-- Witness of C5 (amended): on the 2 by 3 example grid the draws 4, 3 hit the
cell tagged Food and are rejected, the draws 2, 0 land on the free cell (2,0). -/
theorem SnakeGame_SpawnFood_free_cell_witness :
    SnakeGame_SpawnFood exampleGame [4, 3, 2, 0] = Exec.ok (exampleGameFed, [])
    ∧ (0 ≤ exampleGameFed.food.x ∧ exampleGameFed.food.x < (exampleGame.screen.columns : Int))
    ∧ (0 ≤ exampleGameFed.food.y ∧ exampleGameFed.food.y < (exampleGame.screen.rows : Int))
    ∧ readAt exampleGame.grid
        (POS_TO_INDEX exampleGame.screen.columns exampleGameFed.food.x exampleGameFed.food.y)
        = Exec.ok NONE_OBJTYPE
    ∧ readAt exampleGameFed.grid
        (POS_TO_INDEX exampleGame.screen.columns exampleGameFed.food.x exampleGameFed.food.y)
        = Exec.ok FOOD_OBJTYPE
    ∧ (∀ j : Int,
        j ≠ POS_TO_INDEX exampleGame.screen.columns exampleGameFed.food.x exampleGameFed.food.y →
        readAt exampleGameFed.grid j = readAt exampleGame.grid j)
    ∧ exampleGameFed.grid.length = exampleGame.grid.length
    ∧ exampleGameFed.snake = exampleGame.snake ∧ exampleGameFed.screen = exampleGame.screen
    ∧ exampleGameFed.food.type = exampleGame.food.type
    ∧ exampleGameFed.food.sprite = exampleGame.food.sprite :=
  ⟨by decide,
    SnakeGame_SpawnFood_free_cell exampleGame exampleGameFed [4, 3, 2, 0] []
      (by decide) (by decide) (by decide)⟩

set_option maxRecDepth 100000 in
/-- C5, counterexample. On a grid of 2 rows and 200 columns the draws 150 and 1
make `SnakeGame_SpawnFood` return with the food at `x = -106`: the value
`150 % 200` does not fit the 8-bit coordinate, the cell `200 * 1 - 106 = 94`
is free and gets the Food tag, and `0 ≤ x` fails. -/
theorem SnakeGame_SpawnFood_wraps :
    SnakeGame_SpawnFood wideGame [150, 1] = Exec.ok (wideGameFed, [])
    ∧ wideGameFed.food.x = -106 ∧ wideGameFed.food.x < 0
    ∧ POS_TO_INDEX wideGame.screen.columns wideGameFed.food.x wideGameFed.food.y = 94
    ∧ readAt wideGame.grid 94 = Exec.ok NONE_OBJTYPE
    ∧ readAt wideGameFed.grid 94 = Exec.ok FOOD_OBJTYPE := by
  refine ⟨?_, rfl, by decide, by decide, ?_, ?_⟩
  · decide
  · decide
  · decide


/-! ## Which fragments can end the process -/

theorem Exec.bind_eq_exit {α β : Type} {m : Exec α} {f : α → Exec β} {e : Exit}
    (h : (m >>= f) = Exec.exit e) : m = Exec.exit e ∨ ∃ a, m = Exec.ok a ∧ f a = Exec.exit e := by
  cases m with
  | ok a => exact Or.inr ⟨a, rfl, h⟩
  | exit e2 => exact Or.inl (by simpa using h)
  | undefined => cases h
  | starved => cases h

theorem Exec.ExitsOnly.bind {α β : Type} {P : Exit → Prop} {m : Exec α} {f : α → Exec β}
    (hm : m.ExitsOnly P) (hf : ∀ a, m = Exec.ok a → (f a).ExitsOnly P) :
    (m >>= f).ExitsOnly P := by
  intro e h
  rcases Exec.bind_eq_exit h with h1 | ⟨a, h1, h2⟩
  · exact hm e h1
  · exact hf a h1 e h2

theorem Exec.ExitsOnly.mono {α : Type} {P Q : Exit → Prop} {m : Exec α}
    (hm : m.ExitsOnly P) (hPQ : ∀ e, P e → Q e) : m.ExitsOnly Q :=
  fun e h => hPQ e (hm e h)

theorem Exec.ExitsOnly.ok {α : Type} (P : Exit → Prop) (a : α) :
    (Exec.ok a).ExitsOnly P := by
  intro e h
  cases h

theorem readAt_noExit {α : Type} (P : Exit → Prop) (buf : List α) (i : Int) :
    (readAt buf i).ExitsOnly P := by
  intro e h
  unfold readAt at h
  split at h
  · split at h <;> cases h
  · cases h

theorem writeAt_noExit {α : Type} (P : Exit → Prop) (buf : List α) (i : Int) (v : α) :
    (writeAt buf i v).ExitsOnly P := by
  intro e h
  unfold writeAt at h
  split at h
  · split at h <;> cases h
  · cases h

theorem getPart_noExit (P : Exit → Prop) (parts : List (Option GameObject)) (i : Nat) :
    (getPart parts i).ExitsOnly P := by
  intro e h
  unfold getPart at h
  split at h <;> cases h

theorem setPart_noExit (P : Exit → Prop) (parts : List (Option GameObject)) (i : Nat)
    (o : GameObject) : (setPart parts i o).ExitsOnly P := by
  intro e h
  unfold setPart at h
  split at h <;> cases h

theorem Snake_Move_shift_noExit (P : Exit → Prop) (n : Nat) :
    ∀ parts, (Snake_Move_shift n parts).ExitsOnly P := by
  induction n with
  | zero => intro parts; exact Exec.ExitsOnly.ok P parts
  | succ n ih =>
    intro parts
    unfold Snake_Move_shift
    refine Exec.ExitsOnly.bind (getPart_noExit P _ _) fun prev _ => ?_
    refine Exec.ExitsOnly.bind (getPart_noExit P _ _) fun cur _ => ?_
    refine Exec.ExitsOnly.bind (setPart_noExit P _ _ _) fun parts2 _ => ?_
    exact ih parts2

theorem Snake_Grow_noExit (P : Exit → Prop) (snake : Snake) :
    (Snake_Grow snake).ExitsOnly P := by
  unfold Snake_Grow
  refine Exec.ExitsOnly.bind (getPart_noExit P _ _) fun t _ => ?_
  refine Exec.ExitsOnly.bind (setPart_noExit P _ _ _) fun parts2 _ => ?_
  exact Exec.ExitsOnly.ok P _

theorem Snake_Move_exitsOnly (snake : Snake) (d : Int) :
    (Snake_Move snake d).ExitsOnly
      (fun e => e = { status := 1, message := Message.invalidDirection, teardown := false }) := by
  unfold Snake_Move
  refine Exec.ExitsOnly.bind (Snake_Move_shift_noExit _ _ _) fun parts _ => ?_
  split
  · refine Exec.ExitsOnly.bind (getPart_noExit _ _ _) fun h _ => ?_
    refine Exec.ExitsOnly.bind (setPart_noExit _ _ _ _) fun parts2 _ => ?_
    exact Exec.ExitsOnly.ok _ _
  · split
    · refine Exec.ExitsOnly.bind (getPart_noExit _ _ _) fun h _ => ?_
      refine Exec.ExitsOnly.bind (setPart_noExit _ _ _ _) fun parts2 _ => ?_
      exact Exec.ExitsOnly.ok _ _
    · split
      · refine Exec.ExitsOnly.bind (getPart_noExit _ _ _) fun h _ => ?_
        refine Exec.ExitsOnly.bind (setPart_noExit _ _ _ _) fun parts2 _ => ?_
        exact Exec.ExitsOnly.ok _ _
      · split
        · refine Exec.ExitsOnly.bind (getPart_noExit _ _ _) fun h _ => ?_
          refine Exec.ExitsOnly.bind (setPart_noExit _ _ _ _) fun parts2 _ => ?_
          exact Exec.ExitsOnly.ok _ _
        · intro e h
          unfold ERROR_EXIT at h
          cases h
          rfl


theorem Screen_PushToPos_noExit (P : Exit → Prop) (screen : Screen) (column row ch : Int) :
    (Screen_PushToPos screen column row ch).ExitsOnly P := by
  unfold Screen_PushToPos
  refine Exec.ExitsOnly.bind (writeAt_noExit P _ _ _) fun b _ => ?_
  exact Exec.ExitsOnly.ok P _

theorem Screen_ClearPos_noExit (P : Exit → Prop) (screen : Screen) (column row : Int) :
    (Screen_ClearPos screen column row).ExitsOnly P := by
  unfold Screen_ClearPos
  refine Exec.ExitsOnly.bind (writeAt_noExit P _ _ _) fun b _ => ?_
  exact Exec.ExitsOnly.ok P _

theorem Screen_Render_loop_noExit (P : Exit → Prop) (columns : Nat) (draw : List Int)
    (n : Nat) : ∀ i j k pb, (Screen_Render_loop columns draw n i j k pb).ExitsOnly P := by
  induction n with
  | zero => intro i j k pb; exact Exec.ExitsOnly.ok P pb
  | succ n ih =>
    intro i j k pb
    unfold Screen_Render_loop
    refine Exec.ExitsOnly.bind (readAt_noExit P _ _) fun d _ => ?_
    refine Exec.ExitsOnly.bind (writeAt_noExit P _ _ _) fun pb2 _ => ?_
    · split
      · refine Exec.ExitsOnly.bind (writeAt_noExit P _ _ _) fun pb3 _ => ?_
        exact ih _ _ _ _
      · exact ih _ _ _ _

theorem Screen_Render_noExit (P : Exit → Prop) (screen : Screen) :
    (Screen_Render screen).ExitsOnly P := by
  unfold Screen_Render
  refine Exec.ExitsOnly.bind (Screen_Render_loop_noExit P _ _ _ _ _ _ _) fun pb _ => ?_
  exact Exec.ExitsOnly.ok P _

theorem SnakeGame_SpawnFood_noExit (P : Exit → Prop) (n : Nat) :
    ∀ (draws : List Nat), draws.length ≤ n →
      ∀ g : SnakeGame, (SnakeGame_SpawnFood g draws).ExitsOnly P := by
  induction n with
  | zero =>
    intro draws hlen g e h
    have hnil : draws = [] := List.length_eq_zero.mp (Nat.le_zero.mp hlen)
    subst hnil
    simp [SnakeGame_SpawnFood] at h
  | succ n ih =>
    intro draws hlen g e h
    match draws, hlen, h with
    | [], _, h => simp [SnakeGame_SpawnFood] at h
    | [_], _, h => simp [SnakeGame_SpawnFood] at h
    | rx :: ry :: draws, hlen, h =>
      unfold SnakeGame_SpawnFood at h
      split at h
      · cases h
      · simp only at h
        split at h
        · split at h
          · split at h
            · cases h
            · rename_i hw
              exact absurd hw (fun hw2 => writeAt_noExit (fun _ => False) _ _ _ _ hw2)
            · cases h
            · cases h
          · have hlen2 : draws.length ≤ n := by
              simp only [List.length_cons] at hlen
              omega
            exact ih draws hlen2 _ e h
        · rename_i hr
          exact absurd hr (fun hr2 => readAt_noExit (fun _ => False) _ _ _ hr2)
        · cases h
        · cases h

theorem SnakeGame_ConsumeFood_noExit (P : Exit → Prop) (g : SnakeGame) :
    (SnakeGame_ConsumeFood g).ExitsOnly P := by
  unfold SnakeGame_ConsumeFood
  refine Exec.ExitsOnly.bind (writeAt_noExit P _ _ _) fun grid _ => ?_
  refine Exec.ExitsOnly.bind (Snake_Grow_noExit P _) fun snake _ => ?_
  exact Exec.ExitsOnly.ok P _

theorem SnakeGame_GameLoop_parts_noExit (P : Exit → Prop) (n : Nat) :
    ∀ i g, (SnakeGame_GameLoop_parts n i g).ExitsOnly P := by
  induction n with
  | zero => intro i g; exact Exec.ExitsOnly.ok P g
  | succ n ih =>
    intro i g
    unfold SnakeGame_GameLoop_parts
    refine Exec.ExitsOnly.bind (getPart_noExit P _ _) fun p _ => ?_
    refine Exec.ExitsOnly.bind (writeAt_noExit P _ _ _) fun grid _ => ?_
    refine Exec.ExitsOnly.bind (Screen_PushToPos_noExit P _ _ _ _) fun screen _ => ?_
    exact ih _ _

theorem SnakeGame_GameLoop_redraw_noExit (P : Exit → Prop) (g : SnakeGame) :
    (SnakeGame_GameLoop_redraw g).ExitsOnly P := by
  unfold SnakeGame_GameLoop_redraw
  refine Exec.ExitsOnly.bind (SnakeGame_GameLoop_parts_noExit P _ _ _) fun g2 _ => ?_
  refine Exec.ExitsOnly.bind (Screen_PushToPos_noExit P _ _ _ _) fun screen _ => ?_
  exact Exec.ExitsOnly.ok P _

theorem SnakeGame_GameLoop_retire_exitsOnly (g : SnakeGame) :
    (SnakeGame_GameLoop_retire g).ExitsOnly
      (fun e => e = { status := 1, message := Message.invalidDirection, teardown := false }) := by
  unfold SnakeGame_GameLoop_retire
  refine Exec.ExitsOnly.bind (getPart_noExit _ _ _) fun t _ => ?_
  refine Exec.ExitsOnly.bind (writeAt_noExit _ _ _ _) fun grid _ => ?_
  refine Exec.ExitsOnly.bind (Screen_ClearPos_noExit _ _ _ _) fun screen _ => ?_
  refine Exec.ExitsOnly.bind (Snake_Move_exitsOnly _ _) fun snake _ => ?_
  exact Exec.ExitsOnly.ok _ _

theorem SnakeGame_ProcessInput_exitsOnly (g : SnakeGame) (pending : Pending) :
    (SnakeGame_ProcessInput g pending).ExitsOnly
      (fun e => e = { status := 1, message := Message.invalidCharacter, teardown := false }) := by
  intro e h
  unfold SnakeGame_ProcessInput at h
  split at h
  · cases h
  · unfold ERROR_EXIT at h
    cases h
    rfl
  · split_ifs at h

/-- The part of a tick after the classification (lines 540-561). -/
theorem SnakeGame_GameLoop_tick_eq (g : SnakeGame) (pending : Pending) (draws : List Nat) :
    SnakeGame_GameLoop_tick g pending draws =
      (SnakeGame_GameLoop_classify g draws >>= fun r =>
        SnakeGame_ProcessInput r.1 pending >>= fun g1 =>
        SnakeGame_GameLoop_redraw g1 >>= fun g2 =>
        Screen_Render g2.screen >>= fun sr =>
        SnakeGame_GameLoop_retire { g2 with screen := sr.1 } >>= fun g3 =>
        Exec.ok (g3, r.2)) := rfl

/-- After the classification a tick can only end the process through the two
error exits of input reading and of `Snake_Move`. -/
theorem SnakeGame_GameLoop_afterClassify_exitsOnly (r : SnakeGame × List Nat)
    (pending : Pending) :
    (SnakeGame_ProcessInput r.1 pending >>= fun g1 =>
        SnakeGame_GameLoop_redraw g1 >>= fun g2 =>
        Screen_Render g2.screen >>= fun sr =>
        SnakeGame_GameLoop_retire { g2 with screen := sr.1 } >>= fun g3 =>
        Exec.ok (g3, r.2)).ExitsOnly
      (fun e => e = { status := 1, message := Message.invalidCharacter, teardown := false }
        ∨ e = { status := 1, message := Message.invalidDirection, teardown := false }) := by
  refine Exec.ExitsOnly.bind
    ((SnakeGame_ProcessInput_exitsOnly _ _).mono fun e he => Or.inl he) fun g1 _ => ?_
  refine Exec.ExitsOnly.bind (SnakeGame_GameLoop_redraw_noExit _ _) fun g2 _ => ?_
  refine Exec.ExitsOnly.bind (Screen_Render_noExit _ _) fun sr _ => ?_
  refine Exec.ExitsOnly.bind
    ((SnakeGame_GameLoop_retire_exitsOnly _).mono fun e he => Or.inr he) fun g3 _ => ?_
  exact Exec.ExitsOnly.ok _ _


/-! ## The classification step -/

theorem GameObject_InBounds_eq_true {o : GameObject} {max_x max_y : Int} :
    GameObject_InBounds o max_x max_y = true
      ↔ (0 ≤ o.x ∧ o.x < max_x) ∧ (0 ≤ o.y ∧ o.y < max_y) := by
  simp only [GameObject_InBounds, Bool.and_eq_true, decide_eq_true_eq]
  constructor
  · rintro ⟨⟨⟨h1, h2⟩, h3⟩, h4⟩
    exact ⟨⟨by omega, h1⟩, ⟨by omega, h2⟩⟩
  · rintro ⟨⟨h1, h2⟩, ⟨h3, h4⟩⟩
    exact ⟨⟨⟨h2, h4⟩, by omega⟩, by omega⟩

theorem SnakeGame_SnakeIsMaxLength_iff (g : SnakeGame) :
    SnakeGame_SnakeIsMaxLength g = true
      ↔ (g.snake.length : Int) = (g.screen.columns : Int) * (g.screen.rows : Int) - 1 := by
  simp [SnakeGame_SnakeIsMaxLength]

theorem SnakeGame_GameLoop_classify_of_max (g : SnakeGame) (draws : List Nat)
    (hmax : SnakeGame_SnakeIsMaxLength g = true) :
    SnakeGame_GameLoop_classify g draws = SnakeGame_MACRO_PrintAndTerminate Message.victory := by
  simp [SnakeGame_GameLoop_classify, hmax]

/-- The classification with the win check failing and the head object `h`. -/
theorem SnakeGame_GameLoop_classify_eq (g : SnakeGame) (draws : List Nat) (h : GameObject)
    (hmax : SnakeGame_SnakeIsMaxLength g = false)
    (hh : g.snake.parts[g.snake.head]? = some (some h)) :
    SnakeGame_GameLoop_classify g draws =
      if GameObject_InBounds h g.screen.columns g.screen.rows = false then
        SnakeGame_MACRO_PrintAndTerminate (Message.unfortunate g.snake.length)
      else
        readAt g.grid (POS_TO_INDEX g.screen.columns h.x h.y) >>= fun tag =>
          if tag = SNAKE_OBJTYPE then
            SnakeGame_MACRO_PrintAndTerminate (Message.unfortunate g.snake.length)
          else if tag = FOOD_OBJTYPE then
            SnakeGame_ConsumeFood g >>= fun g2 => SnakeGame_SpawnFood g2 draws
          else if tag = NONE_OBJTYPE then Exec.ok (g, draws)
          else ERROR_EXIT Message.unknownCollision := by
  have hget : getPart g.snake.parts g.snake.head = Exec.ok h := getPart_eq_ok.mpr hh
  simp only [SnakeGame_GameLoop_classify, hmax, SnakeGame_GetInBounds, SnakeGame_GetCollision,
    hget, Exec.ok_bind, Exec.pure_eq]
  cases hb : GameObject_InBounds h g.screen.columns g.screen.rows <;> simp

theorem SnakeGame_GameLoop_classify_exit {g : SnakeGame} {draws : List Nat} {e : Exit}
    (hmax : SnakeGame_SnakeIsMaxLength g = false)
    (he : SnakeGame_GameLoop_classify g draws = Exec.exit e) :
    (∃ h, g.snake.parts[g.snake.head]? = some (some h)
        ∧ (GameObject_InBounds h g.screen.columns g.screen.rows = false
            ∨ readAt g.grid (POS_TO_INDEX g.screen.columns h.x h.y) = Exec.ok SNAKE_OBJTYPE)
        ∧ e = { status := 1, message := Message.unfortunate g.snake.length, teardown := true })
    ∨ e = { status := 1, message := Message.unknownCollision, teardown := false } := by
  cases hget : getPart g.snake.parts g.snake.head with
  | ok h =>
    have hh := getPart_eq_ok.mp hget
    rw [SnakeGame_GameLoop_classify_eq g draws h hmax hh] at he
    split at he
    · rename_i hb
      left
      refine ⟨h, hh, Or.inl hb, ?_⟩
      unfold SnakeGame_MACRO_PrintAndTerminate at he
      cases he
      rfl
    · rcases Exec.bind_eq_exit he with h1 | ⟨tag, h1, h2⟩
      · exact absurd h1 (fun h3 => readAt_noExit (fun _ => False) _ _ _ h3)
      · split at h2
        · rename_i ht
          left
          refine ⟨h, hh, Or.inr (by rw [h1, ht]), ?_⟩
          unfold SnakeGame_MACRO_PrintAndTerminate at h2
          cases h2
          rfl
        · split at h2
          · rcases Exec.bind_eq_exit h2 with h3 | ⟨g2, _, h4⟩
            · exact absurd h3 (fun h5 => SnakeGame_ConsumeFood_noExit (fun _ => False) _ _ h5)
            · exact absurd h4 (fun h5 =>
                SnakeGame_SpawnFood_noExit (fun _ => False) _ draws (Nat.le_refl _) g2 _ h5)
          · split at h2
            · cases h2
            · right
              unfold ERROR_EXIT at h2
              cases h2
              rfl
  | exit e2 => exact absurd hget (fun h3 => getPart_noExit (fun _ => False) _ _ _ h3)
  | undefined =>
    simp [SnakeGame_GameLoop_classify, hmax, SnakeGame_GetInBounds, hget] at he
  | starved =>
    simp [SnakeGame_GameLoop_classify, hmax, SnakeGame_GetInBounds, hget] at he

/-- Every way one tick can end the process. -/
theorem SnakeGame_GameLoop_tick_exit {g : SnakeGame} {pending : Pending} {draws : List Nat}
    {e : Exit} (he : SnakeGame_GameLoop_tick g pending draws = Exec.exit e) :
    (SnakeGame_SnakeIsMaxLength g = true
        ∧ e = { status := 1, message := Message.victory, teardown := true })
    ∨ (SnakeGame_SnakeIsMaxLength g = false
        ∧ ∃ h, g.snake.parts[g.snake.head]? = some (some h)
        ∧ (GameObject_InBounds h g.screen.columns g.screen.rows = false
            ∨ readAt g.grid (POS_TO_INDEX g.screen.columns h.x h.y) = Exec.ok SNAKE_OBJTYPE)
        ∧ e = { status := 1, message := Message.unfortunate g.snake.length, teardown := true })
    ∨ e = { status := 1, message := Message.unknownCollision, teardown := false }
    ∨ e = { status := 1, message := Message.invalidCharacter, teardown := false }
    ∨ e = { status := 1, message := Message.invalidDirection, teardown := false } := by
  rw [SnakeGame_GameLoop_tick_eq] at he
  rcases Exec.bind_eq_exit he with h1 | ⟨r, _, h2⟩
  · cases hmax : SnakeGame_SnakeIsMaxLength g with
    | true =>
      rw [SnakeGame_GameLoop_classify_of_max g draws hmax] at h1
      unfold SnakeGame_MACRO_PrintAndTerminate at h1
      cases h1
      exact Or.inl ⟨rfl, rfl⟩
    | false =>
      rcases SnakeGame_GameLoop_classify_exit hmax h1 with h3 | h3
      · exact Or.inr (Or.inl ⟨rfl, h3⟩)
      · exact Or.inr (Or.inr (Or.inl h3))
  · rcases SnakeGame_GameLoop_afterClassify_exitsOnly r pending e h2 with h3 | h3
    · exact Or.inr (Or.inr (Or.inr (Or.inl h3)))
    · exact Or.inr (Or.inr (Or.inr (Or.inr h3)))


theorem SnakeGame_GameLoop_tick_of_classify_exit {g : SnakeGame} {pending : Pending}
    {draws : List Nat} {e : Exit} (h : SnakeGame_GameLoop_classify g draws = Exec.exit e) :
    SnakeGame_GameLoop_tick g pending draws = Exec.exit e := by
  rw [SnakeGame_GameLoop_tick_eq, h]
  rfl

theorem SnakeGame_SnakeIsMaxLength_eq_false {g : SnakeGame}
    (h : (g.snake.length : Int) ≠ (g.screen.columns : Int) * (g.screen.rows : Int) - 1) :
    SnakeGame_SnakeIsMaxLength g = false := by
  simp [SnakeGame_SnakeIsMaxLength, h]

/-! ## The win check -/

/-- C6. Win check: when the snake's length equals `rows * columns - 1`, one
tick of the game loop ends in the Won transition (the victory message, then
termination), whatever the rest of the state, the pending key and the draws;
and when the length has any other value no tick ends with the victory
message. -/
theorem SnakeGame_GameLoop_tick_won (g : SnakeGame) (pending : Pending) (draws : List Nat) :
    ((g.snake.length : Int) = (g.screen.columns : Int) * (g.screen.rows : Int) - 1 →
      SnakeGame_GameLoop_tick g pending draws
        = SnakeGame_MACRO_PrintAndTerminate Message.victory)
    ∧ ((g.snake.length : Int) ≠ (g.screen.columns : Int) * (g.screen.rows : Int) - 1 →
      ∀ e, SnakeGame_GameLoop_tick g pending draws = Exec.exit e →
        e.message ≠ Message.victory) := by
  constructor
  · intro h
    have hmax : SnakeGame_SnakeIsMaxLength g = true := (SnakeGame_SnakeIsMaxLength_iff g).mpr h
    exact SnakeGame_GameLoop_tick_of_classify_exit
      (SnakeGame_GameLoop_classify_of_max g draws hmax)
  · intro h e he
    have hmax := SnakeGame_SnakeIsMaxLength_eq_false h
    rcases SnakeGame_GameLoop_tick_exit he with ⟨h1, _⟩ | ⟨_, _, _, _, h2⟩ | h2 | h2 | h2
    · rw [hmax] at h1
      cases h1
    all_goals
      rw [h2]
      intro h3
      cases h3

/-! ## The loss classification -/

/-- C7. Loss classification: in a state whose snake length is not
`rows * columns - 1` and whose head is the object `h`, one tick ends in the
Lost transition exactly when `h` is outside `[0,columns) x [0,rows)` or the
grid cell of `h`, as the grid is at the start of the tick, is tagged Snake;
the length the Lost message reports is the snake's length; and with the head
out of bounds the tick ends in Lost whatever the grid is, so the grid is not
consulted. -/
theorem SnakeGame_GameLoop_tick_lost_iff (g : SnakeGame) (pending : Pending)
    (draws : List Nat) (h : GameObject)
    (hlen : (g.snake.length : Int) ≠ (g.screen.columns : Int) * (g.screen.rows : Int) - 1)
    (hh : g.snake.parts[g.snake.head]? = some (some h)) :
    ((∃ n, SnakeGame_GameLoop_tick g pending draws
          = SnakeGame_MACRO_PrintAndTerminate (Message.unfortunate n))
      ↔ (¬ ((0 ≤ h.x ∧ h.x < (g.screen.columns : Int)) ∧ (0 ≤ h.y ∧ h.y < (g.screen.rows : Int)))
          ∨ readAt g.grid (POS_TO_INDEX g.screen.columns h.x h.y) = Exec.ok SNAKE_OBJTYPE))
    ∧ (∀ e n, SnakeGame_GameLoop_tick g pending draws = Exec.exit e →
        e.message = Message.unfortunate n → n = g.snake.length)
    ∧ (¬ ((0 ≤ h.x ∧ h.x < (g.screen.columns : Int)) ∧ (0 ≤ h.y ∧ h.y < (g.screen.rows : Int))) →
        ∀ grid2 : List Int, SnakeGame_GameLoop_tick { g with grid := grid2 } pending draws
          = SnakeGame_MACRO_PrintAndTerminate (Message.unfortunate g.snake.length)) := by
  have hmax := SnakeGame_SnakeIsMaxLength_eq_false hlen
  have hout : ∀ grid2 : List Int,
      GameObject_InBounds h g.screen.columns g.screen.rows = false →
      SnakeGame_GameLoop_tick { g with grid := grid2 } pending draws
        = SnakeGame_MACRO_PrintAndTerminate (Message.unfortunate g.snake.length) := by
    intro grid2 hb
    apply SnakeGame_GameLoop_tick_of_classify_exit
    have hmax2 : SnakeGame_SnakeIsMaxLength { g with grid := grid2 } = false := hmax
    rw [SnakeGame_GameLoop_classify_eq { g with grid := grid2 } draws h hmax2 hh]
    simp only [hb, if_true]
    rfl
  have hnot : ∀ {b : Bool}, ¬ (b = true) → b = false := by
    intro b hb
    cases b
    · rfl
    · exact absurd rfl hb
  refine ⟨⟨?_, ?_⟩, ?_, ?_⟩
  · rintro ⟨n, hn⟩
    rcases SnakeGame_GameLoop_tick_exit hn with ⟨h1, _⟩ | ⟨_, h2, hh2, hc, _⟩ | h2 | h2 | h2
    · rw [hmax] at h1
      cases h1
    · rw [hh] at hh2
      cases hh2
      rcases hc with hc | hc
      · left
        intro hin
        rw [GameObject_InBounds_eq_true.mpr hin] at hc
        cases hc
      · exact Or.inr hc
    · cases h2
    · cases h2
    · cases h2
  · intro hc
    refine ⟨g.snake.length, ?_⟩
    by_cases hb : GameObject_InBounds h g.screen.columns g.screen.rows = true
    · rcases hc with hc | hc
      · exact absurd (GameObject_InBounds_eq_true.mp hb) hc
      · apply SnakeGame_GameLoop_tick_of_classify_exit
        rw [SnakeGame_GameLoop_classify_eq g draws h hmax hh]
        simp only [hb, hc, Exec.ok_bind, if_true]
        rfl
    · exact hout g.grid (hnot hb)
  · intro e n he hm
    rcases SnakeGame_GameLoop_tick_exit he with ⟨h1, _⟩ | ⟨_, _, _, _, h2⟩ | h2 | h2 | h2
    · rw [hmax] at h1
      cases h1
    · rw [h2] at hm
      cases hm
      rfl
    · rw [h2] at hm
      cases hm
    · rw [h2] at hm
      cases hm
    · rw [h2] at hm
      cases hm
  · intro hc grid2
    apply hout grid2
    apply hnot
    intro hb
    exact hc (GameObject_InBounds_eq_true.mp hb)


/-! ## Screen_Render returns -/

theorem readAt_nat_of_lt {α : Type} {buf : List α} {i : Nat} (h : i < buf.length) :
    ∃ v, readAt buf (i : Int) = Exec.ok v := by
  refine ⟨buf[i], ?_⟩
  rw [readAt_eq_ok]
  refine ⟨Int.natCast_nonneg i, ?_⟩
  simp [List.getElem?_eq_getElem h]

theorem writeAt_nat_of_lt {α : Type} {buf : List α} {i : Nat} (v : α) (h : i < buf.length) :
    writeAt buf (i : Int) v = Exec.ok (buf.set i v) := by
  rw [writeAt_eq_ok]
  simp [h]

theorem Screen_Render_loop_ok (rows columns : Nat) (draw : List Int)
    (hdraw : draw.length = rows * columns) (n : Nat) :
    ∀ (i j k q : Nat) (pb : List Int),
      i + n = rows * columns → i = q * columns + j → j < columns → k = i + q →
      pb.length = rows * columns + rows →
      ∃ pb2, Screen_Render_loop columns draw n i j k pb = Exec.ok pb2
        ∧ pb2.length = pb.length := by
  induction n with
  | zero =>
    intro i j k q pb _ _ _ _ _
    exact ⟨pb, rfl, rfl⟩
  | succ n ih =>
    intro i j k q pb hin hi hj hk hpb
    have hq : q < rows := by
      by_contra hc
      have h1 : rows * columns ≤ q * columns := Nat.mul_le_mul_right columns (Nat.le_of_not_lt hc)
      omega
    have hilt : i < draw.length := by omega
    have hklt : k < pb.length := by omega
    obtain ⟨d, hd⟩ := readAt_nat_of_lt hilt
    unfold Screen_Render_loop
    simp only [hd, Exec.ok_bind, writeAt_nat_of_lt _ hklt]
    by_cases hjc : j + 1 = columns
    · have hk1 : k + 1 < (pb.set k (if d = 0 then NONE_SPRITE else d)).length := by
        rw [List.length_set]
        omega
      simp only [hjc, if_true, writeAt_nat_of_lt _ hk1, Exec.ok_bind]
      have hmul : (q + 1) * columns = q * columns + columns := Nat.succ_mul q columns
      obtain ⟨pb2, hrun, hlen⟩ := ih (i + 1) 0 (k + 1 + 1) (q + 1)
        ((pb.set k (if d = 0 then NONE_SPRITE else d)).set (k + 1) 10)
        (by omega) (by omega) (by omega) (by omega)
        (by rw [List.length_set, List.length_set]; exact hpb)
      refine ⟨pb2, hrun, ?_⟩
      rw [hlen, List.length_set, List.length_set]
    · simp only [hjc, if_false]
      obtain ⟨pb2, hrun, hlen⟩ := ih (i + 1) (j + 1) (k + 1) q
        (pb.set k (if d = 0 then NONE_SPRITE else d))
        (by omega) (by omega) (by omega) (by omega)
        (by rw [List.length_set]; exact hpb)
      refine ⟨pb2, hrun, ?_⟩
      rw [hlen, List.length_set]

/-- On a screen whose buffers have the sizes `Screen_Create` gives them,
`Screen_Render` returns and changes nothing but the contents of the print
buffer. -/
theorem Screen_Render_ok (screen : Screen)
    (hdraw : screen.draw_buffer.length = screen.rows * screen.columns)
    (hprint : screen.print_buffer.length = screen.rows * screen.columns + screen.rows) :
    ∃ pb, Screen_Render screen
        = Exec.ok ({ screen with print_buffer := pb },
            { bytes := [27, 91, 72] ++ printf_s pb, overrun := printf_s_overruns pb })
      ∧ pb.length = screen.print_buffer.length := by
  rcases Nat.eq_zero_or_pos screen.columns with h0 | h0
  · refine ⟨screen.print_buffer, ?_, rfl⟩
    simp only [Screen_Render, h0, Nat.zero_mul, Screen_Render_loop, Exec.ok_bind, Exec.pure_eq]
  · obtain ⟨pb, hrun, hlen⟩ := Screen_Render_loop_ok screen.rows screen.columns
      screen.draw_buffer hdraw (screen.columns * screen.rows) 0 0 0 0 screen.print_buffer
      (by rw [Nat.zero_add, Nat.mul_comm]) (by simp) h0 rfl hprint
    refine ⟨pb, ?_, hlen⟩
    simp only [Screen_Render, hrun, Exec.ok_bind, Exec.pure_eq]


/-! ## A tick that returns -/

theorem SnakeGame_GameLoop_retire_withPrintBuffer (g : SnakeGame) (pb : List Int) :
    SnakeGame_GameLoop_retire (g.withPrintBuffer pb)
      = (SnakeGame_GameLoop_retire g >>= fun g2 => Exec.ok (g2.withPrintBuffer pb)) := by
  simp only [SnakeGame_GameLoop_retire, SnakeGame.withPrintBuffer, Screen_ClearPos]
  cases getPart g.snake.parts g.snake.tail with
  | ok t =>
    simp only [Exec.ok_bind]
    cases writeAt g.grid (POS_TO_INDEX g.screen.columns t.x t.y) NONE_OBJTYPE with
    | ok grid =>
      simp only [Exec.ok_bind]
      cases writeAt g.screen.draw_buffer (POS_TO_INDEX g.screen.columns t.x t.y) 0 with
      | ok db =>
        simp only [Exec.ok_bind, Exec.pure_eq]
        cases Snake_Move g.snake g.snake.direction <;> rfl
      | exit e => rfl
      | undefined => rfl
      | starved => rfl
    | exit e => rfl
    | undefined => rfl
    | starved => rfl
  | exit e => rfl
  | undefined => rfl
  | starved => rfl

/-- A tick assembled from its phases: when the classification, the input
processing, the redraw pass and the retirement return and the screen buffers
have the sizes `Screen_Create` gives them, the tick returns the state the
phases lead to, with some contents of the print buffer. -/
theorem SnakeGame_GameLoop_tick_eq_ok {g ga gb gc gd : SnakeGame} {pending : Pending}
    {draws rest : List Nat}
    (h1 : SnakeGame_GameLoop_classify g draws = Exec.ok (ga, rest))
    (h2 : SnakeGame_ProcessInput ga pending = Exec.ok gb)
    (h3 : SnakeGame_GameLoop_redraw gb = Exec.ok gc)
    (hdraw : gc.screen.draw_buffer.length = gc.screen.rows * gc.screen.columns)
    (hprint : gc.screen.print_buffer.length = gc.screen.rows * gc.screen.columns + gc.screen.rows)
    (h4 : SnakeGame_GameLoop_retire gc = Exec.ok gd) :
    ∃ pb, SnakeGame_GameLoop_tick g pending draws = Exec.ok (gd.withPrintBuffer pb, rest) := by
  obtain ⟨pb, hr, _⟩ := Screen_Render_ok gc.screen hdraw hprint
  refine ⟨pb, ?_⟩
  have h5 := SnakeGame_GameLoop_retire_withPrintBuffer gc pb
  rw [h4] at h5
  simp only [SnakeGame.withPrintBuffer, Exec.ok_bind] at h5
  rw [SnakeGame_GameLoop_tick_eq, h1]
  simp only [Exec.ok_bind, h2, h3, hr, h5]
  rfl

set_option maxRecDepth 100000 in
theorem bugStart_beginPlay :
    SnakeGame_BeginPlay (SnakeGame_Create 15 30) [14, 7] = Exec.ok (bugStart, []) := by
  decide

set_option maxRecDepth 100000 in
theorem bugStart_classify :
    SnakeGame_GameLoop_classify bugStart [14, 7] = Exec.ok (bugFed, []) := by
  decide

set_option maxRecDepth 100000 in
theorem bugFed_redraw : SnakeGame_GameLoop_redraw bugFed = Exec.ok bugDrawn := by
  decide

set_option maxRecDepth 100000 in
theorem bugDrawn_retire : SnakeGame_GameLoop_retire bugDrawn = Exec.ok bugMoved := by
  decide


/-- Witness of C7: the 2 by 3 example game with the head of its three-segment
snake at (5,5), outside the grid, ends in Lost reporting length 3. -/
theorem SnakeGame_GameLoop_tick_lost_iff_witness :
    (exampleLoop.snake.length : Int)
        ≠ (exampleLoop.screen.columns : Int) * (exampleLoop.screen.rows : Int) - 1
    ∧ exampleLoop.snake.parts[exampleLoop.snake.head]?
        = some (some { x := 5, y := 5, type := 1, sprite := 83 })
    ∧ SnakeGame_GameLoop_tick exampleLoop Pending.noKey []
        = SnakeGame_MACRO_PrintAndTerminate (Message.unfortunate 3) :=
  ⟨by decide, rfl,
    (SnakeGame_GameLoop_tick_lost_iff exampleLoop Pending.noKey []
      { x := 5, y := 5, type := 1, sprite := 83 } (by decide) rfl).2.2 (by decide)
      exampleLoop.grid⟩

/-! ## Exit status of the endings -/

/-- C8, amended. Every way a tick ends the process, the Won and the Lost
transition included, uses exit status 1, the status of `ERROR_EXIT`; the
gameplay endings (victory message, length message) are exactly the exits
before which `SnakeGame_Destroy` runs. -/
theorem SnakeGame_GameLoop_tick_exit_status (g : SnakeGame) (pending : Pending)
    (draws : List Nat) (e : Exit)
    (h : SnakeGame_GameLoop_tick g pending draws = Exec.exit e) :
    e.status = 1
    ∧ (∀ m : Message, (ERROR_EXIT m : Exec Unit)
        = Exec.exit { status := e.status, message := m, teardown := false })
    ∧ (e.teardown = true
        ↔ (e.message = Message.victory ∨ ∃ n, e.message = Message.unfortunate n)) := by
  rcases SnakeGame_GameLoop_tick_exit h with ⟨_, h2⟩ | ⟨_, _, _, _, h2⟩ | h2 | h2 | h2
  · subst h2
    exact ⟨rfl, fun _ => rfl, by simp⟩
  · subst h2
    exact ⟨rfl, fun _ => rfl, by simp⟩
  · subst h2
    exact ⟨rfl, fun _ => rfl, by simp⟩
  · subst h2
    exact ⟨rfl, fun _ => rfl, by simp⟩
  · subst h2
    exact ⟨rfl, fun _ => rfl, by simp⟩

/-- Witness of C8 (amended): the Lost ending of the 2 by 3 example game. -/
theorem SnakeGame_GameLoop_tick_exit_status_witness :
    SnakeGame_GameLoop_tick exampleLoop Pending.noKey []
      = Exec.exit { status := 1, message := Message.unfortunate 3, teardown := true }
    ∧ (1 : Int) = 1
    ∧ (∀ m : Message, (ERROR_EXIT m : Exec Unit)
        = Exec.exit { status := 1, message := m, teardown := false })
    ∧ (true = true
        ↔ (Message.unfortunate 3 = Message.victory
            ∨ ∃ n, Message.unfortunate 3 = Message.unfortunate n)) :=
  ⟨by decide,
    SnakeGame_GameLoop_tick_exit_status exampleLoop Pending.noKey []
      { status := 1, message := Message.unfortunate 3, teardown := true } (by decide)⟩

/-- C8, counterexample. The program run on a 3 by 3 grid with no key pressed
ends in the Lost transition at its third tick, and run on a 2 by 2 grid ends in
the Won transition at its first tick; both call `exit` with status 1, not 0,
which is also the status of `ERROR_EXIT`. -/
theorem endings_exit_with_status_one :
    SnakeGame_run 3 3 [Pending.noKey, Pending.noKey, Pending.noKey] [2, 2]
      = Exec.exit { status := 1, message := Message.unfortunate 3, teardown := true }
    ∧ SnakeGame_run 2 2 [Pending.noKey] [0, 0]
      = Exec.exit { status := 1, message := Message.victory, teardown := true }
    ∧ (SnakeGame_MACRO_PrintAndTerminate Message.victory : Exec Unit)
      = Exec.exit { status := 1, message := Message.victory, teardown := true }
    ∧ (ERROR_EXIT Message.unknownCollision : Exec Unit)
      = Exec.exit { status := 1, message := Message.unknownCollision, teardown := false }
    ∧ (1 : Int) ≠ 0 := by
  refine ⟨by decide, by decide, rfl, rfl, by decide⟩


/-! ## Food relocation on the 15 by 30 grid -/

theorem bugStart_reachable : Reachable 15 30 bugStart :=
  Reachable.beginPlay [14, 7] [] bugStart bugStart_beginPlay

set_option maxRecDepth 100000 in
theorem bugMoved_tick :
    ∃ pb, SnakeGame_GameLoop_tick bugStart Pending.noKey [14, 7]
      = Exec.ok (bugMoved.withPrintBuffer pb, []) :=
  SnakeGame_GameLoop_tick_eq_ok bugStart_classify
    (rfl : SnakeGame_ProcessInput bugFed Pending.noKey = Exec.ok bugFed) bugFed_redraw
    (by decide) (by decide) bugDrawn_retire

set_option maxRecDepth 100000 in
/-- C9, the code at a failing input. On the 15 by 30 grid, when the draws at
`SnakeGame_BeginPlay` are 14 and 7, the game loop is entered with the head on
the cell tagged Food; when the next two draws are 14 and 7 again, the
classification of the first tick returns with the snake one segment longer
(segments 0 to 3 all on (14,7)) and the food again on (14,7): the cell that was
just eaten, under the head and the other segments. -/
theorem SnakeGame_SpawnFood_lands_under_snake :
    Reachable 15 30 bugStart
    ∧ SnakeGame_SnakeIsMaxLength bugStart = false
    ∧ SnakeGame_GetInBounds bugStart = Exec.ok true
    ∧ SnakeGame_GetCollision bugStart = Exec.ok FOOD_OBJTYPE
    ∧ SnakeGame_GameLoop_classify bugStart [14, 7] = Exec.ok (bugFed, [])
    ∧ bugFed.snake.length = bugStart.snake.length + 1
    ∧ (bugFed.food.x, bugFed.food.y) = (bugStart.food.x, bugStart.food.y)
    ∧ bugFed.snake.posAt 0 = some (bugFed.food.x, bugFed.food.y)
    ∧ bugFed.snake.posAt 1 = some (bugFed.food.x, bugFed.food.y)
    ∧ bugFed.snake.posAt 2 = some (bugFed.food.x, bugFed.food.y)
    ∧ bugFed.snake.posAt 3 = some (bugFed.food.x, bugFed.food.y) := by
  refine ⟨bugStart_reachable, by decide, by decide, by decide, bugStart_classify, rfl, rfl,
    rfl, rfl, rfl, rfl⟩

set_option maxRecDepth 100000 in
/-- C10, the code at a failing input. On the 15 by 30 grid with the draws 14,
7, 14, 7 and no key pressed, the state at the top of the second tick passes
the win check and the bounds check, its food object is at (14,7), and no cell
of its occupancy grid is tagged Food. -/
theorem food_tag_missing_at_second_tick :
    ∃ g, Reachable 15 30 g
      ∧ SnakeGame_SnakeIsMaxLength g = false
      ∧ SnakeGame_GetInBounds g = Exec.ok true
      ∧ (g.food.x, g.food.y) = (14, 7)
      ∧ readAt g.grid (POS_TO_INDEX g.screen.columns g.food.x g.food.y) = Exec.ok NONE_OBJTYPE
      ∧ g.grid.count FOOD_OBJTYPE = 0 := by
  obtain ⟨pb, hpb⟩ := bugMoved_tick
  refine ⟨bugMoved.withPrintBuffer pb,
    Reachable.tick bugStart _ Pending.noKey [14, 7] [] bugStart_reachable hpb, ?_, ?_, rfl, ?_, ?_⟩
  · show SnakeGame_SnakeIsMaxLength bugMoved = false
    decide
  · show SnakeGame_GetInBounds bugMoved = Exec.ok true
    decide
  · show readAt bugMoved.grid (POS_TO_INDEX bugMoved.screen.columns bugMoved.food.x
      bugMoved.food.y) = Exec.ok NONE_OBJTYPE
    decide
  · show bugMoved.grid.count FOOD_OBJTYPE = 0
    decide

/-! ## Screen_Render: the contents of the print buffer -/

theorem cell_unique {columns r c q j : Nat} (hc : c < columns) (hj : j < columns)
    (h : r * columns + c = q * columns + j) : r = q ∧ c = j := by
  have h1 : (r * columns + c) / columns = r := by
    rw [Nat.add_comm, Nat.add_mul_div_right _ _ (by omega), Nat.div_eq_of_lt hc, Nat.zero_add]
  have h2 : (q * columns + j) / columns = q := by
    rw [Nat.add_comm, Nat.add_mul_div_right _ _ (by omega), Nat.div_eq_of_lt hj, Nat.zero_add]
  have h3 : r = q := by rw [← h1, ← h2, h]
  subst h3
  exact ⟨rfl, by omega⟩

theorem cell_lt_of_row_lt (columns r c q : Nat) (hc : c < columns) (h : r < q) :
    r * columns + c < q * columns := by
  have h1 : (r + 1) * columns ≤ q * columns := Nat.mul_le_mul_right columns h
  have h2 : (r + 1) * columns = r * columns + columns := Nat.succ_mul r columns
  omega

theorem Screen_Render_loop_spec (rows columns : Nat) (draw : List Int)
    (hdraw : draw.length = rows * columns) (n : Nat) :
    ∀ (i j k q : Nat) (pb : List Int),
      i + n = rows * columns → i = q * columns + j → j < columns → k = i + q →
      pb.length = rows * columns + rows →
      ∃ pb2, Screen_Render_loop columns draw n i j k pb = Exec.ok pb2
        ∧ pb2.length = pb.length
        ∧ (∀ m, m < k → pb2[m]? = pb[m]?)
        ∧ (∀ r c, r < rows → c < columns → i ≤ r * columns + c →
            ∃ d, draw[r * columns + c]? = some d
              ∧ pb2[r * (columns + 1) + c]? = some (if d = 0 then NONE_SPRITE else d))
        ∧ (∀ r, r < rows → i ≤ r * columns + (columns - 1) →
            pb2[r * (columns + 1) + columns]? = some 10) := by
  induction n with
  | zero =>
    intro i j k q pb hin hi hj hk hpb
    refine ⟨pb, rfl, rfl, fun _ _ => rfl, ?_, ?_⟩
    · intro r c hr hc hle
      have := cell_lt_of_row_lt columns r c rows hc hr
      omega
    · intro r hr hle
      have := cell_lt_of_row_lt columns r (columns - 1) rows (by omega) hr
      omega
  | succ n ih =>
    intro i j k q pb hin hi hj hk hpb
    have hq : q < rows := by
      by_contra hc
      have h1 : rows * columns ≤ q * columns := Nat.mul_le_mul_right columns (Nat.le_of_not_lt hc)
      omega
    have hilt : i < draw.length := by omega
    have hklt : k < pb.length := by omega
    have hd : readAt draw (i : Int) = Exec.ok draw[i] := by
      rw [readAt_eq_ok]
      exact ⟨Int.natCast_nonneg i, by simp [List.getElem?_eq_getElem hilt]⟩
    have hkq : k = q * (columns + 1) + j := by
      rw [Nat.mul_add, Nat.mul_one]; omega
    unfold Screen_Render_loop
    simp only [hd, Exec.ok_bind, writeAt_nat_of_lt _ hklt]
    by_cases hjc : j + 1 = columns
    · have hk1 : k + 1 < (pb.set k (if draw[i] = 0 then NONE_SPRITE else draw[i])).length := by
        rw [List.length_set]
        omega
      simp only [hjc, if_true, writeAt_nat_of_lt _ hk1, Exec.ok_bind]
      have hmul : (q + 1) * columns = q * columns + columns := Nat.succ_mul q columns
      obtain ⟨pb2, hrun, hlen, hlow, hcell, hnl⟩ := ih (i + 1) 0 (k + 1 + 1) (q + 1)
        ((pb.set k (if draw[i] = 0 then NONE_SPRITE else draw[i])).set (k + 1) 10)
        (by omega) (by omega) (by omega) (by omega)
        (by rw [List.length_set, List.length_set]; exact hpb)
      refine ⟨pb2, hrun, ?_, ?_, ?_, ?_⟩
      · rw [hlen, List.length_set, List.length_set]
      · intro m hm
        rw [hlow m (by omega), List.getElem?_set_ne (by omega), List.getElem?_set_ne (by omega)]
      · intro r c hr hc hle
        by_cases heq : r * columns + c = i
        · obtain ⟨hrq, hcj⟩ := cell_unique hc hj (heq.trans hi)
          subst hrq; subst hcj
          refine ⟨draw[i], ?_, ?_⟩
          · rw [heq]; exact List.getElem?_eq_getElem hilt
          · rw [← hkq, hlow k (by omega), List.getElem?_set_ne (by omega),
              List.getElem?_set_self hklt]
        · exact hcell r c hr hc (by omega)
      · intro r hr hle
        by_cases hrq : r = q
        · subst hrq
          have hidx : r * (columns + 1) + columns = k + 1 := by
            rw [Nat.mul_add, Nat.mul_one]; omega
          rw [hidx, hlow (k + 1) (by omega), List.getElem?_set_self hk1]
        · have hrq2 : q < r := by
            by_contra hcon
            have := cell_lt_of_row_lt columns r (columns - 1) q (by omega) (by omega)
            omega
          have h1 : (q + 1) * columns ≤ r * columns := Nat.mul_le_mul_right columns hrq2
          exact hnl r hr (by omega)
    · simp only [hjc, if_false]
      obtain ⟨pb2, hrun, hlen, hlow, hcell, hnl⟩ := ih (i + 1) (j + 1) (k + 1) q
        (pb.set k (if draw[i] = 0 then NONE_SPRITE else draw[i]))
        (by omega) (by omega) (by omega) (by omega)
        (by rw [List.length_set]; exact hpb)
      refine ⟨pb2, hrun, ?_, ?_, ?_, ?_⟩
      · rw [hlen, List.length_set]
      · intro m hm
        rw [hlow m (by omega), List.getElem?_set_ne (by omega)]
      · intro r c hr hc hle
        by_cases heq : r * columns + c = i
        · obtain ⟨hrq, hcj⟩ := cell_unique hc hj (heq.trans hi)
          subst hrq; subst hcj
          refine ⟨draw[i], ?_, ?_⟩
          · rw [heq]; exact List.getElem?_eq_getElem hilt
          · rw [← hkq, hlow k (by omega), List.getElem?_set_self hklt]
        · exact hcell r c hr hc (by omega)
      · intro r hr hle
        have hne : r * columns + (columns - 1) ≠ i := by
          intro heq
          obtain ⟨_, hcj⟩ := cell_unique (by omega) hj (heq.trans hi)
          omega
        exact hnl r hr (by omega)


/-- What `Screen_Render` leaves in the print buffer, on a screen whose buffers
have the sizes `Screen_Create` gives them. -/
theorem Screen_Render_spec (screen : Screen) (hc : 1 ≤ screen.columns)
    (hdraw : screen.draw_buffer.length = screen.rows * screen.columns)
    (hprint : screen.print_buffer.length = screen.rows * screen.columns + screen.rows) :
    ∃ pb, Screen_Render screen
        = Exec.ok ({ screen with print_buffer := pb },
            { bytes := [27, 91, 72] ++ printf_s pb, overrun := printf_s_overruns pb })
      ∧ pb.length = screen.rows * (screen.columns + 1)
      ∧ (∀ r c, r < screen.rows → c < screen.columns →
          ∃ d, screen.draw_buffer[r * screen.columns + c]? = some d
            ∧ pb[r * (screen.columns + 1) + c]? = some (if d = 0 then NONE_SPRITE else d))
      ∧ (∀ r, r < screen.rows → pb[r * (screen.columns + 1) + screen.columns]? = some 10) := by
  obtain ⟨pb, hrun, hlen, _, hcell, hnl⟩ := Screen_Render_loop_spec screen.rows screen.columns
    screen.draw_buffer hdraw (screen.columns * screen.rows) 0 0 0 0 screen.print_buffer
    (by rw [Nat.zero_add, Nat.mul_comm]) (by simp) hc rfl hprint
  refine ⟨pb, ?_, ?_, ?_, ?_⟩
  · simp only [Screen_Render, hrun, Exec.ok_bind, Exec.pure_eq]
  · rw [hlen, hprint, Nat.mul_add, Nat.mul_one]
  · intro r c hr hcc
    exact hcell r c hr hcc (Nat.zero_le _)
  · intro r hr
    exact hnl r hr (Nat.zero_le _)

theorem glyph_ne_zero (d : Int) : (if d = 0 then NONE_SPRITE else d) ≠ 0 := by
  split
  · decide
  · assumption

/-- A buffer in the format `Screen_Render` produces holds no zero byte. -/
theorem format_nonzero (rows columns : Nat) (draw pb : List Int)
    (hcell : ∀ r c, r < rows → c < columns →
      ∃ d, draw[r * columns + c]? = some d
        ∧ pb[r * (columns + 1) + c]? = some (if d = 0 then NONE_SPRITE else d))
    (hnl : ∀ r, r < rows → pb[r * (columns + 1) + columns]? = some 10) :
    ∀ m, m < rows * (columns + 1) → ∃ v, pb[m]? = some v ∧ v ≠ 0 := by
  intro m hm
  have hpos : 0 < columns + 1 := Nat.succ_pos _
  have hdm : m = m / (columns + 1) * (columns + 1) + m % (columns + 1) := by
    rw [Nat.mul_comm]; exact (Nat.div_add_mod m (columns + 1)).symm
  have hr : m / (columns + 1) < rows := by
    rw [Nat.div_lt_iff_lt_mul hpos]; exact hm
  have hcm : m % (columns + 1) < columns + 1 := Nat.mod_lt _ hpos
  by_cases hlast : m % (columns + 1) = columns
  · refine ⟨10, ?_, by decide⟩
    have h := hnl _ hr
    have hidx : m / (columns + 1) * (columns + 1) + columns = m := by omega
    rw [hidx] at h
    exact h
  · obtain ⟨d, _, hd⟩ := hcell (m / (columns + 1)) (m % (columns + 1)) hr (by omega)
    rw [← hdm] at hd
    exact ⟨_, hd, glyph_ne_zero d⟩

theorem printf_s_of_nonzero (buf : List Int) (h : ∀ v ∈ buf, v ≠ 0) : printf_s buf = buf := by
  unfold printf_s
  induction buf with
  | nil => rfl
  | cons x xs ih =>
    have hx : x ≠ 0 := h x (List.mem_cons_self x xs)
    simp only [List.takeWhile_cons, hx, ne_eq, not_false_eq_true, decide_True, if_true]
    rw [ih (fun v hv => h v (List.mem_cons_of_mem x hv))]

theorem mem_nonzero_of_format (rows columns : Nat) (pb : List Int)
    (hlen : pb.length = rows * (columns + 1))
    (hnz : ∀ m, m < rows * (columns + 1) → ∃ v, pb[m]? = some v ∧ v ≠ 0) :
    ∀ v ∈ pb, v ≠ 0 := by
  intro v hv
  obtain ⟨m, hm, hget⟩ := List.getElem_of_mem hv
  obtain ⟨w, hw, hw0⟩ := hnz m (by rw [← hlen]; exact hm)
  rw [List.getElem?_eq_getElem hm, hget] at hw
  cases hw
  exact hw0


/-- Two buffers in the format `Screen_Render` produces from one draw buffer are
equal. -/
theorem format_unique (rows columns : Nat) (draw pb pc : List Int)
    (hlen : pb.length = rows * (columns + 1)) (hlen2 : pc.length = rows * (columns + 1))
    (hcell : ∀ r c, r < rows → c < columns →
      ∃ d, draw[r * columns + c]? = some d
        ∧ pb[r * (columns + 1) + c]? = some (if d = 0 then NONE_SPRITE else d))
    (hnl : ∀ r, r < rows → pb[r * (columns + 1) + columns]? = some 10)
    (hcell2 : ∀ r c, r < rows → c < columns →
      ∃ d, draw[r * columns + c]? = some d
        ∧ pc[r * (columns + 1) + c]? = some (if d = 0 then NONE_SPRITE else d))
    (hnl2 : ∀ r, r < rows → pc[r * (columns + 1) + columns]? = some 10) :
    pb = pc := by
  apply List.ext_getElem?
  intro m
  by_cases hm : m < rows * (columns + 1)
  · have hpos : 0 < columns + 1 := Nat.succ_pos _
    have hdm : m = m / (columns + 1) * (columns + 1) + m % (columns + 1) := by
      rw [Nat.mul_comm]; exact (Nat.div_add_mod m (columns + 1)).symm
    have hr : m / (columns + 1) < rows := by
      rw [Nat.div_lt_iff_lt_mul hpos]; exact hm
    have hcm : m % (columns + 1) < columns + 1 := Nat.mod_lt _ hpos
    by_cases hlast : m % (columns + 1) = columns
    · have hidx : m / (columns + 1) * (columns + 1) + columns = m := by omega
      have h1 := hnl _ hr
      have h2 := hnl2 _ hr
      rw [hidx] at h1 h2
      rw [h1, h2]
    · obtain ⟨d, hd, h1⟩ := hcell (m / (columns + 1)) (m % (columns + 1)) hr (by omega)
      obtain ⟨d2, hd2, h2⟩ := hcell2 (m / (columns + 1)) (m % (columns + 1)) hr (by omega)
      rw [hd] at hd2
      cases hd2
      rw [← hdm] at h1 h2
      rw [h1, h2]
  · rw [List.getElem?_eq_none (by omega), List.getElem?_eq_none (by omega)]

/-! ## Screen_Render: the format of a frame -/

theorem printf_s_overruns_of_nonzero (buf : List Int) (h : ∀ v ∈ buf, v ≠ 0) :
    printf_s_overruns buf = true := by
  unfold printf_s_overruns
  rw [List.all_eq_true]
  intro v hv
  exact decide_eq_true (h v hv)

/-- The frame `Screen_Render` builds and what it prints: on a screen with at
least one column whose buffers have the sizes `Screen_Create` gives them, the
call returns, the draw buffer (and `rows`, `columns`) are unchanged, and the
print buffer `pb` afterwards has `rows * (columns + 1) = rows * columns + rows`
bytes with `pb[r * (columns + 1) + c]` the byte `draw_buffer[r * columns + c]`
when that is non-zero and the background glyph '.' otherwise, and
`pb[r * (columns + 1) + columns]` the line break; the result is the same
whatever the print buffer held before, so each of its bytes is written.  The
terminal receives ESC `[` `H` and the whole print buffer, and then the
`printf` reads on past the buffer, which holds no zero byte. -/
theorem Screen_Render_frame (screen : Screen) (hc : 1 ≤ screen.columns)
    (hdraw : screen.draw_buffer.length = screen.rows * screen.columns)
    (hprint : screen.print_buffer.length = screen.rows * screen.columns + screen.rows) :
    ∃ pb, Screen_Render screen
        = Exec.ok ({ screen with print_buffer := pb },
            { bytes := [27, 91, 72] ++ pb, overrun := true })
      ∧ pb.length = screen.rows * (screen.columns + 1)
      ∧ pb.length = screen.rows * screen.columns + screen.rows
      ∧ (∀ r c, r < screen.rows → c < screen.columns →
          ∃ d, screen.draw_buffer[r * screen.columns + c]? = some d
            ∧ pb[r * (screen.columns + 1) + c]? = some (if d = 0 then NONE_SPRITE else d))
      ∧ (∀ r, r < screen.rows → pb[r * (screen.columns + 1) + screen.columns]? = some 10)
      ∧ (∀ v ∈ pb, v ≠ 0)
      ∧ (∀ pb0 : List Int, pb0.length = screen.print_buffer.length →
          Screen_Render { screen with print_buffer := pb0 }
            = Exec.ok ({ screen with print_buffer := pb },
                { bytes := [27, 91, 72] ++ pb, overrun := true })) := by
  obtain ⟨pb, hrun, hlen, hcell, hnl⟩ := Screen_Render_spec screen hc hdraw hprint
  have hnz := mem_nonzero_of_format screen.rows screen.columns pb hlen
    (format_nonzero screen.rows screen.columns screen.draw_buffer pb hcell hnl)
  have hout : printf_s pb = pb := printf_s_of_nonzero pb hnz
  have hover : printf_s_overruns pb = true := printf_s_overruns_of_nonzero pb hnz
  rw [hout, hover] at hrun
  refine ⟨pb, hrun, hlen, ?_, hcell, hnl, hnz, ?_⟩
  · rw [hlen, Nat.mul_add, Nat.mul_one]
  · intro pb0 hpb0
    obtain ⟨pc, hrun2, hlen2, hcell2, hnl2⟩ :=
      Screen_Render_spec { screen with print_buffer := pb0 } hc hdraw (hpb0.trans hprint)
    have heq : pc = pb := format_unique screen.rows screen.columns screen.draw_buffer pc pb
      hlen2 hlen hcell2 hnl2 hcell hnl
    rw [heq, hout, hover] at hrun2
    exact hrun2

set_option maxRecDepth 100000 in
/-- C12, the code at a failing input. `Screen_Render` on the screen of 2 rows
and 3 columns showing one snake glyph and the food glyph fills the print
buffer as the claim says (8 bytes: each row's glyphs, '.' for an empty cell,
then the line break; the draw buffer unchanged), and `Screen_Render` on the
program's own 15 by 30 screen at the first frame fills all 465 bytes of its
print buffer; on both, and on every screen with at least one column, no byte
of the print buffer is zero afterwards, so the `printf("%s")` that emits it
does not stop at the end of the buffer: the terminal receives ESC `[` `H` and
the print buffer and then whatever follows the allocation, not the print
buffer alone. -/
theorem Screen_Render_reads_past_print_buffer :
    Screen_Render exampleScreen
        = Exec.ok ({ exampleScreen with print_buffer := [46, 83, 46, 10, 70, 46, 46, 10] },
            { bytes := [27, 91, 72, 46, 83, 46, 10, 70, 46, 46, 10], overrun := true })
    ∧ exampleScreen.print_buffer.length = 8
    ∧ printf_s_overruns [46, 83, 46, 10, 70, 46, 46, 10] = true
    ∧ (∃ pb, Screen_Render bugDrawn.screen
          = Exec.ok ({ bugDrawn.screen with print_buffer := pb },
              { bytes := [27, 91, 72] ++ pb, overrun := true })
        ∧ pb.length = 15 * 30 + 15
        ∧ (∀ v ∈ pb, v ≠ 0))
    ∧ (∀ screen : Screen, 1 ≤ screen.columns →
        screen.draw_buffer.length = screen.rows * screen.columns →
        screen.print_buffer.length = screen.rows * screen.columns + screen.rows →
        ∃ pb, Screen_Render screen
            = Exec.ok ({ screen with print_buffer := pb },
                { bytes := [27, 91, 72] ++ pb, overrun := true })
          ∧ pb.length = screen.rows * screen.columns + screen.rows
          ∧ (∀ r c, r < screen.rows → c < screen.columns →
              ∃ d, screen.draw_buffer[r * screen.columns + c]? = some d
                ∧ pb[r * (screen.columns + 1) + c]?
                    = some (if d = 0 then NONE_SPRITE else d))
          ∧ (∀ r, r < screen.rows →
              pb[r * (screen.columns + 1) + screen.columns]? = some 10)
          ∧ (∀ v ∈ pb, v ≠ 0)) := by
  refine ⟨by decide, by decide, by decide, ?_, ?_⟩
  · obtain ⟨pb, hrun, _, hlen, _, _, hnz, _⟩ :=
      Screen_Render_frame bugDrawn.screen (by decide) (by decide) (by decide)
    exact ⟨pb, hrun, hlen, hnz⟩
  · intro screen hc hdraw hprint
    obtain ⟨pb, hrun, _, hlen, hcell, hnl, hnz, _⟩ := Screen_Render_frame screen hc hdraw hprint
    exact ⟨pb, hrun, hlen, hcell, hnl, hnz⟩

/-- C19. The print buffer has no terminator inside its allocation: for the
screen `Screen_Create rows columns` makes (at least one column) with any
contents of the draw buffer, `Screen_Render` returns and every one of the
`rows * columns + rows` bytes of the print buffer is then non-zero, so the
bytes `printf("%s")` finds before a zero byte are the whole buffer. -/
theorem Screen_Render_no_terminator (rows columns : Nat) (db : List Int)
    (hc : 1 ≤ columns) (hdb : db.length = rows * columns) :
    ∃ pb out, Screen_Render { Screen_Create rows columns with draw_buffer := db }
        = Exec.ok ({ Screen_Create rows columns with draw_buffer := db, print_buffer := pb }, out)
      ∧ pb.length = rows * columns + rows
      ∧ (∀ m, m < rows * columns + rows → ∃ v, pb[m]? = some v ∧ v ≠ 0)
      ∧ printf_s pb = pb := by
  have hprint : (Screen_Create rows columns).print_buffer.length = rows * columns + rows := by
    simp [Screen_Create]
  obtain ⟨pb, hrun, hlen, hcell, hnl⟩ :=
    Screen_Render_spec { Screen_Create rows columns with draw_buffer := db } hc hdb hprint
  have hsz : rows * (columns + 1) = rows * columns + rows := by rw [Nat.mul_add, Nat.mul_one]
  have hnz := format_nonzero rows columns db pb hcell hnl
  refine ⟨pb, _, hrun, hlen.trans hsz, ?_, ?_⟩
  · intro m hm
    exact hnz m (by rw [hsz]; exact hm)
  · exact printf_s_of_nonzero pb (mem_nonzero_of_format rows columns pb hlen hnz)

/-- Witness of C19: the screen of 2 rows and 3 columns, as created, with an
all-zero draw buffer. -/
theorem Screen_Render_no_terminator_witness :
    1 ≤ 3 ∧ (List.replicate 6 (0 : Int)).length = 2 * 3
    ∧ ∃ pb out, Screen_Render { Screen_Create 2 3 with draw_buffer := List.replicate 6 0 }
        = Exec.ok ({ Screen_Create 2 3 with
            draw_buffer := List.replicate 6 0, print_buffer := pb }, out)
      ∧ pb.length = 2 * 3 + 2
      ∧ (∀ m, m < 2 * 3 + 2 → ∃ v, pb[m]? = some v ∧ v ≠ 0)
      ∧ printf_s pb = pb :=
  ⟨by decide, by decide,
    Screen_Render_no_terminator 2 3 (List.replicate 6 0) (by decide) (by decide)⟩

/-! ## Snake_Init and the first two moves -/

theorem Snake_Init_grow_grow (snake : Snake) (x y : Int) (a b c : Option GameObject)
    (tl : List (Option GameObject)) (hparts : snake.parts = a :: b :: c :: tl)
    (hx : IsChar x) (hy : IsChar y) :
    (Snake_Init snake x y >>= fun s1 => Snake_Grow s1 >>= fun s2 => Snake_Grow s2)
      = Exec.ok (initialSnake x y tl) := by
  have e1 : toChar SNAKE_OBJTYPE = 1 := by decide
  have e2 : toChar SNAKE_SPRITE = 83 := by decide
  have e3 : toChar SNAKE_DIR_DOWN = 85 := by decide
  simp [Snake_Init, Snake_Grow, setPart, getPart, storeAt, hparts, GameObject_Create,
    toChar_of_isChar hx, toChar_of_isChar hy, e1, e2, e3, initialSnake]

theorem Snake_Move_three (d : Int) (hd : IsDirection d) (o0 o1 o2 : GameObject)
    (tl : List (Option GameObject)) (dir : Int) (t : Nat) :
    Snake_Move
        { parts := some o0 :: some o1 :: some o2 :: tl,
          head := 0, tail := t, length := 3, direction := dir } d
      = Exec.ok
        { parts := some (GameObject_AddPos o0 (unitVector d).1 (unitVector d).2)
            :: some { o1 with x := o0.x, y := o0.y }
            :: some { o2 with x := o1.x, y := o1.y } :: tl,
          head := 0, tail := t, length := 3, direction := dir } := by
  rw [Snake_Move_eq _ _ hd]
  simp [Snake_Move_shift, setPart, getPart, storeAt]


/-- What a returning `SnakeGame_SpawnFood` changes, on any grid: the food's
position, drawn as `rand() % columns` and `rand() % rows` and stored in 8 bits,
and the tag of the food's cell, which was None. -/
theorem SnakeGame_SpawnFood_frame (n : Nat) :
    ∀ (draws : List Nat), draws.length ≤ n →
    ∀ (g g2 : SnakeGame) (rest : List Nat),
      SnakeGame_SpawnFood g draws = Exec.ok (g2, rest) →
      g2.snake = g.snake ∧ g2.screen = g.screen
      ∧ g2.food.type = g.food.type ∧ g2.food.sprite = g.food.sprite
      ∧ (∃ rx ry : Nat, g2.food.x = toChar ((rx % g.screen.columns : Nat) : Int)
          ∧ g2.food.y = toChar ((ry % g.screen.rows : Nat) : Int))
      ∧ g.screen.columns ≠ 0 ∧ g.screen.rows ≠ 0
      ∧ readAt g.grid (POS_TO_INDEX g.screen.columns g2.food.x g2.food.y)
          = Exec.ok NONE_OBJTYPE
      ∧ writeAt g.grid (POS_TO_INDEX g.screen.columns g2.food.x g2.food.y) FOOD_OBJTYPE
          = Exec.ok g2.grid := by
  induction n with
  | zero =>
    intro draws hlen g g2 rest h
    have hnil : draws = [] := List.length_eq_zero.mp (Nat.le_zero.mp hlen)
    subst hnil
    simp [SnakeGame_SpawnFood] at h
  | succ n ih =>
    intro draws hlen g g2 rest h
    match draws, hlen, h with
    | [], _, h => simp [SnakeGame_SpawnFood] at h
    | [_], _, h => simp [SnakeGame_SpawnFood] at h
    | rx :: ry :: draws, hlen, h =>
      unfold SnakeGame_SpawnFood at h
      by_cases hz : g.screen.columns = 0 ∨ g.screen.rows = 0
      · simp [hz] at h
      · rw [if_neg hz] at h
        have hc0 : g.screen.columns ≠ 0 := fun e => hz (Or.inl e)
        have hr0 : g.screen.rows ≠ 0 := fun e => hz (Or.inr e)
        simp only at h
        split at h
        · rename_i tag htag
          by_cases ht : tag = NONE_OBJTYPE
          · rw [if_pos ht] at h
            split at h
            · rename_i grid hgrid
              simp only [Exec.ok.injEq, Prod.mk.injEq] at h
              obtain ⟨hg, _⟩ := h
              subst hg
              subst ht
              exact ⟨rfl, rfl, rfl, rfl, ⟨rx, ry, rfl, rfl⟩, hc0, hr0, htag, hgrid⟩
            · cases h
            · cases h
            · cases h
          · rw [if_neg ht] at h
            have hlen2 : draws.length ≤ n := by
              simp only [List.length_cons] at hlen
              omega
            have h2 := ih draws hlen2 _ g2 rest h
            exact h2
        · cases h
        · cases h
        · cases h

theorem unitVector_cases (d : Int) (hd : IsDirection d) :
    unitVector d = (0, -1) ∨ unitVector d = (0, 1) ∨ unitVector d = (-1, 0)
      ∨ unitVector d = (1, 0) := by
  rcases hd with rfl | rfl | rfl | rfl <;> simp [unitVector, SNAKE_DIR_UP, SNAKE_DIR_DOWN,
    SNAKE_DIR_LEFT, SNAKE_DIR_RIGHT]

/-- C13. Initial snake and its unfolding: in an array of at least three
slots, `Snake_Init(x, y)` followed by two `Snake_Grow` calls returns a snake of
length 3 heading Down with its three segments at `(x, y)`, and
`SnakeGame_BeginPlay` enters the loop with that snake for
`(columns / 2 - 1, rows / 2)`; one `Snake_Move` in a direction `d1` puts the
segments at `(x,y) + d1`, `(x,y)`, `(x,y)`, and a second `Snake_Move` in a
direction `d2` that is not the reverse of `d1` puts them at `(x,y) + d1 + d2`,
`(x,y) + d1`, `(x,y)`, three different positions (coordinates two steps away
from the limits of the 8-bit range). -/
theorem Snake_Init_unfolds (snake : Snake) (x y d1 d2 : Int)
    (hcap : 3 ≤ snake.parts.length)
    (hx : IsChar (x - 2) ∧ IsChar (x + 2)) (hy : IsChar (y - 2) ∧ IsChar (y + 2))
    (hd1 : IsDirection d1) (hd2 : IsDirection d2) (hrev : ¬ IsReverse d2 d1) :
    ∃ s3 s4 s5,
      (Snake_Init snake x y >>= fun s1 => Snake_Grow s1 >>= fun s2 => Snake_Grow s2)
        = Exec.ok s3
      ∧ s3.length = 3 ∧ s3.direction = SNAKE_DIR_DOWN
      ∧ s3.posAt 0 = some (x, y) ∧ s3.posAt 1 = some (x, y) ∧ s3.posAt 2 = some (x, y)
      ∧ Snake_Move s3 d1 = Exec.ok s4
      ∧ s4.posAt 0 = some (x + (unitVector d1).1, y + (unitVector d1).2)
      ∧ s4.posAt 1 = some (x, y) ∧ s4.posAt 2 = some (x, y)
      ∧ Snake_Move s4 d2 = Exec.ok s5
      ∧ s5.posAt 0 = some (x + (unitVector d1).1 + (unitVector d2).1,
          y + (unitVector d1).2 + (unitVector d2).2)
      ∧ s5.posAt 1 = some (x + (unitVector d1).1, y + (unitVector d1).2)
      ∧ s5.posAt 2 = some (x, y)
      ∧ s5.posAt 0 ≠ s5.posAt 1 ∧ s5.posAt 0 ≠ s5.posAt 2 ∧ s5.posAt 1 ≠ s5.posAt 2
      ∧ (∀ (g g2 : SnakeGame) (draws rest : List Nat),
          g.snake = snake → x = (g.screen.columns : Int) / 2 - 1 →
          y = (g.screen.rows : Int) / 2 →
          SnakeGame_BeginPlay g draws = Exec.ok (g2, rest) → g2.snake = s3) := by
  obtain ⟨hx1, hx2⟩ := hx
  obtain ⟨hy1, hy2⟩ := hy
  unfold IsChar at hx1 hx2 hy1 hy2
  have hxc : IsChar x := ⟨by omega, by omega⟩
  have hyc : IsChar y := ⟨by omega, by omega⟩
  match hp : snake.parts, hcap with
  | a :: b :: c :: tl, _ =>
    have hinit := Snake_Init_grow_grow snake x y a b c tl hp hxc hyc
    have hm1 := Snake_Move_three d1 hd1 { x := x, y := y, type := 1, sprite := 83 }
      { x := x, y := y, type := 1, sprite := 83 } { x := x, y := y, type := 1, sprite := 83 }
      tl 85 2
    have hv1 := unitVector_cases d1 hd1
    have hv2 := unitVector_cases d2 hd2
    have hc1x : toChar (x + (unitVector d1).1) = x + (unitVector d1).1 := by
      apply toChar_of_isChar
      unfold IsChar
      rcases hv1 with h | h | h | h <;> rw [h] <;> constructor <;> simp <;> omega
    have hc1y : toChar (y + (unitVector d1).2) = y + (unitVector d1).2 := by
      apply toChar_of_isChar
      unfold IsChar
      rcases hv1 with h | h | h | h <;> rw [h] <;> constructor <;> simp <;> omega
    have hc2x : toChar (x + (unitVector d1).1 + (unitVector d2).1)
        = x + (unitVector d1).1 + (unitVector d2).1 := by
      apply toChar_of_isChar
      unfold IsChar
      rcases hv1 with h | h | h | h <;> rcases hv2 with h2 | h2 | h2 | h2 <;>
        rw [h, h2] <;> constructor <;> simp <;> omega
    have hc2y : toChar (y + (unitVector d1).2 + (unitVector d2).2)
        = y + (unitVector d1).2 + (unitVector d2).2 := by
      apply toChar_of_isChar
      unfold IsChar
      rcases hv1 with h | h | h | h <;> rcases hv2 with h2 | h2 | h2 | h2 <;>
        rw [h, h2] <;> constructor <;> simp <;> omega
    have hm2 := Snake_Move_three d2 hd2
      (GameObject_AddPos { x := x, y := y, type := 1, sprite := 83 }
        (unitVector d1).1 (unitVector d1).2)
      { x := x, y := y, type := 1, sprite := 83 } { x := x, y := y, type := 1, sprite := 83 }
      tl 85 2
    simp only [GameObject_AddPos, GameObject_SetPos, hc1x, hc1y] at hm1 hm2
    simp only [hc2x, hc2y] at hm2
    refine ⟨_, _, _, hinit, rfl, rfl, by simp [Snake.posAt, initialSnake],
      by simp [Snake.posAt, initialSnake], by simp [Snake.posAt, initialSnake], hm1,
      by simp [Snake.posAt], by simp [Snake.posAt], by simp [Snake.posAt], hm2,
      by simp [Snake.posAt], by simp [Snake.posAt], by simp [Snake.posAt], ?_, ?_, ?_, ?_⟩
    · simp only [Snake.posAt, List.getElem?_cons_zero, List.getElem?_cons_succ, ne_eq,
        Option.some.injEq, Prod.mk.injEq, not_and]
      rcases hv2 with h2 | h2 | h2 | h2 <;> rw [h2] <;> simp
    · simp only [Snake.posAt, List.getElem?_cons_zero, List.getElem?_cons_succ, ne_eq,
        Option.some.injEq, Prod.mk.injEq, not_and]
      intro hxe hye
      apply hrev
      unfold IsReverse
      unfold unitVector at hxe hye
      rcases hd1 with rfl | rfl | rfl | rfl <;> rcases hd2 with rfl | rfl | rfl | rfl <;>
        simp [SNAKE_DIR_UP, SNAKE_DIR_DOWN, SNAKE_DIR_LEFT, SNAKE_DIR_RIGHT] at hxe hye ⊢ <;>
        omega
    · simp only [Snake.posAt, List.getElem?_cons_zero, List.getElem?_cons_succ, ne_eq,
        Option.some.injEq, Prod.mk.injEq, not_and]
      rcases hv1 with h | h | h | h <;> rw [h] <;> simp
    · intro g g2 draws rest hg hgx hgy hbp
      subst hg
      unfold SnakeGame_BeginPlay at hbp
      rw [← hgx, ← hgy] at hbp
      have hinit2 : (Snake_Init g.snake x y >>= fun s1 => Snake_Grow s1 >>= fun s2 =>
          Snake_Grow s2 >>= fun s3 => SnakeGame_SpawnFood { g with snake := s3 } draws)
            = Exec.ok (g2, rest) := hbp
      cases h1 : Snake_Init g.snake x y with
      | ok s1 =>
        rw [h1] at hinit hinit2
        simp only [Exec.ok_bind] at hinit hinit2
        cases h2 : Snake_Grow s1 with
        | ok s2 =>
          rw [h2] at hinit hinit2
          simp only [Exec.ok_bind] at hinit hinit2
          rw [hinit] at hinit2
          simp only [Exec.ok_bind] at hinit2
          exact (SnakeGame_SpawnFood_frame _ draws (Nat.le_refl _) _ g2 rest hinit2).1
        | exit e => rw [h2] at hinit; cases hinit
        | undefined => rw [h2] at hinit; cases hinit
        | starved => rw [h2] at hinit; cases hinit
      | exit e => rw [h1] at hinit; cases hinit
      | undefined => rw [h1] at hinit; cases hinit
      | starved => rw [h1] at hinit; cases hinit


/-- Witness of C13: a snake in an array of three slots started at (14,7), moved Down
and then Left. -/
theorem Snake_Init_unfolds_witness :
    3 ≤ (Snake_Create 1 3).parts.length
    ∧ ¬ IsReverse SNAKE_DIR_LEFT SNAKE_DIR_DOWN
    ∧ ∃ s3 s4 s5,
      (Snake_Init (Snake_Create 1 3) 14 7 >>= fun s1 => Snake_Grow s1 >>= fun s2 =>
        Snake_Grow s2) = Exec.ok s3
      ∧ Snake_Move s3 SNAKE_DIR_DOWN = Exec.ok s4
      ∧ Snake_Move s4 SNAKE_DIR_LEFT = Exec.ok s5
      ∧ s5.posAt 0 = some (14 + (unitVector SNAKE_DIR_DOWN).1 + (unitVector SNAKE_DIR_LEFT).1,
          7 + (unitVector SNAKE_DIR_DOWN).2 + (unitVector SNAKE_DIR_LEFT).2)
      ∧ s5.posAt 1 = some (14 + (unitVector SNAKE_DIR_DOWN).1, 7 + (unitVector SNAKE_DIR_DOWN).2)
      ∧ s5.posAt 2 = some (14, 7) := by
  refine ⟨by decide, by decide, ?_⟩
  obtain ⟨s3, s4, s5, h1, _, _, _, _, _, h2, _, _, _, h3, h4, h5, h6, _⟩ :=
    Snake_Init_unfolds (Snake_Create 1 3) 14 7 SNAKE_DIR_DOWN SNAKE_DIR_LEFT
      (by decide) (by decide) (by decide) (by decide) (by decide) (by decide)
  exact ⟨s3, s4, s5, h1, h2, h3, h4, h5, h6⟩

/-! ## What the phases of a tick change when they return -/

theorem setPart_eq_ok {parts parts2 : List (Option GameObject)} {i : Nat} {o : GameObject} :
    setPart parts i o = Exec.ok parts2 ↔ i < parts.length ∧ parts2 = parts.set i (some o) := by
  unfold setPart
  rw [storeAt_eq]
  by_cases h : i < parts.length
  · simp only [h, if_true, true_and, Exec.ok.injEq]
    exact eq_comm
  · simp [h]

theorem Snake_Grow_eq_ok {s s2 : Snake} (h : Snake_Grow s = Exec.ok s2) :
    ∃ t, s.parts[s.tail]? = some (some t) ∧ s.length < s.parts.length
      ∧ s2 = { s with
          parts := s.parts.set s.length
            (some (GameObject_Create t.x t.y SNAKE_OBJTYPE SNAKE_SPRITE)),
          tail := s.length, length := s.length + 1 } := by
  unfold Snake_Grow at h
  obtain ⟨t, ht, h2⟩ := Exec.bind_eq_ok h
  obtain ⟨parts2, hp, h3⟩ := Exec.bind_eq_ok h2
  obtain ⟨hlt, hset⟩ := setPart_eq_ok.mp hp
  refine ⟨t, getPart_eq_ok.mp ht, hlt, ?_⟩
  simp only [Exec.pure_eq, Exec.ok.injEq] at h3
  rw [← h3, hset]

theorem SnakeGame_ConsumeFood_eq_ok {g g2 : SnakeGame} (h : SnakeGame_ConsumeFood g = Exec.ok g2) :
    ∃ grid2 s2, writeAt g.grid (cellIndex g.screen.columns g.food) NONE_OBJTYPE = Exec.ok grid2
      ∧ Snake_Grow g.snake = Exec.ok s2
      ∧ g2 = { g with grid := grid2, snake := s2 } := by
  unfold SnakeGame_ConsumeFood at h
  obtain ⟨grid2, hg, h2⟩ := Exec.bind_eq_ok h
  obtain ⟨s2, hs, h3⟩ := Exec.bind_eq_ok h2
  refine ⟨grid2, s2, hg, hs, ?_⟩
  simp only [Exec.pure_eq, Exec.ok.injEq] at h3
  exact h3.symm

theorem SnakeGame_GameLoop_classify_eq_ok {g ga : SnakeGame} {draws rest : List Nat}
    (h : SnakeGame_GameLoop_classify g draws = Exec.ok (ga, rest)) :
    SnakeGame_SnakeIsMaxLength g = false
    ∧ ∃ hd, g.snake.parts[g.snake.head]? = some (some hd)
      ∧ GameObject_InBounds hd g.screen.columns g.screen.rows = true
      ∧ ((readAt g.grid (cellIndex g.screen.columns hd) = Exec.ok NONE_OBJTYPE
            ∧ ga = g ∧ rest = draws)
          ∨ (readAt g.grid (cellIndex g.screen.columns hd) = Exec.ok FOOD_OBJTYPE
            ∧ ∃ g1, SnakeGame_ConsumeFood g = Exec.ok g1
              ∧ SnakeGame_SpawnFood g1 draws = Exec.ok (ga, rest))) := by
  cases hmax : SnakeGame_SnakeIsMaxLength g with
  | true =>
    rw [SnakeGame_GameLoop_classify_of_max g draws hmax] at h
    cases h
  | false =>
    refine ⟨rfl, ?_⟩
    cases hget : getPart g.snake.parts g.snake.head with
    | ok hd =>
      have hh := getPart_eq_ok.mp hget
      refine ⟨hd, hh, ?_⟩
      rw [SnakeGame_GameLoop_classify_eq g draws hd hmax hh] at h
      cases hb : GameObject_InBounds hd g.screen.columns g.screen.rows with
      | false =>
        rw [hb] at h
        simp only [if_true] at h
        cases h
      | true =>
        refine ⟨rfl, ?_⟩
        rw [hb] at h
        simp only [Bool.true_eq_false, if_false] at h
        obtain ⟨tag, htag, h2⟩ := Exec.bind_eq_ok h
        split at h2
        · cases h2
        · split at h2
          · rename_i ht
            right
            rw [ht] at htag
            exact ⟨htag, Exec.bind_eq_ok h2⟩
          · split at h2
            · rename_i ht
              left
              rw [ht] at htag
              simp only [Exec.ok.injEq, Prod.mk.injEq] at h2
              exact ⟨htag, h2.1.symm, h2.2.symm⟩
            · cases h2
    | exit e =>
      simp [SnakeGame_GameLoop_classify, hmax, SnakeGame_GetInBounds, hget] at h
    | undefined =>
      simp [SnakeGame_GameLoop_classify, hmax, SnakeGame_GetInBounds, hget] at h
    | starved =>
      simp [SnakeGame_GameLoop_classify, hmax, SnakeGame_GetInBounds, hget] at h

theorem SnakeGame_ProcessInput_eq_ok {g g2 : SnakeGame} {pending : Pending}
    (h : SnakeGame_ProcessInput g pending = Exec.ok g2) :
    ∃ d, g2 = { g with snake := { g.snake with direction := d } }
      ∧ (d = g.snake.direction ∨ IsDirection d) := by
  unfold SnakeGame_ProcessInput at h
  split at h
  · cases h
    exact ⟨g.snake.direction, rfl, Or.inl rfl⟩
  · cases h
  · split_ifs at h <;> cases h
    all_goals first
      | exact ⟨_, rfl, Or.inl rfl⟩
      | exact ⟨_, rfl, Or.inr (by decide)⟩

theorem SnakeGame_GameLoop_retire_eq_ok {g g2 : SnakeGame}
    (h : SnakeGame_GameLoop_retire g = Exec.ok g2) :
    ∃ t grid2 draw2 s2, g.snake.parts[g.snake.tail]? = some (some t)
      ∧ writeAt g.grid (cellIndex g.screen.columns t) NONE_OBJTYPE = Exec.ok grid2
      ∧ writeAt g.screen.draw_buffer (cellIndex g.screen.columns t) 0 = Exec.ok draw2
      ∧ Snake_Move g.snake g.snake.direction = Exec.ok s2
      ∧ g2 =
        { g with
          grid := grid2, screen := { g.screen with draw_buffer := draw2 }, snake := s2 } := by
  unfold SnakeGame_GameLoop_retire at h
  obtain ⟨t, ht, h2⟩ := Exec.bind_eq_ok h
  obtain ⟨grid2, hg, h3⟩ := Exec.bind_eq_ok h2
  obtain ⟨screen2, hs, h4⟩ := Exec.bind_eq_ok h3
  obtain ⟨s2, hm, h5⟩ := Exec.bind_eq_ok h4
  unfold Screen_ClearPos at hs
  obtain ⟨draw2, hd, h6⟩ := Exec.bind_eq_ok hs
  refine ⟨t, grid2, draw2, s2, getPart_eq_ok.mp ht, hg, hd, hm, ?_⟩
  simp only [Exec.pure_eq, Exec.ok.injEq] at h5 h6
  rw [← h5, ← h6]


theorem Snake_Move_ok (s : Snake) (d : Int) (hwf : s.WellFormed) (hL : 1 ≤ s.length)
    (hd : IsDirection d) :
    ∃ parts2 hd0, s.parts[0]? = some (some hd0)
      ∧ Snake_Move s d = Exec.ok { s with parts := parts2 }
      ∧ parts2.length = s.parts.length
      ∧ parts2[0]? = some (some (GameObject_AddPos hd0 (unitVector d).1 (unitVector d).2))
      ∧ (∀ k a b, 1 ≤ k → k < s.length → s.parts[k]? = some (some a) →
          s.parts[k - 1]? = some (some b) →
          parts2[k]? = some (some { a with x := b.x, y := b.y }))
      ∧ (∀ k, s.length ≤ k → parts2[k]? = s.parts[k]?) := by
  have hinit : ∀ i, i ≤ s.length - 1 → ∃ o, s.parts[i]? = some (some o) := by
    intro i hi
    obtain ⟨o, ho, _⟩ := hwf.live i (by omega)
    exact ⟨o, ho⟩
  obtain ⟨parts1, hrun, hlen, hshift, hkeep⟩ := Snake_Move_shift_spec _ s.parts hinit
  obtain ⟨h, hh, _, _⟩ := hwf.live 0 (by omega)
  have hh2 : parts1[0]? = some (some h) := by rw [hkeep 0 (Or.inl rfl)]; exact hh
  have hlt : 0 < parts1.length := lt_length_of_getElem? hh2
  refine ⟨parts1.set 0 (some (GameObject_AddPos h (unitVector d).1 (unitVector d).2)), h, hh,
    ?_, ?_, ?_, ?_, ?_⟩
  · rw [Snake_Move_eq s d hd, hrun, hwf.head_eq]
    simp only [Exec.ok_bind, getPart_eq_ok.mpr hh2, setPart_of_lt _ hlt]
  · rw [List.length_set, hlen]
  · exact List.getElem?_set_self hlt
  · intro k a b h1 hk ha hb
    rw [List.getElem?_set_ne (by omega)]
    exact hshift k a b h1 (by omega) ha hb
  · intro k hk
    rw [List.getElem?_set_ne (by omega)]
    exact hkeep k (Or.inr (by omega))

theorem SnakeGame_GameLoop_parts_frame (n : Nat) :
    ∀ (i : Nat) (g g2 : SnakeGame), SnakeGame_GameLoop_parts n i g = Exec.ok g2 →
      g2.snake = g.snake ∧ g2.food = g.food
      ∧ g2.screen.rows = g.screen.rows ∧ g2.screen.columns = g.screen.columns
      ∧ g2.screen.print_buffer = g.screen.print_buffer
      ∧ g2.grid.length = g.grid.length
      ∧ g2.screen.draw_buffer.length = g.screen.draw_buffer.length
      ∧ (∀ k, i ≤ k → k < i + n →
          ∃ o, g.snake.parts[k]? = some (some o)
            ∧ readAt g2.grid (cellIndex g.screen.columns o) = Exec.ok SNAKE_OBJTYPE
            ∧ ∃ k2 o2, i ≤ k2 ∧ k2 < i + n ∧ g.snake.parts[k2]? = some (some o2)
              ∧ readAt g2.screen.draw_buffer (cellIndex g.screen.columns o)
                  = Exec.ok o2.sprite)
      ∧ (∀ j, (∀ k o, i ≤ k → k < i + n → g.snake.parts[k]? = some (some o) →
            cellIndex g.screen.columns o ≠ j) →
          readAt g2.grid j = readAt g.grid j
            ∧ readAt g2.screen.draw_buffer j = readAt g.screen.draw_buffer j) := by
  induction n with
  | zero =>
    intro i g g2 h
    simp only [SnakeGame_GameLoop_parts, Exec.ok.injEq] at h
    subst h
    refine ⟨rfl, rfl, rfl, rfl, rfl, rfl, rfl, ?_, fun _ _ => ⟨rfl, rfl⟩⟩
    intro k h1 h2
    omega
  | succ n ih =>
    intro i g g2 h
    unfold SnakeGame_GameLoop_parts at h
    obtain ⟨p, hp, h2⟩ := Exec.bind_eq_ok h
    obtain ⟨grid1, hg, h3⟩ := Exec.bind_eq_ok h2
    obtain ⟨screen1, hs, h4⟩ := Exec.bind_eq_ok h3
    unfold SnakeGame_DrawGameObject Screen_PushToPos at hs
    obtain ⟨draw1, hdw, h5⟩ := Exec.bind_eq_ok hs
    simp only [Exec.pure_eq, Exec.ok.injEq] at h5
    subst h5
    have hpp := getPart_eq_ok.mp hp
    obtain ⟨⟨hg0, hg1⟩, hgset⟩ := writeAt_eq_ok.mp hg
    obtain ⟨⟨hd0, hd1⟩, hdset⟩ := writeAt_eq_ok.mp hdw
    subst hgset
    subst hdset
    obtain ⟨hsn, hfo, hro, hco, hpb, hgl, hdl, hin, hout⟩ := ih (i + 1) _ g2 h4
    simp only at hsn hfo hro hco hpb hgl hdl hin hout
    refine ⟨hsn, hfo, hro, hco, hpb, ?_, ?_, ?_, ?_⟩
    · rw [hgl, List.length_set]
    · rw [hdl, List.length_set]
    · intro k hk1 hk2
      by_cases hki : k = i
      · subst hki
        refine ⟨p, hpp, ?_⟩
        by_cases hex : ∃ k3 o3, k + 1 ≤ k3 ∧ k3 < k + 1 + n
            ∧ g.snake.parts[k3]? = some (some o3)
            ∧ cellIndex g.screen.columns o3 = cellIndex g.screen.columns p
        · obtain ⟨k3, o3, h31, h32, h33, h34⟩ := hex
          obtain ⟨o4, ho4, hgr, k2, o2, hk21, hk22, hk23, hdr⟩ := hin k3 h31 h32
          rw [h33] at ho4
          cases ho4
          rw [h34] at hgr hdr
          exact ⟨hgr, k2, o2, by omega, by omega, hk23, hdr⟩
        · have hne : ∀ k3 o3, k + 1 ≤ k3 → k3 < k + 1 + n →
              g.snake.parts[k3]? = some (some o3) →
              cellIndex g.screen.columns o3 ≠ cellIndex g.screen.columns p := by
            intro k3 o3 h31 h32 h33 h34
            exact hex ⟨k3, o3, h31, h32, h33, h34⟩
          obtain ⟨hgr, hdr⟩ := hout _ hne
          refine ⟨?_, k, p, Nat.le_refl _, by omega, hpp, ?_⟩
          · rw [hgr]
            exact readAt_set_self _ hg0 hg1
          · rw [hdr]
            exact readAt_set_self _ hd0 hd1
      · obtain ⟨o4, ho4, hgr, k2, o2, hk21, hk22, hk23, hdr⟩ := hin k (by omega) (by omega)
        exact ⟨o4, ho4, hgr, k2, o2, by omega, by omega, hk23, hdr⟩
    · intro j hj
      have hne : ∀ k3 o3, i + 1 ≤ k3 → k3 < i + 1 + n →
          g.snake.parts[k3]? = some (some o3) → cellIndex g.screen.columns o3 ≠ j := by
        intro k3 o3 h31 h32 h33
        exact hj k3 o3 (by omega) (by omega) h33
      obtain ⟨hgr, hdr⟩ := hout j hne
      have hpj : j ≠ cellIndex g.screen.columns p :=
        fun e => hj i p (Nat.le_refl _) (by omega) hpp e.symm
      rw [hgr, hdr]
      exact ⟨readAt_set_ne _ hg0 hpj, readAt_set_ne _ hd0 hpj⟩

theorem SnakeGame_GameLoop_redraw_eq_ok {g g3 : SnakeGame}
    (h : SnakeGame_GameLoop_redraw g = Exec.ok g3) :
    ∃ g2 draw3, SnakeGame_GameLoop_parts g.snake.length 0 g = Exec.ok g2
      ∧ writeAt g2.screen.draw_buffer (cellIndex g2.screen.columns g2.food) g2.food.sprite
          = Exec.ok draw3
      ∧ g3 = { g2 with screen := { g2.screen with draw_buffer := draw3 } } := by
  unfold SnakeGame_GameLoop_redraw at h
  obtain ⟨g2, hg2, h2⟩ := Exec.bind_eq_ok h
  obtain ⟨screen3, hs, h3⟩ := Exec.bind_eq_ok h2
  unfold SnakeGame_DrawGameObject Screen_PushToPos at hs
  obtain ⟨draw3, hdw, h4⟩ := Exec.bind_eq_ok hs
  simp only [Exec.pure_eq, Exec.ok.injEq] at h3 h4
  refine ⟨g2, draw3, hg2, hdw, ?_⟩
  rw [← h3, ← h4]

/-! ## Cells and indices -/

theorem cellIndex_range {rows columns : Nat} {o : GameObject} (h : Inside rows columns o) :
    0 ≤ cellIndex columns o ∧ cellIndex columns o < ((rows * columns : Nat) : Int) := by
  obtain ⟨⟨hx0, hx1⟩, ⟨hy0, hy1⟩⟩ := h
  unfold cellIndex POS_TO_INDEX
  have h1 : 0 ≤ (columns : Int) * o.y := Int.mul_nonneg (Int.natCast_nonneg _) hy0
  have h2 : (columns : Int) * o.y ≤ (columns : Int) * ((rows : Int) - 1) :=
    Int.mul_le_mul_of_nonneg_left (by omega) (Int.natCast_nonneg _)
  have h3 : (columns : Int) * ((rows : Int) - 1) = (rows : Int) * (columns : Int) - columns := by
    ring
  have h4 : ((rows * columns : Nat) : Int) = (rows : Int) * (columns : Int) := by push_cast; ring
  rw [h4]
  constructor
  · omega
  · omega

theorem cellIndex_inj {rows columns : Nat} {o p : GameObject} (ho : Inside rows columns o)
    (hp : Inside rows columns p) (h : cellIndex columns o = cellIndex columns p) :
    o.x = p.x ∧ o.y = p.y := by
  obtain ⟨⟨hx0, hx1⟩, ⟨hy0, hy1⟩⟩ := ho
  obtain ⟨⟨px0, px1⟩, ⟨py0, py1⟩⟩ := hp
  unfold cellIndex POS_TO_INDEX at h
  have hy : o.y = p.y := by
    by_contra hne
    rcases Int.lt_or_gt_of_ne hne with hlt | hgt
    · have h1 : (columns : Int) * (o.y + 1) ≤ (columns : Int) * p.y :=
        Int.mul_le_mul_of_nonneg_left (by omega) (Int.natCast_nonneg _)
      have h2 : (columns : Int) * (o.y + 1) = (columns : Int) * o.y + columns := by ring
      omega
    · have h1 : (columns : Int) * (p.y + 1) ≤ (columns : Int) * o.y :=
        Int.mul_le_mul_of_nonneg_left (by omega) (Int.natCast_nonneg _)
      have h2 : (columns : Int) * (p.y + 1) = (columns : Int) * p.y + columns := by ring
      omega
  rw [hy] at h
  exact ⟨by omega, hy⟩

theorem readAt_in_range {α : Type} {buf : List α} {i : Int} {v : α}
    (h : readAt buf i = Exec.ok v) : 0 ≤ i ∧ i < (buf.length : Int) := by
  obtain ⟨h0, h1⟩ := readAt_eq_ok.mp h
  have := lt_length_of_getElem? h1
  omega

theorem readAt_of_range {α : Type} {buf : List α} {i : Int}
    (h0 : 0 ≤ i) (h1 : i < (buf.length : Int)) : ∃ v, readAt buf i = Exec.ok v := by
  have hlt : i.toNat < buf.length := by omega
  exact ⟨buf[i.toNat], readAt_eq_ok.mpr ⟨h0, List.getElem?_eq_getElem hlt⟩⟩

theorem writeAt_of_range {α : Type} {buf : List α} {i : Int} (v : α)
    (h0 : 0 ≤ i) (h1 : i < (buf.length : Int)) :
    writeAt buf i v = Exec.ok (buf.set i.toNat v) :=
  writeAt_eq_ok.mpr ⟨⟨h0, by omega⟩, rfl⟩

/-- Reading after a write: the written value at the written index, the old
contents elsewhere. -/
theorem readAt_writeAt {α : Type} {buf buf2 : List α} {i : Int} {v : α}
    (h : writeAt buf i v = Exec.ok buf2) (j : Int) :
    readAt buf2 j = if j = i then Exec.ok v else readAt buf j := by
  obtain ⟨⟨h0, h1⟩, hset⟩ := writeAt_eq_ok.mp h
  subst hset
  by_cases hj : j = i
  · subst hj
    rw [if_pos rfl]
    exact readAt_set_self v h0 h1
  · rw [if_neg hj]
    exact readAt_set_ne v h0 hj

theorem writeAt_length {α : Type} {buf buf2 : List α} {i : Int} {v : α}
    (h : writeAt buf i v = Exec.ok buf2) : buf2.length = buf.length := by
  obtain ⟨_, hset⟩ := writeAt_eq_ok.mp h
  rw [hset, List.length_set]

/-! ## The loop invariant holds on entry to the loop -/

theorem Snake_Init_grow_grow_any (snake : Snake) (x y : Int) (a b c : Option GameObject)
    (tl : List (Option GameObject)) (hparts : snake.parts = a :: b :: c :: tl) :
    (Snake_Init snake x y >>= fun s1 => Snake_Grow s1 >>= fun s2 => Snake_Grow s2)
      = Exec.ok (initialSnake (toChar x) (toChar y) tl) := by
  have e1 : toChar SNAKE_OBJTYPE = 1 := by decide
  have e2 : toChar SNAKE_SPRITE = 83 := by decide
  have e3 : toChar SNAKE_DIR_DOWN = 85 := by decide
  simp [Snake_Init, Snake_Grow, setPart, getPart, storeAt, hparts, GameObject_Create,
    toChar_of_isChar (isChar_toChar x), toChar_of_isChar (isChar_toChar y), e1, e2, e3,
    initialSnake]

theorem SnakeGame_BeginPlay_eq_ok {g g2 : SnakeGame} {draws rest : List Nat}
    {a b c : Option GameObject} {tl : List (Option GameObject)}
    (hparts : g.snake.parts = a :: b :: c :: tl)
    (h : SnakeGame_BeginPlay g draws = Exec.ok (g2, rest)) :
    SnakeGame_SpawnFood
      { g with
        snake := initialSnake (toChar ((g.screen.columns : Int) / 2 - 1))
          (toChar ((g.screen.rows : Int) / 2)) tl } draws = Exec.ok (g2, rest) := by
  have hinit := Snake_Init_grow_grow_any g.snake ((g.screen.columns : Int) / 2 - 1)
    ((g.screen.rows : Int) / 2) a b c tl hparts
  have h2 : (Snake_Init g.snake ((g.screen.columns : Int) / 2 - 1) ((g.screen.rows : Int) / 2)
      >>= fun s1 => Snake_Grow s1 >>= fun s2 => Snake_Grow s2 >>= fun s3 =>
        SnakeGame_SpawnFood { g with snake := s3 } draws) = Exec.ok (g2, rest) := h
  cases h1 : Snake_Init g.snake ((g.screen.columns : Int) / 2 - 1)
      ((g.screen.rows : Int) / 2) with
  | ok s1 =>
    rw [h1] at hinit h2
    simp only [Exec.ok_bind] at hinit h2
    cases h3 : Snake_Grow s1 with
    | ok s2 =>
      rw [h3] at hinit h2
      simp only [Exec.ok_bind] at hinit h2
      rw [hinit] at h2
      exact h2
    | exit e => rw [h3] at hinit; cases hinit
    | undefined => rw [h3] at hinit; cases hinit
    | starved => rw [h3] at hinit; cases hinit
  | exit e => rw [h1] at hinit; cases hinit
  | undefined => rw [h1] at hinit; cases hinit
  | starved => rw [h1] at hinit; cases hinit

theorem readAt_replicate {α : Type} {n : Nat} {a v : α} {i : Int}
    (h : readAt (List.replicate n a) i = Exec.ok v) : v = a := by
  obtain ⟨_, h1⟩ := readAt_eq_ok.mp h
  have hlt := lt_length_of_getElem? h1
  rw [List.getElem?_eq_getElem hlt] at h1
  simp only [List.getElem_replicate, Option.some.injEq] at h1
  exact h1.symm

theorem initialSnake_part {x y : Int} {tl : List (Option GameObject)} {k : Nat}
    {o : GameObject} (hk : k < 3) (h : (initialSnake x y tl).parts[k]? = some (some o)) :
    o = { x := x, y := y, type := 1, sprite := 83 } := by
  interval_cases k <;> simp [initialSnake] at h <;> exact h.symm

theorem SnakeGame_BeginPlay_inv (rows columns : Nat) (h4 : 4 ≤ rows * columns)
    (draws rest : List Nat) (g : SnakeGame)
    (h : SnakeGame_BeginPlay (SnakeGame_Create rows columns) draws = Exec.ok (g, rest)) :
    LoopInv rows columns 1 g := by
  obtain ⟨n, hn⟩ : ∃ n, rows * columns = n + 3 := ⟨rows * columns - 3, by omega⟩
  have hparts : (SnakeGame_Create rows columns).snake.parts
      = none :: none :: none :: List.replicate n none := by
    simp [SnakeGame_Create, Snake_Create, hn, List.replicate_succ]
  have hsp := SnakeGame_BeginPlay_eq_ok hparts h
  obtain ⟨hsn, hsc, _, hfs, ⟨rx, ry, hfx, hfy⟩, hc0, hr0, hread, hwrite⟩ :=
    SnakeGame_SpawnFood_frame _ draws (Nat.le_refl _) _ g rest hsp
  simp only at hsn hsc hfs hfx hfy hc0 hr0 hread hwrite
  have hrows : g.screen.rows = rows := by rw [hsc]; rfl
  have hcols : g.screen.columns = columns := by rw [hsc]; rfl
  have hcols0 : (SnakeGame_Create rows columns).screen.columns = columns := rfl
  have hrows0 : (SnakeGame_Create rows columns).screen.rows = rows := rfl
  have hgrid0 : (SnakeGame_Create rows columns).grid = List.replicate (rows * columns) 0 := rfl
  rw [hcols0, hrows0] at hsn
  rw [hcols0] at hread hwrite hfx hc0
  rw [hrows0] at hfy hr0
  rw [hgrid0] at hread hwrite
  have hfc : cellIndex columns g.food = POS_TO_INDEX columns g.food.x g.food.y := rfl
  have hlive : ∀ k, k < 3 → ∃ o, g.snake.parts[k]? = some (some o)
      ∧ o = { x := toChar ((columns : Int) / 2 - 1), y := toChar ((rows : Int) / 2),
              type := 1, sprite := 83 } := by
    intro k hk
    rw [hsn]
    interval_cases k <;> exact ⟨_, by simp [initialSnake], rfl⟩
  have hpart : ∀ k o, k < 3 → g.snake.parts[k]? = some (some o) →
      o = { x := toChar ((columns : Int) / 2 - 1), y := toChar ((rows : Int) / 2),
            type := 1, sprite := 83 } := by
    intro k o hk ho
    obtain ⟨o2, ho2, he⟩ := hlive k hk
    rw [ho2] at ho
    cases ho
    exact he
  have hlen : g.snake.length = 3 := by rw [hsn]; rfl
  refine
    { rows_eq := hrows, columns_eq := hcols, draw_len := ?_, print_len := ?_, grid_len := ?_,
      parts_len := ?_, wf := ?_, len_ge := ?_, len_le := ?_, dir := ?_, sprite := ?_,
      food_sprite := ?_, tags := ?_, inside := ?_, snake_tags := ?_, food_tag := ?_,
      food_cell := ?_, food_inside := ?_, draw_sync := ?_ }
  · rw [hsc]; simp [SnakeGame_Create, Screen_Create]
  · rw [hsc]; simp [SnakeGame_Create, Screen_Create]
  · rw [writeAt_length hwrite, List.length_replicate]
  · rw [hsn]; simp [initialSnake, hn]
  · refine ⟨by rw [hsn]; rfl, by rw [hsn]; rfl, ?_⟩
    intro k hk
    rw [hlen] at hk
    obtain ⟨o, ho, he⟩ := hlive k hk
    refine ⟨o, ho, ?_, ?_⟩
    · rw [he]; exact isChar_toChar _
    · rw [he]; exact isChar_toChar _
  · rw [hlen]
  · rw [hlen]; omega
  · rw [hsn]; exact Or.inr (Or.inl rfl)
  · intro k o hk ho
    rw [hlen] at hk
    rw [hpart k o hk ho]
    rfl
  · rw [hfs]
    show toChar FOOD_SPRITE = FOOD_SPRITE
    decide
  · intro i v hv
    rw [readAt_writeAt hwrite i] at hv
    split at hv
    · cases hv
      exact Or.inr (Or.inr rfl)
    · exact Or.inl (readAt_replicate hv)
  · intro hhead k o hk ho
    rw [hlen] at hk
    obtain ⟨o0, ho0, he0⟩ := hlive 0 (by omega)
    have h0 := hhead o0 ho0
    rw [hpart k o hk ho, ← he0]
    exact h0
  · intro i hi
    rw [readAt_writeAt hwrite i] at hi
    split at hi
    · cases hi
    · have := readAt_replicate hi
      cases this
  · intro i hi
    rw [readAt_writeAt hwrite i] at hi
    split at hi
    · rename_i heq
      rw [heq]
      rfl
    · have := readAt_replicate hi
      cases this
  · obtain ⟨⟨h0, h1⟩, _⟩ := writeAt_eq_ok.mp hwrite
    rw [List.length_replicate] at h1
    rw [hfc]
    constructor
    · exact h0
    · omega
  · intro hc hr
    obtain ⟨hx0, hx1⟩ := toChar_mod_of_le rx columns hc0 hc
    obtain ⟨hy0, hy1⟩ := toChar_mod_of_le ry rows hr0 hr
    rw [← hfx] at hx0 hx1
    rw [← hfy] at hy0 hy1
    exact ⟨⟨hx0, hx1⟩, ⟨hy0, hy1⟩⟩
  · intro i v hv hv0
    rw [hsc] at hv
    have : v = 0 := readAt_replicate (by simpa [SnakeGame_Create, Screen_Create] using hv)
    exact absurd this hv0

/-! ## The classification keeps the loop invariant -/

theorem LoopInv.weaken {rows columns : Nat} {g : SnakeGame} (h : LoopInv rows columns 1 g) :
    LoopInv rows columns 0 g :=
  { rows_eq := h.rows_eq, columns_eq := h.columns_eq, draw_len := h.draw_len,
    print_len := h.print_len, grid_len := h.grid_len, parts_len := h.parts_len, wf := h.wf,
    len_ge := h.len_ge, len_le := h.len_le, dir := h.dir, sprite := h.sprite,
    food_sprite := h.food_sprite, tags := h.tags, inside := h.inside,
    snake_tags := fun i hi =>
      let ⟨k, o, _, h2, h3, h4⟩ := h.snake_tags i hi
      ⟨k, o, Nat.zero_le _, h2, h3, h4⟩,
    food_tag := h.food_tag, food_cell := h.food_cell, food_inside := h.food_inside,
    draw_sync := fun i v hv hv0 =>
      match h.draw_sync i v hv hv0 with
      | Or.inl ⟨k, o, _, h2, h3, h4⟩ => Or.inl ⟨k, o, Nat.zero_le _, h2, h3, h4⟩
      | Or.inr h5 => Or.inr h5 }

theorem cellIndex_eq_of_pos {columns : Nat} {o p : GameObject} (hx : o.x = p.x)
    (hy : o.y = p.y) : cellIndex columns o = cellIndex columns p := by
  unfold cellIndex
  rw [hx, hy]

theorem Inside_of_pos {rows columns : Nat} {o p : GameObject} (hx : o.x = p.x)
    (hy : o.y = p.y) (h : Inside rows columns p) : Inside rows columns o := by
  unfold Inside at h ⊢
  rw [hx, hy]
  exact h

theorem SnakeGame_GameLoop_classify_inv {rows columns : Nat} {g ga : SnakeGame}
    {draws rest : List Nat} (hinv : LoopInv rows columns 1 g)
    (h : SnakeGame_GameLoop_classify g draws = Exec.ok (ga, rest)) :
    LoopInv rows columns 0 ga ∧ HeadInside rows columns ga
      ∧ (ga.snake.length = g.snake.length ∨ ga.snake.length = g.snake.length + 1) := by
  obtain ⟨hmax, hd, hhd, hin, hcase⟩ := SnakeGame_GameLoop_classify_eq_ok h
  rw [hinv.wf.head_eq] at hhd
  rw [hinv.columns_eq] at hin hcase
  rw [hinv.rows_eq] at hin
  have hhin : Inside rows columns hd := GameObject_InBounds_eq_true.mp hin
  rcases hcase with ⟨_, hga, _⟩ | ⟨hfood, g1, hcons, hspawn⟩
  · subst hga
    exact ⟨hinv.weaken, ⟨hd, hhd, hhin⟩, Or.inl rfl⟩
  · obtain ⟨grid2, s2, hw1, hgrow, hg1⟩ := SnakeGame_ConsumeFood_eq_ok hcons
    obtain ⟨t, ht, hcap, hs2⟩ := Snake_Grow_eq_ok hgrow
    rw [hinv.columns_eq] at hw1
    rw [hinv.wf.tail_eq] at ht
    obtain ⟨hsn, hsc, _, hfs, ⟨rx, ry, hfx, hfy⟩, hc0, hr0, hread, hwrite⟩ :=
      SnakeGame_SpawnFood_frame _ draws (Nat.le_refl _) _ ga rest hspawn
    subst hg1
    simp only at hsn hsc hfs hfx hfy hc0 hr0 hread hwrite
    rw [hinv.columns_eq] at hfx hc0 hread hwrite
    rw [hinv.rows_eq] at hfy hr0
    have hL := hinv.len_ge
    obtain ⟨t2, ht2, htx, hty⟩ := hinv.wf.live (g.snake.length - 1) (by omega)
    rw [ht] at ht2
    cases ht2
    have hntx : (GameObject_Create t.x t.y SNAKE_OBJTYPE SNAKE_SPRITE).x = t.x :=
      toChar_of_isChar htx
    have hnty : (GameObject_Create t.x t.y SNAKE_OBJTYPE SNAKE_SPRITE).y = t.y :=
      toChar_of_isChar hty
    have hlen : ga.snake.length = g.snake.length + 1 := by rw [hsn, hs2]
    have hold : ∀ k, k < g.snake.length → ga.snake.parts[k]? = g.snake.parts[k]? := by
      intro k hk
      rw [hsn, hs2]
      exact List.getElem?_set_ne (by omega)
    have hnew : ga.snake.parts[g.snake.length]?
        = some (some (GameObject_Create t.x t.y SNAKE_OBJTYPE SNAKE_SPRITE)) := by
      rw [hsn, hs2]
      exact List.getElem?_set_self hcap
    have hfc : cellIndex columns ga.food = POS_TO_INDEX columns ga.food.x ga.food.y := rfl
    have hfoodcell : cellIndex columns hd = cellIndex columns g.food :=
      hinv.food_tag _ hfood
    have hlenle : g.snake.length + 1 + 1 ≤ rows * columns := by
      have h1 := hinv.len_le
      have h2 : ¬ ((g.snake.length : Int)
          = (g.screen.columns : Int) * (g.screen.rows : Int) - 1) := by
        intro e
        have := (SnakeGame_SnakeIsMaxLength_iff g).mpr e
        rw [hmax] at this
        cases this
      rw [hinv.columns_eq, hinv.rows_eq] at h2
      have h3 : ((rows * columns : Nat) : Int) = (columns : Int) * (rows : Int) := by
        push_cast; ring
      omega
    refine ⟨?_, ⟨hd, by rw [hold 0 (by omega)]; exact hhd, hhin⟩, Or.inr hlen⟩
    refine
      { rows_eq := by rw [hsc]; exact hinv.rows_eq,
        columns_eq := by rw [hsc]; exact hinv.columns_eq,
        draw_len := by rw [hsc]; exact hinv.draw_len,
        print_len := by rw [hsc]; exact hinv.print_len,
        grid_len := by rw [writeAt_length hwrite, writeAt_length hw1]; exact hinv.grid_len,
        parts_len := by rw [hsn, hs2]; simp only [List.length_set]; exact hinv.parts_len,
        wf := ?_, len_ge := by omega, len_le := by omega,
        dir := by rw [hsn, hs2]; exact hinv.dir,
        sprite := ?_, food_sprite := by rw [hfs]; exact hinv.food_sprite, tags := ?_,
        inside := ?_, snake_tags := ?_, food_tag := ?_, food_cell := ?_, food_inside := ?_,
        draw_sync := ?_ }
    · refine ⟨by rw [hsn, hs2]; exact hinv.wf.head_eq, by rw [hsn, hs2]; simp, ?_⟩
      intro k hk
      by_cases hkl : k < g.snake.length
      · rw [hold k hkl]
        exact hinv.wf.live k hkl
      · have hke : k = g.snake.length := by omega
        subst hke
        exact ⟨_, hnew, isChar_toChar _, isChar_toChar _⟩
    · intro k o hk ho
      by_cases hkl : k < g.snake.length
      · rw [hold k hkl] at ho
        exact hinv.sprite k o hkl ho
      · have hke : k = g.snake.length := by omega
        subst hke
        rw [hnew] at ho
        cases ho
        show toChar SNAKE_SPRITE = SNAKE_SPRITE
        decide
    · intro i v hv
      rw [readAt_writeAt hwrite i] at hv
      split at hv
      · cases hv
        exact Or.inr (Or.inr rfl)
      · rw [readAt_writeAt hw1 i] at hv
        split at hv
        · cases hv
          exact Or.inl rfl
        · exact hinv.tags i v hv
    · intro _ k o hk ho
      have hall := hinv.inside (fun hd2 hhd2 => by
        rw [hhd] at hhd2
        cases hhd2
        exact hhin)
      by_cases hkl : k < g.snake.length
      · rw [hold k hkl] at ho
        exact hall k o hkl ho
      · have hke : k = g.snake.length := by omega
        subst hke
        rw [hnew] at ho
        cases ho
        exact Inside_of_pos hntx hnty (hall _ t (by omega) ht)
    · intro i hi
      rw [readAt_writeAt hwrite i] at hi
      split at hi
      · cases hi
      · rw [readAt_writeAt hw1 i] at hi
        split at hi
        · cases hi
        · obtain ⟨k, o, _, hk2, hk3, hk4⟩ := hinv.snake_tags i hi
          exact ⟨k, o, Nat.zero_le _, by omega, by rw [hold k hk2]; exact hk3, hk4⟩
    · intro i hi
      rw [readAt_writeAt hwrite i] at hi
      split at hi
      · rename_i heq
        rw [heq]
        rfl
      · rw [readAt_writeAt hw1 i] at hi
        split at hi
        · cases hi
        · rename_i hne
          exact absurd (hinv.food_tag i hi) hne
    · obtain ⟨⟨h0, h1⟩, _⟩ := writeAt_eq_ok.mp hwrite
      rw [writeAt_length hw1, hinv.grid_len] at h1
      rw [hfc]
      constructor
      · exact h0
      · omega
    · intro hc hr
      obtain ⟨hx0, hx1⟩ := toChar_mod_of_le rx columns hc0 hc
      obtain ⟨hy0, hy1⟩ := toChar_mod_of_le ry rows hr0 hr
      rw [← hfx] at hx0 hx1
      rw [← hfy] at hy0 hy1
      exact ⟨⟨hx0, hx1⟩, ⟨hy0, hy1⟩⟩
    · intro i v hv hv0
      rw [hsc] at hv
      rcases hinv.draw_sync i v hv hv0 with ⟨k, o, _, hk2, hk3, hk4⟩ | hfd
      · exact Or.inl ⟨k, o, Nat.zero_le _, by omega, by rw [hold k hk2]; exact hk3, hk4⟩
      · refine Or.inl ⟨0, hd, Nat.le_refl _, by omega, ?_, ?_⟩
        · rw [hold 0 (by omega)]
          exact hhd
        · rw [hfd]
          exact hfoodcell

/-! ## The redraw pass -/

theorem paintAt_length (buf : List Int) (i v : Int) : (paintAt buf i v).length = buf.length := by
  unfold paintAt
  split
  · rw [List.length_set]
  · rfl

theorem readAt_paintAt_self {buf : List Int} {i : Int} (v : Int) (h0 : 0 ≤ i)
    (h1 : i < (buf.length : Int)) : readAt (paintAt buf i v) i = Exec.ok v := by
  unfold paintAt
  rw [if_pos h0]
  exact readAt_set_self v h0 (by omega)

theorem readAt_paintAt_ne {buf : List Int} {i j : Int} (v : Int) (hne : j ≠ i) :
    readAt (paintAt buf i v) j = readAt buf j := by
  unfold paintAt
  split
  · rename_i h0
    exact readAt_set_ne v h0 hne
  · rfl

theorem paintParts_length (columns : Nat) (parts : List (Option GameObject)) (n : Nat) :
    ∀ i buf, (paintParts columns parts n i buf).length = buf.length := by
  induction n with
  | zero => intro i buf; rfl
  | succ n ih =>
    intro i buf
    unfold paintParts
    split
    · rw [ih, paintAt_length]
    · rw [ih]

theorem paintParts_read_out (columns : Nat) (parts : List (Option GameObject)) (n : Nat) :
    ∀ i buf j, (∀ k o, i ≤ k → k < i + n → parts[k]? = some (some o) →
        cellIndex columns o ≠ j) →
      readAt (paintParts columns parts n i buf) j = readAt buf j := by
  induction n with
  | zero => intro i buf j _; rfl
  | succ n ih =>
    intro i buf j hj
    unfold paintParts
    have hrest : ∀ k o, i + 1 ≤ k → k < i + 1 + n → parts[k]? = some (some o) →
        cellIndex columns o ≠ j := fun k o h1 h2 h3 => hj k o (by omega) (by omega) h3
    split
    · rename_i o ho
      rw [ih (i + 1) _ j hrest]
      exact readAt_paintAt_ne _ (fun e => hj i o (Nat.le_refl _) (by omega) ho e.symm)
    · exact ih (i + 1) buf j hrest

theorem paintParts_read_in (columns : Nat) (parts : List (Option GameObject)) (n : Nat) :
    ∀ i buf j, 0 ≤ j → j < (buf.length : Int) →
      (∃ k o, i ≤ k ∧ k < i + n ∧ parts[k]? = some (some o) ∧ cellIndex columns o = j) →
      readAt (paintParts columns parts n i buf) j = Exec.ok SNAKE_SPRITE := by
  induction n with
  | zero =>
    intro i buf j _ _ hex
    obtain ⟨k, _, h1, h2, _⟩ := hex
    omega
  | succ n ih =>
    intro i buf j h0 h1 hex
    unfold paintParts
    by_cases hlater : ∃ k o, i + 1 ≤ k ∧ k < i + 1 + n ∧ parts[k]? = some (some o)
        ∧ cellIndex columns o = j
    · split
      · exact ih (i + 1) _ j h0 (by rw [paintAt_length]; exact h1) hlater
      · exact ih (i + 1) buf j h0 h1 hlater
    · obtain ⟨k, o, hk1, hk2, hk3, hk4⟩ := hex
      have hki : k = i := by
        by_contra hne
        exact hlater ⟨k, o, by omega, by omega, hk3, hk4⟩
      subst hki
      have hnone : ∀ k2 o2, k + 1 ≤ k2 → k2 < k + 1 + n → parts[k2]? = some (some o2) →
          cellIndex columns o2 ≠ j := fun k2 o2 h2 h3 h4 h5 => hlater ⟨k2, o2, h2, h3, h4, h5⟩
      rw [hk3]
      simp only
      rw [paintParts_read_out columns parts n (k + 1) _ j hnone, ← hk4]
      exact readAt_paintAt_self _ (by rw [hk4]; exact h0) (by rw [hk4]; exact h1)

theorem list_ext_readAt {a b : List Int} (hlen : a.length = b.length)
    (h : ∀ j : Int, 0 ≤ j → j < (a.length : Int) → readAt a j = readAt b j) : a = b := by
  apply List.ext_getElem?
  intro m
  by_cases hm : m < a.length
  · have h1 := h (m : Int) (Int.natCast_nonneg m) (by omega)
    obtain ⟨v, hv⟩ := readAt_nat_of_lt hm
    rw [hv] at h1
    have h2 := (readAt_eq_ok.mp hv).2
    have h3 := (readAt_eq_ok.mp h1.symm).2
    simp only [Int.toNat_ofNat] at h2 h3
    rw [h2, h3]
  · rw [List.getElem?_eq_none (by omega), List.getElem?_eq_none (by omega)]


theorem SnakeGame_ProcessInput_inv {rows columns lo : Nat} {g g2 : SnakeGame}
    {pending : Pending} (hinv : LoopInv rows columns lo g)
    (h : SnakeGame_ProcessInput g pending = Exec.ok g2) :
    LoopInv rows columns lo g2 ∧ g2.snake.parts = g.snake.parts
      ∧ g2.snake.length = g.snake.length ∧ g2.food = g.food ∧ g2.grid = g.grid
      ∧ g2.screen = g.screen := by
  obtain ⟨d, hg2, hd⟩ := SnakeGame_ProcessInput_eq_ok h
  subst hg2
  refine ⟨?_, rfl, rfl, rfl, rfl, rfl⟩
  exact
    { rows_eq := hinv.rows_eq, columns_eq := hinv.columns_eq, draw_len := hinv.draw_len,
      print_len := hinv.print_len, grid_len := hinv.grid_len, parts_len := hinv.parts_len,
      wf := ⟨hinv.wf.head_eq, hinv.wf.tail_eq, hinv.wf.live⟩,
      len_ge := hinv.len_ge, len_le := hinv.len_le,
      dir := by
        rcases hd with hd | hd
        · rw [hd]; exact hinv.dir
        · exact hd,
      sprite := hinv.sprite, food_sprite := hinv.food_sprite, tags := hinv.tags,
      inside := hinv.inside, snake_tags := hinv.snake_tags, food_tag := hinv.food_tag,
      food_cell := hinv.food_cell, food_inside := hinv.food_inside,
      draw_sync := hinv.draw_sync }

theorem HeadInside_of_parts {rows columns : Nat} {g g2 : SnakeGame}
    (hp : g2.snake.parts = g.snake.parts) (h : HeadInside rows columns g) :
    HeadInside rows columns g2 := by
  unfold HeadInside at h ⊢
  rw [hp]
  exact h

theorem SnakeGame_GameLoop_redraw_inv {rows columns : Nat} {g gc : SnakeGame}
    (hinv : LoopInv rows columns 0 g) (hh : HeadInside rows columns g)
    (h : SnakeGame_GameLoop_redraw g = Exec.ok gc) :
    LoopInv rows columns 0 gc ∧ HeadInside rows columns gc
      ∧ gc.snake = g.snake ∧ gc.food = g.food
      ∧ (∀ j, readAt gc.grid j = Exec.ok SNAKE_OBJTYPE ↔
          ∃ k o, k < gc.snake.length ∧ gc.snake.parts[k]? = some (some o)
            ∧ cellIndex columns o = j)
      ∧ gc.screen.draw_buffer = repaint gc := by
  obtain ⟨g2, draw3, hloop, hw, hgc⟩ := SnakeGame_GameLoop_redraw_eq_ok h
  obtain ⟨hsn, hfo, hro, hco, hpb, hgl, hdl, hin, hout⟩ :=
    SnakeGame_GameLoop_parts_frame _ 0 g g2 hloop
  rw [hinv.columns_eq] at hin hout
  rw [hco, hinv.columns_eq, hfo] at hw
  simp only [Nat.zero_add] at hin hout
  have hfsp : g.food.sprite = FOOD_SPRITE := hinv.food_sprite
  rw [hfsp] at hw
  -- the cells of the snake
  have hP1 : ∀ j, (∃ k o, k < g.snake.length ∧ g.snake.parts[k]? = some (some o)
      ∧ cellIndex columns o = j) →
      readAt g2.grid j = Exec.ok SNAKE_OBJTYPE
        ∧ readAt g2.screen.draw_buffer j = Exec.ok SNAKE_SPRITE := by
    rintro j ⟨k, o, hk, ho, hc⟩
    obtain ⟨o2, ho2, hgr, k3, o3, _, hk3, ho3, hdr⟩ := hin k (Nat.zero_le _) hk
    rw [ho] at ho2
    cases ho2
    rw [hc] at hgr hdr
    rw [hinv.sprite k3 o3 hk3 ho3] at hdr
    exact ⟨hgr, hdr⟩
  have hP0 : ∀ j, ¬ (∃ k o, k < g.snake.length ∧ g.snake.parts[k]? = some (some o)
      ∧ cellIndex columns o = j) →
      readAt g2.grid j = readAt g.grid j
        ∧ readAt g2.screen.draw_buffer j = readAt g.screen.draw_buffer j := by
    intro j hj
    exact hout j (fun k o _ hk ho hc => hj ⟨k, o, hk, ho, hc⟩)
  have hgrid : gc.grid = g2.grid := by rw [hgc]
  have hdraw : gc.screen.draw_buffer = draw3 := by rw [hgc]
  have hsnake : gc.snake = g.snake := by rw [hgc]; exact hsn
  have hfood : gc.food = g.food := by rw [hgc]; exact hfo
  have hrd : ∀ j, readAt gc.screen.draw_buffer j
      = if j = cellIndex columns g.food then Exec.ok FOOD_SPRITE
        else readAt g2.screen.draw_buffer j := by
    intro j
    rw [hdraw]
    exact readAt_writeAt hw j
  have hinv2 : LoopInv rows columns 0 gc :=
    { rows_eq := by rw [hgc]; exact hro.trans hinv.rows_eq,
      columns_eq := by rw [hgc]; exact hco.trans hinv.columns_eq,
      draw_len := by rw [hdraw, writeAt_length hw, hdl]; exact hinv.draw_len,
      print_len := by rw [hgc]; simp only; rw [hpb]; exact hinv.print_len,
      grid_len := by rw [hgrid, hgl]; exact hinv.grid_len,
      parts_len := by rw [hsnake]; exact hinv.parts_len,
      wf := by rw [hsnake]; exact hinv.wf,
      len_ge := by rw [hsnake]; exact hinv.len_ge,
      len_le := by rw [hsnake]; exact hinv.len_le,
      dir := by rw [hsnake]; exact hinv.dir,
      sprite := by rw [hsnake]; exact hinv.sprite,
      food_sprite := by rw [hfood]; exact hinv.food_sprite,
      tags := by
        intro j v hv
        rw [hgrid] at hv
        by_cases hP : ∃ k o, k < g.snake.length ∧ g.snake.parts[k]? = some (some o)
            ∧ cellIndex columns o = j
        · rw [(hP1 j hP).1] at hv
          cases hv
          exact Or.inr (Or.inl rfl)
        · rw [(hP0 j hP).1] at hv
          exact hinv.tags j v hv,
      inside := by rw [hsnake]; exact hinv.inside,
      snake_tags := by
        intro j hj
        rw [hgrid] at hj
        rw [hsnake]
        by_cases hP : ∃ k o, k < g.snake.length ∧ g.snake.parts[k]? = some (some o)
            ∧ cellIndex columns o = j
        · obtain ⟨k, o, h1, h2, h3⟩ := hP
          exact ⟨k, o, Nat.zero_le _, h1, h2, h3⟩
        · rw [(hP0 j hP).1] at hj
          exact hinv.snake_tags j hj,
      food_tag := by
        intro j hj
        rw [hgrid] at hj
        rw [hfood]
        by_cases hP : ∃ k o, k < g.snake.length ∧ g.snake.parts[k]? = some (some o)
            ∧ cellIndex columns o = j
        · rw [(hP1 j hP).1] at hj
          cases hj
        · rw [(hP0 j hP).1] at hj
          exact hinv.food_tag j hj,
      food_cell := by rw [hfood]; exact hinv.food_cell,
      food_inside := by rw [hfood]; exact hinv.food_inside,
      draw_sync := by
        intro j v hv hv0
        rw [hrd j] at hv
        rw [hsnake, hfood]
        by_cases hjf : j = cellIndex columns g.food
        · exact Or.inr hjf
        · rw [if_neg hjf] at hv
          by_cases hP : ∃ k o, k < g.snake.length ∧ g.snake.parts[k]? = some (some o)
              ∧ cellIndex columns o = j
          · obtain ⟨k, o, h1, h2, h3⟩ := hP
            exact Or.inl ⟨k, o, Nat.zero_le _, h1, h2, h3⟩
          · rw [(hP0 j hP).2] at hv
            exact hinv.draw_sync j v hv hv0 }
  refine ⟨hinv2, HeadInside_of_parts (by rw [hsnake]) hh, hsnake, hfood, ?_, ?_⟩
  · intro j
    rw [hsnake, hgrid]
    constructor
    · intro hj
      by_cases hP : ∃ k o, k < g.snake.length ∧ g.snake.parts[k]? = some (some o)
          ∧ cellIndex columns o = j
      · exact hP
      · rw [(hP0 j hP).1] at hj
        obtain ⟨k, o, _, h1, h2, h3⟩ := hinv.snake_tags j hj
        exact ⟨k, o, h1, h2, h3⟩
    · intro hP
      exact (hP1 j hP).1
  · have hrep : repaint gc = paintAt
        (paintParts columns g.snake.parts g.snake.length 0
          (List.replicate (rows * columns) 0))
        (cellIndex columns g.food) FOOD_SPRITE := by
      unfold repaint
      rw [hsnake, hfood, hinv2.columns_eq, hinv2.rows_eq]
    rw [hrep]
    have hlen1 : gc.screen.draw_buffer.length = rows * columns := hinv2.draw_len
    have hlen2 : (paintParts columns g.snake.parts g.snake.length 0
        (List.replicate (rows * columns) 0)).length = rows * columns := by
      rw [paintParts_length, List.length_replicate]
    apply list_ext_readAt
    · rw [hlen1, paintAt_length, hlen2]
    · intro j hj0 hj1
      rw [hlen1] at hj1
      rw [hrd j]
      by_cases hjf : j = cellIndex columns g.food
      · rw [if_pos hjf, hjf]
        exact (readAt_paintAt_self _ hinv.food_cell.1
          (by rw [hlen2]; exact hinv.food_cell.2)).symm
      · rw [if_neg hjf, readAt_paintAt_ne _ hjf]
        by_cases hP : ∃ k o, k < g.snake.length ∧ g.snake.parts[k]? = some (some o)
            ∧ cellIndex columns o = j
        · rw [(hP1 j hP).2]
          obtain ⟨k, o, h1, h2, h3⟩ := hP
          exact (paintParts_read_in columns g.snake.parts g.snake.length 0 _ j hj0
            (by rw [List.length_replicate]; exact hj1)
            ⟨k, o, Nat.zero_le _, by omega, h2, h3⟩).symm
        · rw [(hP0 j hP).2, paintParts_read_out columns g.snake.parts g.snake.length 0 _ j
            (fun k o _ hk ho hc => hP ⟨k, o, by omega, ho, hc⟩)]
          have hr1 : j < (g.screen.draw_buffer.length : Int) := by
            rw [hinv.draw_len]; exact hj1
          have hr2 : j < ((List.replicate (rows * columns) (0 : Int)).length : Int) := by
            rw [List.length_replicate]; exact hj1
          obtain ⟨v, hv⟩ := readAt_of_range hj0 hr1
          obtain ⟨z, hz⟩ := readAt_of_range hj0 hr2
          rw [hv, hz, readAt_replicate hz]
          by_cases hv0 : v = 0
          · rw [hv0]
          · rcases hinv.draw_sync j v hv hv0 with ⟨k, o, _, h1, h2, h3⟩ | hfd
            · exact absurd ⟨k, o, h1, h2, h3⟩ hP
            · exact absurd hfd hjf

/-! ## Rendering and the tail retirement keep the loop invariant -/

theorem Screen_Render_eq_ok {screen : Screen} {sr : Screen × Printed}
    (hdraw : screen.draw_buffer.length = screen.rows * screen.columns)
    (hprint : screen.print_buffer.length = screen.rows * screen.columns + screen.rows)
    (h : Screen_Render screen = Exec.ok sr) :
    ∃ pb, sr.1 = { screen with print_buffer := pb }
      ∧ pb.length = screen.print_buffer.length := by
  obtain ⟨pb, hrun, hlen⟩ := Screen_Render_ok screen hdraw hprint
  rw [hrun] at h
  simp only [Exec.ok.injEq] at h
  exact ⟨pb, by rw [← h], hlen⟩

theorem LoopInv.withPrintBuffer {rows columns lo : Nat} {g : SnakeGame}
    (h : LoopInv rows columns lo g) (pb : List Int)
    (hlen : pb.length = g.screen.print_buffer.length) :
    LoopInv rows columns lo { g with screen := { g.screen with print_buffer := pb } } :=
  { rows_eq := h.rows_eq, columns_eq := h.columns_eq, draw_len := h.draw_len,
    print_len := hlen.trans h.print_len, grid_len := h.grid_len, parts_len := h.parts_len,
    wf := h.wf, len_ge := h.len_ge, len_le := h.len_le, dir := h.dir, sprite := h.sprite,
    food_sprite := h.food_sprite, tags := h.tags, inside := h.inside,
    snake_tags := h.snake_tags, food_tag := h.food_tag, food_cell := h.food_cell,
    food_inside := h.food_inside, draw_sync := h.draw_sync }

theorem SnakeGame_GameLoop_retire_inv {rows columns : Nat} {g gd : SnakeGame}
    (hinv : LoopInv rows columns 0 g) (hh : HeadInside rows columns g)
    (h : SnakeGame_GameLoop_retire g = Exec.ok gd) :
    LoopInv rows columns 1 gd ∧ gd.snake.length = g.snake.length := by
  obtain ⟨t, grid2, draw2, s2, ht, hwg, hwd, hmove, hgd⟩ := SnakeGame_GameLoop_retire_eq_ok h
  rw [hinv.columns_eq] at hwg hwd
  rw [hinv.wf.tail_eq] at ht
  have hL := hinv.len_ge
  obtain ⟨parts2, hd0, hhd0, hmv, hplen, hp0, hpk, _⟩ :=
    Snake_Move_ok g.snake g.snake.direction hinv.wf (by omega) hinv.dir
  rw [hmv] at hmove
  simp only [Exec.ok.injEq] at hmove
  subst hmove
  subst hgd
  obtain ⟨hd1, hhd1, hhin⟩ := hh
  have hall : ∀ k o, k < g.snake.length → g.snake.parts[k]? = some (some o) →
      Inside rows columns o :=
    hinv.inside (fun hd2 hhd2 => by
      rw [hhd1] at hhd2
      cases hhd2
      exact hhin)
  -- the new segment `k + 1` is where the old segment `k` was
  have hshift : ∀ k o, k + 1 < g.snake.length → g.snake.parts[k]? = some (some o) →
      ∃ o2, parts2[k + 1]? = some (some o2) ∧ o2.x = o.x ∧ o2.y = o.y
        ∧ o2.sprite = SNAKE_SPRITE := by
    intro k o hk ho
    obtain ⟨a, ha, _, _⟩ := hinv.wf.live (k + 1) hk
    have := hpk (k + 1) a o (by omega) hk ha (by simpa using ho)
    exact ⟨_, this, rfl, rfl, hinv.sprite (k + 1) a hk ha⟩
  have hmoved : ∀ i, i ≠ cellIndex columns t →
      (∃ k o, 0 ≤ k ∧ k < g.snake.length ∧ g.snake.parts[k]? = some (some o)
        ∧ cellIndex columns o = i) →
      ∃ k o, 1 ≤ k ∧ k < g.snake.length ∧ parts2[k]? = some (some o)
        ∧ cellIndex columns o = i := by
    rintro i hne ⟨k, o, _, hk, ho, hc⟩
    have hkl : k + 1 < g.snake.length := by
      by_contra hcon
      have hke : k = g.snake.length - 1 := by omega
      rw [hke, ht] at ho
      cases ho
      exact hne hc.symm
    obtain ⟨o2, ho2, hx, hy, _⟩ := hshift k o hkl ho
    exact ⟨k + 1, o2, by omega, hkl, ho2, (cellIndex_eq_of_pos hx hy).trans hc⟩
  have hlive : ∀ k, k < g.snake.length →
      ∃ o, parts2[k]? = some (some o) ∧ IsChar o.x ∧ IsChar o.y
        ∧ o.sprite = SNAKE_SPRITE := by
    intro k hk
    cases k with
    | zero =>
      refine ⟨_, hp0, isChar_toChar _, isChar_toChar _, ?_⟩
      exact hinv.sprite 0 hd0 (by omega) hhd0
    | succ k =>
      obtain ⟨o, ho, hox, hoy⟩ := hinv.wf.live k (by omega)
      obtain ⟨o2, ho2, hx, hy, hs⟩ := hshift k o hk ho
      exact ⟨o2, ho2, by rw [hx]; exact hox, by rw [hy]; exact hoy, hs⟩
  refine ⟨?_, rfl⟩
  exact
    { rows_eq := hinv.rows_eq, columns_eq := hinv.columns_eq,
      draw_len := by
        show draw2.length = rows * columns
        rw [writeAt_length hwd]; exact hinv.draw_len,
      print_len := hinv.print_len,
      grid_len := by
        show grid2.length = rows * columns
        rw [writeAt_length hwg]; exact hinv.grid_len,
      parts_len := hplen.trans hinv.parts_len,
      wf := ⟨hinv.wf.head_eq, hinv.wf.tail_eq, fun k hk =>
        let ⟨o, h1, h2, h3, _⟩ := hlive k hk
        ⟨o, h1, h2, h3⟩⟩,
      len_ge := hinv.len_ge, len_le := hinv.len_le, dir := hinv.dir,
      sprite := by
        intro k o hk ho
        obtain ⟨o2, h1, _, _, h4⟩ := hlive k hk
        have ho' : parts2[k]? = some (some o) := ho
        rw [h1] at ho'
        cases ho'
        exact h4,
      food_sprite := hinv.food_sprite,
      tags := by
        intro i v hv
        have hv' : readAt grid2 i = Exec.ok v := hv
        rw [readAt_writeAt hwg i] at hv'
        split at hv'
        · cases hv'
          exact Or.inl rfl
        · exact hinv.tags i v hv',
      inside := by
        intro hnew k o hk ho
        have ho' : parts2[k]? = some (some o) := ho
        cases k with
        | zero => exact hnew o ho
        | succ k =>
          have hk' : k + 1 < g.snake.length := hk
          obtain ⟨o1, ho1, _, _⟩ := hinv.wf.live k (by omega)
          obtain ⟨o2, ho2, hx, hy, _⟩ := hshift k o1 hk' ho1
          rw [ho2] at ho'
          cases ho'
          exact Inside_of_pos hx hy (hall k o1 (by omega) ho1),
      snake_tags := by
        intro i hi
        have hi' : readAt grid2 i = Exec.ok SNAKE_OBJTYPE := hi
        rw [readAt_writeAt hwg i] at hi'
        split at hi'
        · cases hi'
        · rename_i hne
          exact hmoved i hne (hinv.snake_tags i hi'),
      food_tag := by
        intro i hi
        have hi' : readAt grid2 i = Exec.ok FOOD_OBJTYPE := hi
        rw [readAt_writeAt hwg i] at hi'
        split at hi'
        · cases hi'
        · exact hinv.food_tag i hi',
      food_cell := hinv.food_cell, food_inside := hinv.food_inside,
      draw_sync := by
        intro i v hv hv0
        have hv' : readAt draw2 i = Exec.ok v := hv
        rw [readAt_writeAt hwd i] at hv'
        split at hv'
        · cases hv'
          exact absurd rfl hv0
        · rename_i hne
          rcases hinv.draw_sync i v hv' hv0 with hseg | hfd
          · exact Or.inl (hmoved i hne hseg)
          · exact Or.inr hfd }

/-! ## Every reachable state satisfies the loop invariant -/

/-- A returning tick, phase by phase. -/
theorem SnakeGame_GameLoop_tick_phases {g g2 : SnakeGame} {pending : Pending}
    {draws rest : List Nat}
    (h : SnakeGame_GameLoop_tick g pending draws = Exec.ok (g2, rest)) :
    ∃ ga gb gc sr, SnakeGame_GameLoop_classify g draws = Exec.ok (ga, rest)
      ∧ SnakeGame_ProcessInput ga pending = Exec.ok gb
      ∧ SnakeGame_GameLoop_redraw gb = Exec.ok gc
      ∧ Screen_Render gc.screen = Exec.ok sr
      ∧ SnakeGame_GameLoop_retire { gc with screen := sr.1 } = Exec.ok g2 := by
  rw [SnakeGame_GameLoop_tick_eq] at h
  obtain ⟨r, h1, h2⟩ := Exec.bind_eq_ok h
  obtain ⟨gb, h3, h4⟩ := Exec.bind_eq_ok h2
  obtain ⟨gc, h5, h6⟩ := Exec.bind_eq_ok h4
  obtain ⟨sr, h7, h8⟩ := Exec.bind_eq_ok h6
  obtain ⟨gd, h9, h10⟩ := Exec.bind_eq_ok h8
  simp only [Exec.ok.injEq, Prod.mk.injEq] at h10
  obtain ⟨h11, h12⟩ := h10
  subst h11
  have hr : r = (r.1, rest) := by rw [← h12]
  rw [hr] at h1
  exact ⟨r.1, gb, gc, sr, h1, h3, h5, h7, h9⟩

/-- The invariant at the moment `Screen_Render` is called, from the invariant
at the top of the tick. -/
theorem SnakeGame_GameLoop_drawn_inv {rows columns : Nat} {g ga gb gc : SnakeGame}
    {pending : Pending} {draws rest : List Nat} (hinv : LoopInv rows columns 1 g)
    (h1 : SnakeGame_GameLoop_classify g draws = Exec.ok (ga, rest))
    (h2 : SnakeGame_ProcessInput ga pending = Exec.ok gb)
    (h3 : SnakeGame_GameLoop_redraw gb = Exec.ok gc) :
    LoopInv rows columns 0 gc ∧ HeadInside rows columns gc
      ∧ (gc.snake.length = g.snake.length ∨ gc.snake.length = g.snake.length + 1)
      ∧ (∀ j, readAt gc.grid j = Exec.ok SNAKE_OBJTYPE ↔
          ∃ k o, k < gc.snake.length ∧ gc.snake.parts[k]? = some (some o)
            ∧ cellIndex columns o = j)
      ∧ gc.screen.draw_buffer = repaint gc := by
  obtain ⟨hia, hha, hla⟩ := SnakeGame_GameLoop_classify_inv hinv h1
  obtain ⟨hib, hpb, hlb, _, _, _⟩ := SnakeGame_ProcessInput_inv hia h2
  obtain ⟨hic, hhc, hsc, _, hsync, hrep⟩ :=
    SnakeGame_GameLoop_redraw_inv hib (HeadInside_of_parts hpb hha) h3
  refine ⟨hic, hhc, ?_, hsync, hrep⟩
  rw [hsc, hlb]
  exact hla

theorem SnakeGame_GameLoop_tick_inv {rows columns : Nat} {g g2 : SnakeGame}
    {pending : Pending} {draws rest : List Nat} (hinv : LoopInv rows columns 1 g)
    (h : SnakeGame_GameLoop_tick g pending draws = Exec.ok (g2, rest)) :
    LoopInv rows columns 1 g2
      ∧ (g2.snake.length = g.snake.length ∨ g2.snake.length = g.snake.length + 1) := by
  obtain ⟨ga, gb, gc, sr, h1, h2, h3, h4, h5⟩ := SnakeGame_GameLoop_tick_phases h
  obtain ⟨hic, hhc, hlc, _, _⟩ := SnakeGame_GameLoop_drawn_inv hinv h1 h2 h3
  have hdl : gc.screen.draw_buffer.length = gc.screen.rows * gc.screen.columns := by
    rw [hic.rows_eq, hic.columns_eq]; exact hic.draw_len
  have hpl : gc.screen.print_buffer.length
      = gc.screen.rows * gc.screen.columns + gc.screen.rows := by
    rw [hic.rows_eq, hic.columns_eq]; exact hic.print_len
  obtain ⟨pb, hsr, hlen⟩ := Screen_Render_eq_ok hdl hpl h4
  rw [hsr] at h5
  obtain ⟨hid, hld⟩ := SnakeGame_GameLoop_retire_inv (hic.withPrintBuffer pb hlen) hhc h5
  refine ⟨hid, ?_⟩
  rw [hld]
  exact hlc

theorem Reachable.loopInv {rows columns : Nat} (h4 : 4 ≤ rows * columns) {g : SnakeGame}
    (h : Reachable rows columns g) : LoopInv rows columns 1 g := by
  induction h with
  | beginPlay draws rest g hbp => exact SnakeGame_BeginPlay_inv rows columns h4 draws rest g hbp
  | tick g g2 pending draws rest _ htick ih => exact (SnakeGame_GameLoop_tick_inv ih htick).1

/-! ## Snake and grid after the redraw pass -/

theorem Snake.posAt_eq_some_iff {snake : Snake} {k : Nat} {p : Int × Int} :
    snake.posAt k = some p ↔ ∃ o, snake.parts[k]? = some (some o) ∧ (o.x, o.y) = p := by
  cases hq : snake.parts[k]? with
  | none => simp [Snake.posAt, hq]
  | some oo =>
    cases oo with
    | none => simp [Snake.posAt, hq]
    | some o => simp [Snake.posAt, hq]

/-- C11. Snake/grid synchronisation: on a grid of at least four cells, right
after the redraw pass of a tick that starts in a reachable state, a cell
`(x, y)` of the grid is tagged Snake exactly when some live segment of the
snake is positioned on it. -/
theorem snake_grid_sync_after_redraw (rows columns : Nat) (h4 : 4 ≤ rows * columns)
    (g ga gb gc : SnakeGame) (pending : Pending) (draws rest : List Nat)
    (hr : Reachable rows columns g)
    (h1 : SnakeGame_GameLoop_classify g draws = Exec.ok (ga, rest))
    (h2 : SnakeGame_ProcessInput ga pending = Exec.ok gb)
    (h3 : SnakeGame_GameLoop_redraw gb = Exec.ok gc)
    (x y : Int) (hx0 : 0 ≤ x) (hx1 : x < (columns : Int)) (hy0 : 0 ≤ y)
    (hy1 : y < (rows : Int)) :
    readAt gc.grid (POS_TO_INDEX columns x y) = Exec.ok SNAKE_OBJTYPE
      ↔ ∃ k, k < gc.snake.length ∧ gc.snake.posAt k = some (x, y) := by
  obtain ⟨hic, ⟨hd, hhd, hhin⟩, _, hsync, _⟩ :=
    SnakeGame_GameLoop_drawn_inv (hr.loopInv h4) h1 h2 h3
  have hall := hic.inside (fun hd2 hhd2 => by
    rw [hhd] at hhd2
    cases hhd2
    exact hhin)
  have hcell : cellIndex columns { x := x, y := y, type := 0, sprite := 0 }
      = POS_TO_INDEX columns x y := rfl
  have hxy : Inside rows columns { x := x, y := y, type := 0, sprite := 0 } :=
    ⟨⟨hx0, hx1⟩, ⟨hy0, hy1⟩⟩
  rw [hsync]
  constructor
  · rintro ⟨k, o, hk, ho, hc⟩
    refine ⟨k, hk, ?_⟩
    obtain ⟨hox, hoy⟩ := cellIndex_inj (hall k o hk ho) hxy (hc.trans hcell.symm)
    rw [Snake.posAt_eq_some ho]
    simp only at hox hoy
    rw [hox, hoy]
  · rintro ⟨k, hk, hp⟩
    obtain ⟨o, ho, hpos⟩ := Snake.posAt_eq_some_iff.mp hp
    simp only [Prod.mk.injEq] at hpos
    refine ⟨k, o, hk, ho, ?_⟩
    unfold cellIndex
    rw [hpos.1, hpos.2]

set_option maxRecDepth 100000 in
/-- Witness of C11: the first tick of the 15 by 30 game entered with the food
on the start cell (14,7), at the cell (14,7). -/
theorem snake_grid_sync_after_redraw_witness :
    Reachable 15 30 bugStart
    ∧ SnakeGame_GameLoop_redraw bugFed = Exec.ok bugDrawn
    ∧ (readAt bugDrawn.grid (POS_TO_INDEX (30 : Nat) 14 7) = Exec.ok SNAKE_OBJTYPE
        ↔ ∃ k, k < bugDrawn.snake.length ∧ bugDrawn.snake.posAt k = some (14, 7)) :=
  ⟨bugStart_reachable, bugFed_redraw,
    snake_grid_sync_after_redraw 15 30 (by decide) bugStart bugFed bugFed bugDrawn
      Pending.noKey [14, 7] [] bugStart_reachable bugStart_classify rfl bugFed_redraw
      14 7 (by decide) (by decide) (by decide) (by decide)⟩

/-! ## The draw buffer at the moment of rendering -/

/-- C15. The incremental draw buffer equals a repaint from scratch: on a grid
of at least four cells, at the moment `Screen_Render` is called in a tick that
starts in a reachable state, the draw buffer is the all-zero buffer with the
snake glyph painted at the cell of every live segment and then the food glyph
painted at the food's cell; a non-zero byte is only found at the cell of a
live segment or of the food. -/
theorem draw_buffer_eq_repaint (rows columns : Nat) (h4 : 4 ≤ rows * columns)
    (g ga gb gc : SnakeGame) (pending : Pending) (draws rest : List Nat)
    (hr : Reachable rows columns g)
    (h1 : SnakeGame_GameLoop_classify g draws = Exec.ok (ga, rest))
    (h2 : SnakeGame_ProcessInput ga pending = Exec.ok gb)
    (h3 : SnakeGame_GameLoop_redraw gb = Exec.ok gc) :
    gc.screen.draw_buffer = repaint gc
    ∧ (∀ j v, readAt gc.screen.draw_buffer j = Exec.ok v → v ≠ 0 →
        (∃ k o, k < gc.snake.length ∧ gc.snake.parts[k]? = some (some o)
          ∧ cellIndex columns o = j) ∨ j = cellIndex columns gc.food) := by
  obtain ⟨hic, _, _, _, hrep⟩ := SnakeGame_GameLoop_drawn_inv (hr.loopInv h4) h1 h2 h3
  refine ⟨hrep, ?_⟩
  intro j v hv hv0
  rcases hic.draw_sync j v hv hv0 with ⟨k, o, _, hk, ho, hc⟩ | hfd
  · exact Or.inl ⟨k, o, hk, ho, hc⟩
  · exact Or.inr hfd

set_option maxRecDepth 100000 in
/-- Witness of C15: the first tick of the 15 by 30 game entered with the food
on the start cell (14,7). -/
theorem draw_buffer_eq_repaint_witness :
    Reachable 15 30 bugStart
    ∧ SnakeGame_GameLoop_redraw bugFed = Exec.ok bugDrawn
    ∧ bugDrawn.screen.draw_buffer = repaint bugDrawn :=
  ⟨bugStart_reachable, bugFed_redraw,
    (draw_buffer_eq_repaint 15 30 (by decide) bugStart bugFed bugFed bugDrawn
      Pending.noKey [14, 7] [] bugStart_reachable bugStart_classify rfl bugFed_redraw).1⟩

/-! ## Length and capacity -/

/-- C17. Growth never exceeds capacity: on a grid of at least four cells,
in every reachable state the snake's length satisfies
`3 ≤ length ≤ rows * columns - 1`, the array of parts has `rows * columns`
slots, so that a `Snake_Grow` call in this state returns, having written slot
`length`, which lies below the capacity; and no tick makes the snake
shorter. -/
theorem snake_length_within_capacity (rows columns : Nat) (h4 : 4 ≤ rows * columns)
    (g : SnakeGame) (hr : Reachable rows columns g) :
    3 ≤ g.snake.length ∧ g.snake.length ≤ rows * columns - 1
    ∧ g.snake.parts.length = rows * columns
    ∧ g.snake.length < g.snake.parts.length
    ∧ (∃ s2, Snake_Grow g.snake = Exec.ok s2 ∧ s2.length = g.snake.length + 1
        ∧ (∃ o, s2.parts[g.snake.length]? = some (some o))
        ∧ s2.parts.length = rows * columns)
    ∧ (∀ pending draws g2 rest,
        SnakeGame_GameLoop_tick g pending draws = Exec.ok (g2, rest) →
          g.snake.length ≤ g2.snake.length ∧ g2.snake.length ≤ g.snake.length + 1) := by
  have hinv := hr.loopInv h4
  have hlen := hinv.len_le
  have hcap : g.snake.length < g.snake.parts.length := by rw [hinv.parts_len]; omega
  refine ⟨hinv.len_ge, by omega, hinv.parts_len, hcap, ?_, ?_⟩
  · obtain ⟨t, ht, _, _⟩ := hinv.wf.live (g.snake.length - 1) (by have := hinv.len_ge; omega)
    have ht2 : getPart g.snake.parts g.snake.tail = Exec.ok t := by
      rw [hinv.wf.tail_eq]; exact getPart_eq_ok.mpr ht
    have hg : Snake_Grow g.snake = Exec.ok { g.snake with
        parts := g.snake.parts.set g.snake.length
          (some (GameObject_Create t.x t.y SNAKE_OBJTYPE SNAKE_SPRITE)),
        tail := g.snake.length, length := g.snake.length + 1 } := by
      simp only [Snake_Grow, ht2, setPart_of_lt _ hcap, Exec.ok_bind, Exec.pure_eq]
    refine ⟨_, hg, rfl, ⟨_, List.getElem?_set_self hcap⟩, ?_⟩
    simp only [List.length_set]
    exact hinv.parts_len
  · intro pending draws g2 rest htick
    rcases (SnakeGame_GameLoop_tick_inv hinv htick).2 with h | h
    · omega
    · omega

/-- Witness of C17: the 15 by 30 game on entry to the loop. -/
theorem snake_length_within_capacity_witness :
    4 ≤ 15 * 30 ∧ Reachable 15 30 bugStart
    ∧ 3 ≤ bugStart.snake.length ∧ bugStart.snake.length ≤ 15 * 30 - 1
    ∧ bugStart.snake.parts.length = 15 * 30 :=
  ⟨by decide, bugStart_reachable,
    (snake_length_within_capacity 15 30 (by decide) bugStart bugStart_reachable).1,
    (snake_length_within_capacity 15 30 (by decide) bugStart bugStart_reachable).2.1,
    (snake_length_within_capacity 15 30 (by decide) bugStart bugStart_reachable).2.2.1⟩

/-! ## The error exits of a tick -/

theorem SnakeGame_GameLoop_classify_exit_message {g : SnakeGame} {draws : List Nat} {e : Exit}
    (htags : ∀ i v, readAt g.grid i = Exec.ok v →
      v = NONE_OBJTYPE ∨ v = SNAKE_OBJTYPE ∨ v = FOOD_OBJTYPE)
    (h : SnakeGame_GameLoop_classify g draws = Exec.exit e) :
    e.message = Message.victory ∨ e.message = Message.unfortunate g.snake.length := by
  cases hmax : SnakeGame_SnakeIsMaxLength g with
  | true =>
    rw [SnakeGame_GameLoop_classify_of_max g draws hmax] at h
    unfold SnakeGame_MACRO_PrintAndTerminate at h
    cases h
    exact Or.inl rfl
  | false =>
    right
    cases hget : getPart g.snake.parts g.snake.head with
    | ok hd =>
      have hh := getPart_eq_ok.mp hget
      rw [SnakeGame_GameLoop_classify_eq g draws hd hmax hh] at h
      split at h
      · unfold SnakeGame_MACRO_PrintAndTerminate at h
        cases h
        rfl
      · rcases Exec.bind_eq_exit h with h1 | ⟨tag, h1, h2⟩
        · exact absurd h1 (fun h3 => readAt_noExit (fun _ => False) _ _ _ h3)
        · split at h2
          · unfold SnakeGame_MACRO_PrintAndTerminate at h2
            cases h2
            rfl
          · split at h2
            · rcases Exec.bind_eq_exit h2 with h3 | ⟨g2, _, h4⟩
              · exact absurd h3 (fun h5 => SnakeGame_ConsumeFood_noExit (fun _ => False) _ _ h5)
              · exact absurd h4 (fun h5 =>
                  SnakeGame_SpawnFood_noExit (fun _ => False) _ draws (Nat.le_refl _) g2 _ h5)
            · split at h2
              · cases h2
              · rename_i n1 n2 n3
                rcases htags _ tag h1 with ht | ht | ht
                · exact absurd ht n3
                · exact absurd ht n1
                · exact absurd ht n2
    | exit e2 => exact absurd hget (fun h3 => getPart_noExit (fun _ => False) _ _ _ h3)
    | undefined =>
      simp [SnakeGame_GameLoop_classify, hmax, SnakeGame_GetInBounds, hget] at h
    | starved =>
      simp [SnakeGame_GameLoop_classify, hmax, SnakeGame_GetInBounds, hget] at h

theorem SnakeGame_GameLoop_retire_noExit {rows columns : Nat} {g : SnakeGame}
    (hinv : LoopInv rows columns 0 g) (e : Exit) :
    SnakeGame_GameLoop_retire g ≠ Exec.exit e := by
  intro h
  unfold SnakeGame_GameLoop_retire at h
  rcases Exec.bind_eq_exit h with h1 | ⟨t, _, h2⟩
  · exact getPart_noExit (fun _ => False) _ _ _ h1
  · rcases Exec.bind_eq_exit h2 with h3 | ⟨grid, _, h4⟩
    · exact writeAt_noExit (fun _ => False) _ _ _ _ h3
    · rcases Exec.bind_eq_exit h4 with h5 | ⟨screen, _, h6⟩
      · exact Screen_ClearPos_noExit (fun _ => False) _ _ _ _ h5
      · rcases Exec.bind_eq_exit h6 with h7 | ⟨snake, _, h8⟩
        · obtain ⟨parts2, hd0, _, hmv, _⟩ :=
            Snake_Move_ok g.snake g.snake.direction hinv.wf
              (by have := hinv.len_ge; omega) hinv.dir
          rw [hmv] at h7
          cases h7
        · cases h8

/-- Under the loop invariant a tick ends the process only through the Won
transition, the Lost transition or the failing read of a key. -/
theorem SnakeGame_GameLoop_tick_exit_inv {rows columns : Nat} {g : SnakeGame}
    {pending : Pending} {draws : List Nat} {e : Exit} (hinv : LoopInv rows columns 1 g)
    (h : SnakeGame_GameLoop_tick g pending draws = Exec.exit e) :
    e.message = Message.victory ∨ e.message = Message.unfortunate g.snake.length
      ∨ e.message = Message.invalidCharacter := by
  rw [SnakeGame_GameLoop_tick_eq] at h
  rcases Exec.bind_eq_exit h with h1 | ⟨r, h1, h2⟩
  · rcases SnakeGame_GameLoop_classify_exit_message hinv.tags h1 with hm | hm
    · exact Or.inl hm
    · exact Or.inr (Or.inl hm)
  · have hr : r = (r.1, r.2) := rfl
    rw [hr] at h1
    rcases Exec.bind_eq_exit h2 with h3 | ⟨gb, h3, h4⟩
    · have := SnakeGame_ProcessInput_exitsOnly _ _ e h3
      rw [this]
      exact Or.inr (Or.inr rfl)
    · rcases Exec.bind_eq_exit h4 with h5 | ⟨gc, h5, h6⟩
      · exact absurd h5 (fun h7 => SnakeGame_GameLoop_redraw_noExit (fun _ => False) _ _ h7)
      · rcases Exec.bind_eq_exit h6 with h7 | ⟨sr, h7, h8⟩
        · exact absurd h7 (fun h9 => Screen_Render_noExit (fun _ => False) _ _ h9)
        · obtain ⟨hic, _, _, _, _⟩ := SnakeGame_GameLoop_drawn_inv hinv h1 h3 h5
          have hdl : gc.screen.draw_buffer.length = gc.screen.rows * gc.screen.columns := by
            rw [hic.rows_eq, hic.columns_eq]; exact hic.draw_len
          have hpl : gc.screen.print_buffer.length
              = gc.screen.rows * gc.screen.columns + gc.screen.rows := by
            rw [hic.rows_eq, hic.columns_eq]; exact hic.print_len
          obtain ⟨pb, hsr, hlen⟩ := Screen_Render_eq_ok hdl hpl h7
          rw [hsr] at h8
          rcases Exec.bind_eq_exit h8 with h9 | ⟨gd, _, h10⟩
          · exact absurd h9 (SnakeGame_GameLoop_retire_noExit (hic.withPrintBuffer pb hlen) e)
          · cases h10

/-- C18. The invariant-violation aborts are unreachable in play: on a grid of
at least four cells, in every reachable state the heading is one of Up, Down,
Left, Right and every cell of the occupancy grid holds None, Snake or Food, and
no tick from such a state ends with the message of the 'Invalid Direction'
branch of `Snake_Move` or of the 'Unknown collision type' branch of the game
loop. -/
theorem invariant_aborts_unreachable (rows columns : Nat) (h4 : 4 ≤ rows * columns)
    (g : SnakeGame) (hr : Reachable rows columns g) :
    IsDirection g.snake.direction
    ∧ (∀ i v, readAt g.grid i = Exec.ok v →
        v = NONE_OBJTYPE ∨ v = SNAKE_OBJTYPE ∨ v = FOOD_OBJTYPE)
    ∧ (∀ pending draws e, SnakeGame_GameLoop_tick g pending draws = Exec.exit e →
        e.message ≠ Message.invalidDirection ∧ e.message ≠ Message.unknownCollision) := by
  have hinv := hr.loopInv h4
  refine ⟨hinv.dir, hinv.tags, ?_⟩
  intro pending draws e he
  rcases SnakeGame_GameLoop_tick_exit_inv hinv he with hm | hm | hm
  · rw [hm]
    exact ⟨fun h => Message.noConfusion h, fun h => Message.noConfusion h⟩
  · rw [hm]
    exact ⟨fun h => Message.noConfusion h, fun h => Message.noConfusion h⟩
  · rw [hm]
    exact ⟨fun h => Message.noConfusion h, fun h => Message.noConfusion h⟩

/-- Witness of C18: the 15 by 30 game on entry to the loop. -/
theorem invariant_aborts_unreachable_witness :
    4 ≤ 15 * 30 ∧ Reachable 15 30 bugStart ∧ IsDirection bugStart.snake.direction :=
  ⟨by decide, bugStart_reachable,
    (invariant_aborts_unreachable 15 30 (by decide) bugStart bugStart_reachable).1⟩

/-! ## Progress: no access of a tick is out of range -/

theorem SnakeGame_SpawnFood_progress (n : Nat) :
    ∀ (draws : List Nat), draws.length ≤ n → ∀ (g : SnakeGame),
      g.screen.columns ≠ 0 → g.screen.rows ≠ 0 →
      g.screen.columns ≤ 128 → g.screen.rows ≤ 128 →
      g.grid.length = g.screen.rows * g.screen.columns →
      SnakeGame_SpawnFood g draws ≠ Exec.undefined := by
  induction n with
  | zero =>
    intro draws hlen g _ _ _ _ _
    have hnil : draws = [] := List.length_eq_zero.mp (Nat.le_zero.mp hlen)
    subst hnil
    simp [SnakeGame_SpawnFood]
  | succ n ih =>
    intro draws hlen g hc0 hr0 hc hr hgl
    match draws, hlen with
    | [], _ => simp [SnakeGame_SpawnFood]
    | [_], _ => simp [SnakeGame_SpawnFood]
    | rx :: ry :: draws, hlen =>
      unfold SnakeGame_SpawnFood
      have hz : ¬ (g.screen.columns = 0 ∨ g.screen.rows = 0) := by
        rintro (e | e)
        · exact hc0 e
        · exact hr0 e
      rw [if_neg hz]
      obtain ⟨hx0, hx1⟩ := toChar_mod_of_le rx _ hc0 hc
      obtain ⟨hy0, hy1⟩ := toChar_mod_of_le ry _ hr0 hr
      have hin : Inside g.screen.rows g.screen.columns
          { g.food with
            x := toChar ((rx % g.screen.columns : Nat) : Int),
            y := toChar ((ry % g.screen.rows : Nat) : Int) } :=
        ⟨⟨hx0, hx1⟩, ⟨hy0, hy1⟩⟩
      obtain ⟨hi0, hi1⟩ := cellIndex_range hin
      rw [← hgl] at hi1
      obtain ⟨tag, htag⟩ := readAt_of_range hi0 hi1
      unfold cellIndex at htag hi0 hi1
      simp only at htag hi0 hi1 ⊢
      rw [htag]
      simp only
      by_cases ht : tag = NONE_OBJTYPE
      · rw [if_pos ht, writeAt_of_range FOOD_OBJTYPE hi0 hi1]
        simp
      · rw [if_neg ht]
        have hlen2 : draws.length ≤ n := by
          simp only [List.length_cons] at hlen
          omega
        exact ih draws hlen2 _ hc0 hr0 hc hr hgl

theorem SnakeGame_GameLoop_classify_progress {rows columns : Nat} {g : SnakeGame}
    (hc : columns ≤ 128) (hr : rows ≤ 128) (hinv : LoopInv rows columns 1 g)
    (draws : List Nat) : SnakeGame_GameLoop_classify g draws ≠ Exec.undefined := by
  have hL := hinv.len_ge
  have hlen := hinv.len_le
  cases hmax : SnakeGame_SnakeIsMaxLength g with
  | true =>
    rw [SnakeGame_GameLoop_classify_of_max g draws hmax]
    unfold SnakeGame_MACRO_PrintAndTerminate
    intro h
    cases h
  | false =>
    obtain ⟨hd, hhd, _, _⟩ := hinv.wf.live 0 (by omega)
    have hhd2 : g.snake.parts[g.snake.head]? = some (some hd) := by
      rw [hinv.wf.head_eq]; exact hhd
    rw [SnakeGame_GameLoop_classify_eq g draws hd hmax hhd2]
    cases hb : GameObject_InBounds hd g.screen.columns g.screen.rows with
    | false =>
      simp only [if_true]
      unfold SnakeGame_MACRO_PrintAndTerminate
      intro h
      cases h
    | true =>
      simp only [Bool.true_eq_false, if_false]
      rw [hinv.columns_eq, hinv.rows_eq] at hb
      have hin : Inside rows columns hd := GameObject_InBounds_eq_true.mp hb
      obtain ⟨hi0, hi1⟩ := cellIndex_range hin
      rw [← hinv.grid_len] at hi1
      obtain ⟨tag, htag⟩ := readAt_of_range hi0 hi1
      unfold cellIndex at htag
      rw [hinv.columns_eq, htag, Exec.ok_bind]
      by_cases h1 : tag = SNAKE_OBJTYPE
      · rw [if_pos h1]
        unfold SnakeGame_MACRO_PrintAndTerminate
        intro h
        cases h
      · rw [if_neg h1]
        by_cases h2 : tag = FOOD_OBJTYPE
        · rw [if_pos h2]
          obtain ⟨t, ht, _, _⟩ := hinv.wf.live (g.snake.length - 1) (by omega)
          have ht2 : getPart g.snake.parts g.snake.tail = Exec.ok t := by
            rw [hinv.wf.tail_eq]; exact getPart_eq_ok.mpr ht
          have hcap : g.snake.length < g.snake.parts.length := by
            rw [hinv.parts_len]; omega
          obtain ⟨hf0, hf1⟩ := hinv.food_cell
          rw [← hinv.grid_len] at hf1
          have hw := writeAt_of_range NONE_OBJTYPE hf0 hf1
          unfold cellIndex at hw
          have hcons : SnakeGame_ConsumeFood g = Exec.ok
              { g with
                grid := g.grid.set (POS_TO_INDEX columns g.food.x g.food.y).toNat NONE_OBJTYPE,
                snake := { g.snake with
                  parts := g.snake.parts.set g.snake.length
                    (some (GameObject_Create t.x t.y SNAKE_OBJTYPE SNAKE_SPRITE)),
                  tail := g.snake.length, length := g.snake.length + 1 } } := by
            simp only [SnakeGame_ConsumeFood, hinv.columns_eq, hw, Snake_Grow, ht2,
              setPart_of_lt _ hcap, Exec.ok_bind, Exec.pure_eq]
          rw [hcons, Exec.ok_bind]
          apply SnakeGame_SpawnFood_progress _ draws (Nat.le_refl _)
          · show g.screen.columns ≠ 0
            rw [hinv.columns_eq]
            intro e
            rw [e] at hlen
            omega
          · show g.screen.rows ≠ 0
            rw [hinv.rows_eq]
            intro e
            rw [e] at hlen
            omega
          · show g.screen.columns ≤ 128
            rw [hinv.columns_eq]; exact hc
          · show g.screen.rows ≤ 128
            rw [hinv.rows_eq]; exact hr
          · show (g.grid.set _ _).length = g.screen.rows * g.screen.columns
            rw [List.length_set, hinv.grid_len, hinv.rows_eq, hinv.columns_eq]
        · rw [if_neg h2]
          by_cases h3 : tag = NONE_OBJTYPE
          · rw [if_pos h3]
            intro h
            cases h
          · rw [if_neg h3]
            unfold ERROR_EXIT
            intro h
            cases h

theorem SnakeGame_GameLoop_parts_progress (n : Nat) :
    ∀ (i : Nat) (g : SnakeGame),
      (∀ k, i ≤ k → k < i + n → ∃ o, g.snake.parts[k]? = some (some o)
        ∧ 0 ≤ cellIndex g.screen.columns o
        ∧ cellIndex g.screen.columns o < (g.grid.length : Int)
        ∧ cellIndex g.screen.columns o < (g.screen.draw_buffer.length : Int)) →
      ∃ g2, SnakeGame_GameLoop_parts n i g = Exec.ok g2 := by
  induction n with
  | zero =>
    intro i g _
    exact ⟨g, rfl⟩
  | succ n ih =>
    intro i g hall
    obtain ⟨o, ho, h0, h1, h2⟩ := hall i (Nat.le_refl _) (by omega)
    have hw1 := writeAt_of_range SNAKE_OBJTYPE h0 h1
    have hw2 := writeAt_of_range o.sprite h0 h2
    unfold cellIndex at hw1 hw2
    have hstep : SnakeGame_GameLoop_parts (n + 1) i g
        = SnakeGame_GameLoop_parts n (i + 1)
            { g with
              grid := g.grid.set (POS_TO_INDEX g.screen.columns o.x o.y).toNat SNAKE_OBJTYPE,
              screen := { g.screen with
                draw_buffer := g.screen.draw_buffer.set
                  (POS_TO_INDEX g.screen.columns o.x o.y).toNat o.sprite } } := by
      simp only [SnakeGame_GameLoop_parts, getPart_eq_ok.mpr ho, hw1,
        SnakeGame_DrawGameObject, Screen_PushToPos, hw2, Exec.ok_bind, Exec.pure_eq]
    rw [hstep]
    apply ih
    intro k hk1 hk2
    obtain ⟨o2, ho2, g0, g1, g2⟩ := hall k (by omega) (by omega)
    refine ⟨o2, ho2, g0, ?_, ?_⟩
    · simp only [List.length_set]
      exact g1
    · simp only [List.length_set]
      exact g2

theorem SnakeGame_GameLoop_redraw_progress {rows columns : Nat} {g : SnakeGame}
    (hinv : LoopInv rows columns 0 g) (hh : HeadInside rows columns g) :
    ∃ gc, SnakeGame_GameLoop_redraw g = Exec.ok gc := by
  obtain ⟨hd1, hhd1, hhin⟩ := hh
  have hall : ∀ k o, k < g.snake.length → g.snake.parts[k]? = some (some o) →
      Inside rows columns o :=
    hinv.inside (fun hd2 hhd2 => by
      rw [hhd1] at hhd2
      cases hhd2
      exact hhin)
  obtain ⟨g2, hg2⟩ := SnakeGame_GameLoop_parts_progress g.snake.length 0 g (by
    intro k _ hk
    obtain ⟨o, ho, _, _⟩ := hinv.wf.live k (by omega)
    obtain ⟨h0, h1⟩ := cellIndex_range (hall k o (by omega) ho)
    rw [hinv.columns_eq, hinv.grid_len, hinv.draw_len]
    exact ⟨o, ho, h0, h1, h1⟩)
  obtain ⟨_, hfood, _, hcols, _, _, hdl, _, _⟩ :=
    SnakeGame_GameLoop_parts_frame _ _ _ _ hg2
  obtain ⟨hf0, hf1⟩ := hinv.food_cell
  rw [← hinv.draw_len, ← hdl, ← hfood] at hf1
  rw [← hfood] at hf0
  have hw := writeAt_of_range g2.food.sprite hf0 hf1
  unfold cellIndex at hw
  have hred : SnakeGame_GameLoop_redraw g = Exec.ok
      { g2 with
        screen := { g2.screen with
          draw_buffer := g2.screen.draw_buffer.set
            (POS_TO_INDEX columns g2.food.x g2.food.y).toNat g2.food.sprite } } := by
    unfold SnakeGame_GameLoop_redraw
    rw [hg2, Exec.ok_bind]
    simp only [SnakeGame_DrawGameObject, Screen_PushToPos, hcols, hinv.columns_eq, hw,
      Exec.ok_bind, Exec.pure_eq]
  exact ⟨_, hred⟩

theorem SnakeGame_GameLoop_retire_progress {rows columns : Nat} {g : SnakeGame}
    (hinv : LoopInv rows columns 0 g) (hh : HeadInside rows columns g) :
    ∃ gd, SnakeGame_GameLoop_retire g = Exec.ok gd := by
  obtain ⟨hd1, hhd1, hhin⟩ := hh
  have hL := hinv.len_ge
  have hall : ∀ k o, k < g.snake.length → g.snake.parts[k]? = some (some o) →
      Inside rows columns o :=
    hinv.inside (fun hd2 hhd2 => by
      rw [hhd1] at hhd2
      cases hhd2
      exact hhin)
  obtain ⟨t, ht, _, _⟩ := hinv.wf.live (g.snake.length - 1) (by omega)
  have ht2 : getPart g.snake.parts g.snake.tail = Exec.ok t := by
    rw [hinv.wf.tail_eq]; exact getPart_eq_ok.mpr ht
  obtain ⟨h0, h1⟩ := cellIndex_range (hall _ t (by omega) ht)
  have h2 := h1
  rw [← hinv.grid_len] at h1
  rw [← hinv.draw_len] at h2
  have hw1 := writeAt_of_range NONE_OBJTYPE h0 h1
  have hw2 := writeAt_of_range (0 : Int) h0 h2
  unfold cellIndex at hw1 hw2
  obtain ⟨parts2, hd0, _, hmv, _⟩ :=
    Snake_Move_ok g.snake g.snake.direction hinv.wf (by omega) hinv.dir
  have hret : SnakeGame_GameLoop_retire g = Exec.ok
      { g with
        grid := g.grid.set (POS_TO_INDEX columns t.x t.y).toNat NONE_OBJTYPE,
        screen := { g.screen with
          draw_buffer := g.screen.draw_buffer.set (POS_TO_INDEX columns t.x t.y).toNat 0 },
        snake := { g.snake with parts := parts2 } } := by
    simp only [SnakeGame_GameLoop_retire, ht2, hinv.columns_eq, hw1, Screen_ClearPos, hw2, hmv,
      Exec.ok_bind, Exec.pure_eq]
  exact ⟨_, hret⟩

/-- Under the loop invariant on a grid within the 8-bit coordinate range a
tick has no undefined access: it either returns the next state, or ends the
process, or waits for random draws. -/
theorem SnakeGame_GameLoop_tick_progress {rows columns : Nat} {g : SnakeGame}
    (hc : columns ≤ 128) (hr : rows ≤ 128) (hinv : LoopInv rows columns 1 g)
    (pending : Pending) (draws : List Nat) :
    SnakeGame_GameLoop_tick g pending draws ≠ Exec.undefined := by
  rw [SnakeGame_GameLoop_tick_eq]
  cases h1 : SnakeGame_GameLoop_classify g draws with
  | undefined => exact absurd h1 (SnakeGame_GameLoop_classify_progress hc hr hinv draws)
  | exit e => intro h; cases h
  | starved => intro h; cases h
  | ok r =>
    have hr1 : SnakeGame_GameLoop_classify g draws = Exec.ok (r.1, r.2) := h1
    obtain ⟨hia, hha, _⟩ := SnakeGame_GameLoop_classify_inv hinv hr1
    rw [Exec.ok_bind]
    cases h2 : SnakeGame_ProcessInput r.1 pending with
    | undefined =>
      exfalso
      unfold SnakeGame_ProcessInput at h2
      split at h2
      · cases h2
      · cases h2
      · repeat (first | cases h2 | split at h2)
    | exit e => intro h; cases h
    | starved => intro h; cases h
    | ok gb =>
      obtain ⟨hib, hparts, _, _, _, _⟩ := SnakeGame_ProcessInput_inv hia h2
      have hhb : HeadInside rows columns gb := HeadInside_of_parts hparts hha
      obtain ⟨gc, h3⟩ := SnakeGame_GameLoop_redraw_progress hib hhb
      obtain ⟨hic, hhc, _⟩ := SnakeGame_GameLoop_redraw_inv hib hhb h3
      have hdl : gc.screen.draw_buffer.length = gc.screen.rows * gc.screen.columns := by
        rw [hic.rows_eq, hic.columns_eq]; exact hic.draw_len
      have hpl : gc.screen.print_buffer.length
          = gc.screen.rows * gc.screen.columns + gc.screen.rows := by
        rw [hic.rows_eq, hic.columns_eq]; exact hic.print_len
      obtain ⟨pb, h4, hlen⟩ := Screen_Render_ok gc.screen hdl hpl
      obtain ⟨gd, h5⟩ := SnakeGame_GameLoop_retire_progress
        (hic.withPrintBuffer pb hlen) (HeadInside_of_parts rfl hhc)
      rw [Exec.ok_bind, h3, Exec.ok_bind, h4, Exec.ok_bind, h5, Exec.ok_bind]
      intro h
      cases h

theorem SnakeGame_BeginPlay_progress (rows columns : Nat) (h4 : 4 ≤ rows * columns)
    (hc : columns ≤ 128) (hr : rows ≤ 128) (draws : List Nat) :
    SnakeGame_BeginPlay (SnakeGame_Create rows columns) draws ≠ Exec.undefined := by
  have hparts : ∃ a b c tl, (SnakeGame_Create rows columns).snake.parts = a :: b :: c :: tl := by
    show ∃ a b c tl, List.replicate (rows * columns) none = a :: b :: c :: tl
    obtain ⟨m, hm⟩ : ∃ m, rows * columns = m + 3 := ⟨rows * columns - 3, by omega⟩
    rw [hm]
    exact ⟨none, none, none, List.replicate m none, rfl⟩
  obtain ⟨a, b, c, tl, hp⟩ := hparts
  have h3 := Snake_Init_grow_grow_any (SnakeGame_Create rows columns).snake
    (((SnakeGame_Create rows columns).screen.columns : Int) / 2 - 1)
    (((SnakeGame_Create rows columns).screen.rows : Int) / 2) a b c tl hp
  have hbp : SnakeGame_BeginPlay (SnakeGame_Create rows columns) draws
      = ((Snake_Init (SnakeGame_Create rows columns).snake
            (((SnakeGame_Create rows columns).screen.columns : Int) / 2 - 1)
            (((SnakeGame_Create rows columns).screen.rows : Int) / 2) >>= fun s1 =>
          Snake_Grow s1 >>= fun s2 => Snake_Grow s2) >>= fun s3 =>
          SnakeGame_SpawnFood { SnakeGame_Create rows columns with snake := s3 } draws) := by
    unfold SnakeGame_BeginPlay
    cases Snake_Init (SnakeGame_Create rows columns).snake
        (((SnakeGame_Create rows columns).screen.columns : Int) / 2 - 1)
        (((SnakeGame_Create rows columns).screen.rows : Int) / 2) with
    | ok s1 =>
      simp only [Exec.ok_bind]
      cases Snake_Grow s1 with
      | ok s2 =>
        rfl
      | exit e => rfl
      | undefined => rfl
      | starved => rfl
    | exit e => rfl
    | undefined => rfl
    | starved => rfl
  rw [hbp, h3, Exec.ok_bind]
  have hc0 : columns ≠ 0 := by
    intro e
    rw [e] at h4
    omega
  have hr0 : rows ≠ 0 := by
    intro e
    rw [e] at h4
    omega
  exact SnakeGame_SpawnFood_progress _ draws (Nat.le_refl _) _ hc0 hr0 hc hr
    (List.length_replicate _ _)

/-- C16. All grid and draw-buffer accesses are in range: on a grid of at
least four cells whose dimensions fit the 8-bit coordinates (the program's
grid is 15 by 30), `SnakeGame_BeginPlay` performs no out-of-range access, and
in every reachable state the food lies within `[0,columns) x [0,rows)`, no
tick performs an out-of-range access (collision read, food-cell clear, spawn
probe and write, per-segment redraw, food draw, tail retirement: an
out-of-range access would make the tick undefined), and once the
classification has returned, the food and every live segment lie within
`[0,columns) x [0,rows)`, their cell index `columns * y + x` in
`[0, rows * columns)`. -/
theorem accesses_in_range (rows columns : Nat) (h4 : 4 ≤ rows * columns)
    (hc : columns ≤ 128) (hr : rows ≤ 128) (g : SnakeGame) (hg : Reachable rows columns g) :
    (∀ draws, SnakeGame_BeginPlay (SnakeGame_Create rows columns) draws ≠ Exec.undefined)
    ∧ Inside rows columns g.food
    ∧ (∀ pending draws, SnakeGame_GameLoop_tick g pending draws ≠ Exec.undefined)
    ∧ (∀ draws ga rest, SnakeGame_GameLoop_classify g draws = Exec.ok (ga, rest) →
        (Inside rows columns ga.food
          ∧ 0 ≤ POS_TO_INDEX columns ga.food.x ga.food.y
          ∧ POS_TO_INDEX columns ga.food.x ga.food.y < ((rows * columns : Nat) : Int))
        ∧ ∀ k o, k < ga.snake.length → ga.snake.parts[k]? = some (some o) →
            Inside rows columns o
              ∧ 0 ≤ POS_TO_INDEX columns o.x o.y
              ∧ POS_TO_INDEX columns o.x o.y < ((rows * columns : Nat) : Int)) := by
  have hinv := hg.loopInv h4
  refine ⟨SnakeGame_BeginPlay_progress rows columns h4 hc hr, hinv.food_inside hc hr,
    SnakeGame_GameLoop_tick_progress hc hr hinv, ?_⟩
  intro draws ga rest h1
  obtain ⟨hia, ⟨hd1, hhd1, hhin⟩, _⟩ := SnakeGame_GameLoop_classify_inv hinv h1
  have hall : ∀ k o, k < ga.snake.length → ga.snake.parts[k]? = some (some o) →
      Inside rows columns o :=
    hia.inside (fun hd2 hhd2 => by
      rw [hhd1] at hhd2
      cases hhd2
      exact hhin)
  refine ⟨⟨hia.food_inside hc hr, cellIndex_range (hia.food_inside hc hr)⟩, ?_⟩
  intro k o hk ho
  exact ⟨hall k o hk ho, cellIndex_range (hall k o hk ho)⟩

/-- Witness of C16: the 15 by 30 game on entry to the loop. -/
theorem accesses_in_range_witness :
    4 ≤ 15 * 30 ∧ 30 ≤ 128 ∧ 15 ≤ 128 ∧ Reachable 15 30 bugStart
    ∧ Inside 15 30 bugStart.food
    ∧ SnakeGame_GameLoop_tick bugStart Pending.noKey [] ≠ Exec.undefined :=
  ⟨by decide, by decide, by decide, bugStart_reachable,
    (accesses_in_range 15 30 (by decide) (by decide) (by decide) bugStart
      bugStart_reachable).2.1,
    (accesses_in_range 15 30 (by decide) (by decide) (by decide) bugStart
      bugStart_reachable).2.2.1 Pending.noKey []⟩

set_option maxRecDepth 100000 in
theorem coil_classify1 (pb : List Int) :
    SnakeGame_GameLoop_classify (coilTop1.withPrintBuffer pb) []
      = Exec.ok (coilTop1.withPrintBuffer pb, []) := rfl

set_option maxRecDepth 100000 in
theorem coil_input1 (pb : List Int) :
    SnakeGame_ProcessInput (coilTop1.withPrintBuffer pb) Pending.noKey
      = Exec.ok (coilTop1.withPrintBuffer pb) := rfl

set_option maxRecDepth 100000 in
theorem coil_redraw1 (pb : List Int) :
    SnakeGame_GameLoop_redraw (coilTop1.withPrintBuffer pb)
      = Exec.ok (coilDrawn1.withPrintBuffer pb) := rfl

set_option maxRecDepth 100000 in
theorem coil_retire1 (pb : List Int) :
    SnakeGame_GameLoop_retire (coilDrawn1.withPrintBuffer pb)
      = Exec.ok (coilTop2.withPrintBuffer pb) := rfl

set_option maxRecDepth 100000 in
theorem coil_classify2 (pb : List Int) :
    SnakeGame_GameLoop_classify (coilTop2.withPrintBuffer pb) [13, 8]
      = Exec.ok (coilFed2.withPrintBuffer pb, []) := rfl

set_option maxRecDepth 100000 in
theorem coil_input2 (pb : List Int) :
    SnakeGame_ProcessInput (coilFed2.withPrintBuffer pb) Pending.noKey
      = Exec.ok (coilFed2.withPrintBuffer pb) := rfl

set_option maxRecDepth 100000 in
theorem coil_redraw2 (pb : List Int) :
    SnakeGame_GameLoop_redraw (coilFed2.withPrintBuffer pb)
      = Exec.ok (coilDrawn2.withPrintBuffer pb) := rfl

set_option maxRecDepth 100000 in
theorem coil_retire2 (pb : List Int) :
    SnakeGame_GameLoop_retire (coilDrawn2.withPrintBuffer pb)
      = Exec.ok (coilTop3.withPrintBuffer pb) := rfl

set_option maxRecDepth 100000 in
theorem coil_classify3 (pb : List Int) :
    SnakeGame_GameLoop_classify (coilTop3.withPrintBuffer pb) []
      = Exec.ok (coilTop3.withPrintBuffer pb, []) := rfl

set_option maxRecDepth 100000 in
theorem coil_input3 (pb : List Int) :
    SnakeGame_ProcessInput (coilTop3.withPrintBuffer pb) (Pending.key 97)
      = Exec.ok (coilTurned3.withPrintBuffer pb) := rfl

set_option maxRecDepth 100000 in
theorem coil_redraw3 (pb : List Int) :
    SnakeGame_GameLoop_redraw (coilTurned3.withPrintBuffer pb)
      = Exec.ok (coilDrawn3.withPrintBuffer pb) := rfl

set_option maxRecDepth 100000 in
theorem coil_retire3 (pb : List Int) :
    SnakeGame_GameLoop_retire (coilDrawn3.withPrintBuffer pb)
      = Exec.ok (coilTop4.withPrintBuffer pb) := rfl

set_option maxRecDepth 100000 in
theorem coil_classify4 (pb : List Int) :
    SnakeGame_GameLoop_classify (coilTop4.withPrintBuffer pb) []
      = Exec.ok (coilTop4.withPrintBuffer pb, []) := rfl

set_option maxRecDepth 100000 in
theorem coil_input4 (pb : List Int) :
    SnakeGame_ProcessInput (coilTop4.withPrintBuffer pb) (Pending.key 119)
      = Exec.ok (coilTurned4.withPrintBuffer pb) := rfl

set_option maxRecDepth 100000 in
theorem coil_redraw4 (pb : List Int) :
    SnakeGame_GameLoop_redraw (coilTurned4.withPrintBuffer pb)
      = Exec.ok (coilDrawn4.withPrintBuffer pb) := rfl

set_option maxRecDepth 100000 in
theorem coil_retire4 (pb : List Int) :
    SnakeGame_GameLoop_retire (coilDrawn4.withPrintBuffer pb)
      = Exec.ok (coilTop5.withPrintBuffer pb) := rfl

set_option maxRecDepth 100000 in
theorem coil_classify5 (pb : List Int) :
    SnakeGame_GameLoop_classify (coilTop5.withPrintBuffer pb) [0, 0]
      = Exec.ok (coilFed5.withPrintBuffer pb, []) := rfl

set_option maxRecDepth 100000 in
theorem coil_input5 (pb : List Int) :
    SnakeGame_ProcessInput (coilFed5.withPrintBuffer pb) (Pending.key 100)
      = Exec.ok (coilTurned5.withPrintBuffer pb) := rfl

set_option maxRecDepth 100000 in
theorem coil_redraw5 (pb : List Int) :
    SnakeGame_GameLoop_redraw (coilTurned5.withPrintBuffer pb)
      = Exec.ok (coilDrawn5.withPrintBuffer pb) := rfl

set_option maxRecDepth 100000 in
theorem coil_retire5 (pb : List Int) :
    SnakeGame_GameLoop_retire (coilDrawn5.withPrintBuffer pb)
      = Exec.ok (coilTop6.withPrintBuffer pb) := rfl

set_option maxRecDepth 100000 in
theorem coil_classify6 (pb : List Int) :
    SnakeGame_GameLoop_classify (coilTop6.withPrintBuffer pb) []
      = Exec.ok (coilTop6.withPrintBuffer pb, []) := rfl

set_option maxRecDepth 100000 in
theorem coil_input6 (pb : List Int) :
    SnakeGame_ProcessInput (coilTop6.withPrintBuffer pb) Pending.noKey
      = Exec.ok (coilTop6.withPrintBuffer pb) := rfl

set_option maxRecDepth 100000 in
theorem coil_redraw6 (pb : List Int) :
    SnakeGame_GameLoop_redraw (coilTop6.withPrintBuffer pb)
      = Exec.ok (coilDrawn6.withPrintBuffer pb) := rfl

set_option maxRecDepth 100000 in
theorem coil_retire6 (pb : List Int) :
    SnakeGame_GameLoop_retire (coilDrawn6.withPrintBuffer pb)
      = Exec.ok (coilTop7.withPrintBuffer pb) := rfl


/-- A tick whose phases are known, from a reachable state, leads to a
reachable state; only the print buffer of the result is left open. -/
theorem Reachable.tick_phases {rows columns : Nat} (h4 : 4 ≤ rows * columns)
    {g ga gb gc gd : SnakeGame} {pending : Pending} {draws rest : List Nat} {pb : List Int}
    (hr : Reachable rows columns (g.withPrintBuffer pb))
    (h1 : SnakeGame_GameLoop_classify (g.withPrintBuffer pb) draws
      = Exec.ok (ga.withPrintBuffer pb, rest))
    (h2 : SnakeGame_ProcessInput (ga.withPrintBuffer pb) pending
      = Exec.ok (gb.withPrintBuffer pb))
    (h3 : SnakeGame_GameLoop_redraw (gb.withPrintBuffer pb) = Exec.ok (gc.withPrintBuffer pb))
    (h5 : SnakeGame_GameLoop_retire (gc.withPrintBuffer pb) = Exec.ok (gd.withPrintBuffer pb)) :
    ∃ pb2, SnakeGame_GameLoop_tick (g.withPrintBuffer pb) pending draws
        = Exec.ok (gd.withPrintBuffer pb2, rest)
      ∧ Reachable rows columns (gd.withPrintBuffer pb2) := by
  have hinv := hr.loopInv h4
  obtain ⟨hic, _, _, _, _⟩ := SnakeGame_GameLoop_drawn_inv hinv h1 h2 h3
  have hdl : (gc.withPrintBuffer pb).screen.draw_buffer.length
      = (gc.withPrintBuffer pb).screen.rows * (gc.withPrintBuffer pb).screen.columns := by
    rw [hic.rows_eq, hic.columns_eq]; exact hic.draw_len
  have hpl : (gc.withPrintBuffer pb).screen.print_buffer.length
      = (gc.withPrintBuffer pb).screen.rows * (gc.withPrintBuffer pb).screen.columns
        + (gc.withPrintBuffer pb).screen.rows := by
    rw [hic.rows_eq, hic.columns_eq]; exact hic.print_len
  obtain ⟨pb2, ht⟩ := SnakeGame_GameLoop_tick_eq_ok h1 h2 h3 hdl hpl h5
  have ht2 : SnakeGame_GameLoop_tick (g.withPrintBuffer pb) pending draws
      = Exec.ok (gd.withPrintBuffer pb2, rest) := ht
  exact ⟨pb2, ht2, Reachable.tick _ _ _ _ _ hr ht2⟩

set_option maxRecDepth 100000 in
theorem coilTop1_beginPlay :
    SnakeGame_BeginPlay (SnakeGame_Create 15 30) [14, 8]
      = Exec.ok (coilTop1.withPrintBuffer (List.replicate 465 0), []) := by
  decide

theorem coilTop1_reachable : ∃ pb, Reachable 15 30 (coilTop1.withPrintBuffer pb) :=
  ⟨_, Reachable.beginPlay [14, 8] [] _ coilTop1_beginPlay⟩

theorem coilTop2_reachable : ∃ pb, Reachable 15 30 (coilTop2.withPrintBuffer pb) := by
  obtain ⟨pb, h⟩ := coilTop1_reachable
  obtain ⟨pb2, _, h2⟩ := Reachable.tick_phases (by decide) h (coil_classify1 pb)
    (coil_input1 pb) (coil_redraw1 pb) (coil_retire1 pb)
  exact ⟨pb2, h2⟩

theorem coilTop3_reachable : ∃ pb, Reachable 15 30 (coilTop3.withPrintBuffer pb) := by
  obtain ⟨pb, h⟩ := coilTop2_reachable
  obtain ⟨pb2, _, h2⟩ := Reachable.tick_phases (by decide) h (coil_classify2 pb)
    (coil_input2 pb) (coil_redraw2 pb) (coil_retire2 pb)
  exact ⟨pb2, h2⟩

theorem coilTop4_reachable : ∃ pb, Reachable 15 30 (coilTop4.withPrintBuffer pb) := by
  obtain ⟨pb, h⟩ := coilTop3_reachable
  obtain ⟨pb2, _, h2⟩ := Reachable.tick_phases (by decide) h (coil_classify3 pb)
    (coil_input3 pb) (coil_redraw3 pb) (coil_retire3 pb)
  exact ⟨pb2, h2⟩

theorem coilTop5_reachable : ∃ pb, Reachable 15 30 (coilTop5.withPrintBuffer pb) := by
  obtain ⟨pb, h⟩ := coilTop4_reachable
  obtain ⟨pb2, _, h2⟩ := Reachable.tick_phases (by decide) h (coil_classify4 pb)
    (coil_input4 pb) (coil_redraw4 pb) (coil_retire4 pb)
  exact ⟨pb2, h2⟩

theorem coilTop6_reachable : ∃ pb, Reachable 15 30 (coilTop6.withPrintBuffer pb) := by
  obtain ⟨pb, h⟩ := coilTop5_reachable
  obtain ⟨pb2, _, h2⟩ := Reachable.tick_phases (by decide) h (coil_classify5 pb)
    (coil_input5 pb) (coil_redraw5 pb) (coil_retire5 pb)
  exact ⟨pb2, h2⟩

set_option maxRecDepth 100000 in
/-- C14, the code at a failing input. On the 15 by 30 grid, with the draws
14, 8 at `SnakeGame_BeginPlay`, no key in ticks 1 and 2, the draws 13, 8 when
the food on (14,8) is eaten in tick 2, the keys 'a' in tick 3, 'w' in tick 4
and 'd' in tick 5, and the draws 0, 0 when the food on (13,8) is eaten in tick
5, the top of tick 6 is reached with a snake of five segments on (14,8),
(13,8), (13,9), (14,9), (14,8): the head is in bounds, the length is not
`rows * columns - 1`, the segments other than the head are on pairwise
distinct cells, and the head is on the cell of the tail.  The tag read under
the head is None, not Snake: the classification returns the state unchanged
and the tick returns the next state instead of ending in Lost. -/
theorem self_collision_missed_after_growth :
    ∃ pb, Reachable 15 30 (coilTop6.withPrintBuffer pb)
      ∧ SnakeGame_SnakeIsMaxLength (coilTop6.withPrintBuffer pb) = false
      ∧ SnakeGame_GetInBounds (coilTop6.withPrintBuffer pb) = Exec.ok true
      ∧ (coilTop6.withPrintBuffer pb).snake.length = 5
      ∧ List.map (coilTop6.withPrintBuffer pb).snake.posAt [0, 1, 2, 3, 4]
          = [some (14, 8), some (13, 8), some (13, 9), some (14, 9), some (14, 8)]
      ∧ (List.map (coilTop6.withPrintBuffer pb).snake.posAt [1, 2, 3, 4]).Nodup
      ∧ (coilTop6.withPrintBuffer pb).snake.posAt 0
          = (coilTop6.withPrintBuffer pb).snake.posAt 4
      ∧ SnakeGame_GetCollision (coilTop6.withPrintBuffer pb) = Exec.ok NONE_OBJTYPE
      ∧ SnakeGame_GameLoop_classify (coilTop6.withPrintBuffer pb) []
          = Exec.ok (coilTop6.withPrintBuffer pb, [])
      ∧ ∃ pb2, SnakeGame_GameLoop_tick (coilTop6.withPrintBuffer pb) Pending.noKey []
          = Exec.ok (coilTop7.withPrintBuffer pb2, []) := by
  obtain ⟨pb, h⟩ := coilTop6_reachable
  obtain ⟨pb2, h2, _⟩ := Reachable.tick_phases (by decide) h (coil_classify6 pb)
    (coil_input6 pb) (coil_redraw6 pb) (coil_retire6 pb)
  refine ⟨pb, h, rfl, rfl, rfl, rfl, ?_, rfl, rfl, coil_classify6 pb, pb2, h2⟩
  show (List.map coilTop6.snake.posAt [1, 2, 3, 4]).Nodup
  decide

end Cnake
